import Mathlib

/-!
# Engine: model loader, mesh and shader resources

A shallow embedding of `src/src/FileUtils.cpp`, `src/include/VertexArray.h`,
`src/src/Mesh.cpp` and `src/src/Shader.cpp`, followed by the properties proved
about them.

Conventions of the embedding.

* A C++ `float` is represented by its 32-bit pattern, an element of a type `F`
  with decidable equality.  `operator==` on `Vertex` is `memcmp` over the eight
  floats of the record (there is no padding), hence equality of the eight bit
  patterns, hence structural equality of the embedded record.  The hash of
  `std::hash<Vertex>` is a function of the eight float values, so records with
  equal bits hash alike and the `std::unordered_map` behaves as a finite map
  keyed by that equality; the hash itself is not modelled.
* The two float facts the loader uses are parameters: `zero`, the pattern of
  `0.0f` (also what `Vertex vertex{}` stores), and `oneMinus x`, the pattern of
  `1.0f - x`.
* `std::vector` is `List`; `size_t` is `Nat`; an `int` is an `Int` between
  `-2^31` and `2^31 - 1`.  The explicit narrowing conversions of the source
  (`static_cast<uint32_t>`, `static_cast<GLsizei>`) are modelled with their
  wrap-around.
* A subscript outside a vector and an `int` expression whose value does not
  fit an `int` are undefined behaviour: the embedded function returns `none`.
* Calls to the graphics device and lines written to the standard streams are
  recorded, in order, in a list of `Effect`s; what the device answers (the
  names it generates, compile and link status) is an argument of the embedded
  function.
-/

/-! ## `VertexArray.h` -/

/-- The record `struct Vertex { float Position[3]; float Normal[3]; float TexCoords[2]; }`. -/
structure Vertex (F : Type) where
  Position : F × F × F
  Normal : F × F × F
  TexCoords : F × F
deriving DecidableEq, Repr

/-! ## tinyobj data, as `LoadObjModel` reads it -/

/-- The three subscripts of one face-vertex (`tinyobj::index_t`). -/
structure index_t where
  vertex_index : Int
  normal_index : Int
  texcoord_index : Int
deriving DecidableEq, Repr

/-- The flat float arrays of a parsed model (`tinyobj::attrib_t`). -/
structure attrib_t (F : Type) where
  vertices : List F
  normals : List F
  texcoords : List F

/-- One shape; `indices` stands for `shape.mesh.indices`. -/
structure shape_t where
  indices : List index_t

/-- What `tinyobj::LoadObj` hands back: its return value, the two message
strings and the parsed data. -/
structure ParseResult (F : Type) where
  ret : Bool
  warn : String
  err : String
  attrib : attrib_t F
  shapes : List shape_t

/-- The constants of float arithmetic the loader relies on. -/
structure FloatOps (F : Type) where
  zero : F
  oneMinus : F → F

/-! ## Effects -/

/-- The OpenGL enumerants the sources name. -/
inductive GLenum where
  | GL_ARRAY_BUFFER
  | GL_ELEMENT_ARRAY_BUFFER
  | GL_STATIC_DRAW
  | GL_FLOAT
  | GL_FALSE
  | GL_TRIANGLES
  | GL_UNSIGNED_INT
  | GL_VERTEX_SHADER
  | GL_FRAGMENT_SHADER
  | GL_COMPILE_STATUS
  | GL_LINK_STATUS
  | GL_TEXTURE_2D
  | GL_TEXTURE_WRAP_S
  | GL_TEXTURE_WRAP_T
  | GL_TEXTURE_MIN_FILTER
  | GL_TEXTURE_MAG_FILTER
  | GL_REPEAT
  | GL_LINEAR_MIPMAP_LINEAR
  | GL_LINEAR
  | GL_UNSIGNED_BYTE
  | GL_RGB8
  | GL_RGB
  | GL_RGBA8
  | GL_RGBA
  | GL_R8
  | GL_RED
  | GL_DEPTH_TEST
deriving DecidableEq, Repr

/-- A call to the graphics device, with the arguments that identify it.  Float
payloads and data pointers are not recorded. -/
inductive GLCall where
  | glGenVertexArrays (name : Nat)
  | glGenBuffers (name : Nat)
  | glBindVertexArray (name : Nat)
  | glBindBuffer (target : GLenum) (name : Nat)
  | glBufferData (target : GLenum) (bytes : Nat) (usage : GLenum)
  | glEnableVertexAttribArray (index : Nat)
  | glVertexAttribPointer (index size : Nat) (type normalized : GLenum) (stride offset : Nat)
  | glDrawElements (mode : GLenum) (count : Int) (type : GLenum) (offset : Nat)
  | glDeleteBuffers (name : Nat)
  | glDeleteVertexArrays (name : Nat)
  | glCreateShader (type : GLenum) (name : Nat)
  | glShaderSource (shader : Nat)
  | glCompileShader (shader : Nat)
  | glGetShaderiv (shader : Nat) (pname : GLenum)
  | glGetShaderInfoLog (shader : Nat)
  | glDeleteShader (shader : Nat)
  | glCreateProgram (name : Nat)
  | glAttachShader (program shader : Nat)
  | glLinkProgram (program : Nat)
  | glGetProgramiv (program : Nat) (pname : GLenum)
  | glGetProgramInfoLog (program : Nat)
  | glDeleteProgram (program : Nat)
  | glUseProgram (program : Nat)
  | glGetUniformLocation (program : Nat) (name : String)
  | glUniform1i (location : Int) (value : Int)
  | glUniform1f (location : Int)
  | glUniformMatrix4fv (location : Int) (count : Nat) (transpose : GLenum)
  | glUniform3fv (location : Int) (count : Nat)
  | glGenTextures (name : Nat)
  | glBindTexture (target : GLenum) (name : Nat)
  | glTexParameteri (target pname param : GLenum)
  | glTexImage2D (target : GLenum) (level : Nat) (internalFormat : GLenum) (width height : Int)
      (format type : GLenum)
  | glGenerateMipmap (target : GLenum)
  | glDeleteTextures (name : Nat)
  | glActiveTexture (unit : Nat)
  | glGetString
  | glEnable (cap : GLenum)
  | glClearColor
  | glViewport (x y width height : Int)
  | glClear


/-- A call to one of the other libraries: SDL, the function loader, the image
decoder, the mixer and the UI overlay.  Pointers are naturals, a null pointer
is `none`. -/
inductive SysCall where
  | SDL_Init
  | SDL_Quit
  | SDL_CreateWindow (result : Option Nat)
  | SDL_DestroyWindow (window : Nat)
  | SDL_SetRelativeMouseMode (enabled : Bool)
  | SDL_GetMouseState
  | SDL_GetTicks64
  | SDL_PumpEvents
  | SDL_GetKeyboardState
  | SDL_PollEvent
  | SDL_GL_SetAttribute
  | SDL_GL_CreateContext (window : Nat) (result : Option Nat)
  | SDL_GL_DeleteContext (context : Nat)
  | SDL_GL_GetProcAddress
  | SDL_GetWindowSize (window : Nat)
  | SDL_GL_SetSwapInterval (interval : Int)
  | SDL_GL_SwapWindow (window : Nat)
  | stbi_set_flip_vertically_on_load (flag : Bool)
  | stbi_load (result : Option Nat)
  | stbi_image_free (data : Option Nat)
  | ImGui_CreateContext
  | ImGui_GetIO
  | ImGui_StyleColorsDark
  | ImGui_ImplSDL2_InitForOpenGL
  | ImGui_ImplOpenGL3_Init
  | ImGui_ImplOpenGL3_Shutdown
  | ImGui_ImplSDL2_Shutdown
  | ImGui_DestroyContext
  | ImGui_ImplSDL2_ProcessEvent
  | ImGui_ImplOpenGL3_NewFrame
  | ImGui_ImplSDL2_NewFrame
  | ImGui_NewFrame
  | ImGui_Window (title : String)
  | ImGui_Button (label : String)
  | ImGui_Text (text : String)
  | ImGui_End
  | ImGui_Render
  | ImGui_ImplOpenGL3_RenderDrawData
  | Mix_OpenAudio
  | Mix_LoadWAV (result : Option Nat)
  | Mix_FreeChunk (chunk : Nat)
  | Mix_Quit
  | Mix_PlayChannel (chunk : Nat) (result : Int)
  | Mix_Pause (channel : Int)
  | Mix_Resume (channel : Int)
  | Mix_HaltChannel (channel : Int)
  | Mix_Paused (channel : Int)
  | Mix_Playing (channel : Int)


/-- What a function does besides computing its result: a call to the graphics
device, a call to another library, or a line on a standard stream. -/
inductive Effect where
  | gl (call : GLCall)
  | sys (call : SysCall)
  | cout (line : String)
  | cerr (line : String)


/-- The calls to the graphics device among some effects, in order. -/
def gpuCalls : List Effect → List GLCall
  | [] => []
  | Effect.gl call :: rest => call :: gpuCalls rest
  | _ :: rest => gpuCalls rest

/-- The calls to the other libraries among some effects, in order. -/
def sysCalls : List Effect → List SysCall
  | [] => []
  | Effect.sys call :: rest => call :: sysCalls rest
  | _ :: rest => sysCalls rest

/-- The lines written to `std::cerr` among some effects, in order. -/
def diagnostics : List Effect → List String
  | [] => []
  | Effect.cerr line :: rest => line :: diagnostics rest
  | _ :: rest => diagnostics rest

/-! ## `FileUtils::LoadObjModel` -/

namespace FileUtils

/-- The value of `v[i]` for a vector `v` and an `int` subscript `i`; `none`
when the subscript is negative or not below `v.size()`. -/
def subscript {α : Type} (v : List α) (i : Int) : Option α :=
  if 0 ≤ i then v.get? i.toNat else none

/-- An `int` result: `none` when the mathematical value `x` does not fit. -/
def intValue (x : Int) : Option Int :=
  if -2147483648 ≤ x ∧ x ≤ 2147483647 then some x else none

/-- The value of `v[a * i + c]`, with `a * i + c` computed in `int`. -/
def readAt {α : Type} (v : List α) (a i c : Int) : Option α := do
  let p ← intValue (a * i)
  let s ← intValue (p + c)
  subscript v s

/-- The value of `static_cast<uint32_t>(n)` for a `size_t` value `n`. -/
def toUint32 (n : Nat) : Nat := n % 4294967296

/-- The mapping `std::unordered_map<Vertex, uint32_t>`, as an association list
in which the first entry for a key is the live one. -/
abbrev VertexMap (F : Type) := List (Vertex F × Nat)

/-- The value stored for `key`, if any (`find`). -/
def VertexMap.find {F : Type} [DecidableEq F] : VertexMap F → Vertex F → Option Nat
  | [], _ => none
  | (k, x) :: rest, key => if k = key then some x else VertexMap.find rest key

/-- The result of `m.count(key)`: 1 when the key is present, 0 otherwise. -/
def VertexMap.count {F : Type} [DecidableEq F] (m : VertexMap F) (key : Vertex F) : Nat :=
  match m.find key with
  | some _ => 1
  | none => 0

/-- The map after `m[key] = x`. -/
def VertexMap.assign {F : Type} (m : VertexMap F) (key : Vertex F) (x : Nat) : VertexMap F :=
  (key, x) :: m

/-- The value of the expression `m[key]` together with the map afterwards: a
missing key is inserted with the value-initialised `0`. -/
def VertexMap.index {F : Type} [DecidableEq F] (m : VertexMap F) (key : Vertex F) :
    Nat × VertexMap F :=
  match m.find key with
  | some x => (x, m)
  | none => (0, (key, 0) :: m)

/-- The local state of the loop of `LoadObjModel`. -/
structure LoadState (F : Type) where
  outVertices : List (Vertex F)
  outIndices : List Nat
  uniqueVertices : VertexMap F

/-- Lines 88-91: the record assembled for one face-vertex. -/
def assembleVertex {F : Type} (ops : FloatOps F) (attrib : attrib_t F) (index : index_t) :
    Option (Vertex F) := do
  let p0 ← readAt attrib.vertices 3 index.vertex_index 0
  let p1 ← readAt attrib.vertices 3 index.vertex_index 1
  let p2 ← readAt attrib.vertices 3 index.vertex_index 2
  let normal ←
    if index.normal_index ≥ 0 then do
      let n0 ← readAt attrib.normals 3 index.normal_index 0
      let n1 ← readAt attrib.normals 3 index.normal_index 1
      let n2 ← readAt attrib.normals 3 index.normal_index 2
      pure (n0, n1, n2)
    else pure (ops.zero, ops.zero, ops.zero)
  let texcoords ←
    if index.texcoord_index ≥ 0 then do
      let t0 ← readAt attrib.texcoords 2 index.texcoord_index 0
      let t1 ← readAt attrib.texcoords 2 index.texcoord_index 1
      pure (t0, ops.oneMinus t1)
    else pure (ops.zero, ops.zero)
  pure { Position := (p0, p1, p2), Normal := normal, TexCoords := texcoords }

/-- Lines 93-94: the deduplicating insertion of an assembled record. -/
def insertVertex {F : Type} [DecidableEq F] (st : LoadState F) (vertex : Vertex F) :
    LoadState F :=
  let st1 : LoadState F :=
    if st.uniqueVertices.count vertex = 0 then
      { st with
        uniqueVertices := st.uniqueVertices.assign vertex (toUint32 st.outVertices.length)
        outVertices := st.outVertices ++ [vertex] }
    else st
  let r := st1.uniqueVertices.index vertex
  { st1 with uniqueVertices := r.2, outIndices := st1.outIndices ++ [r.1] }

/-- The body of the inner loop (lines 88-94) for one face-vertex. -/
def loopBody {F : Type} [DecidableEq F] (ops : FloatOps F) (attrib : attrib_t F)
    (st : LoadState F) (index : index_t) : Option (LoadState F) :=
  (assembleVertex ops attrib index).map (insertVertex st)

/-- The inner loop over `shape.mesh.indices`. -/
def shapeLoop {F : Type} [DecidableEq F] (ops : FloatOps F) (attrib : attrib_t F)
    (st : LoadState F) (shape : shape_t) : Option (LoadState F) :=
  shape.indices.foldlM (loopBody ops attrib) st

/-- The outer loop over `shapes` (lines 86-96). -/
def loadLoop {F : Type} [DecidableEq F] (ops : FloatOps F) (attrib : attrib_t F)
    (st : LoadState F) (shapes : List shape_t) : Option (LoadState F) :=
  shapes.foldlM (shapeLoop ops attrib) st

/-- The state on entry to the loop: both vectors cleared, the map empty. -/
def initialState (F : Type) : LoadState F :=
  { outVertices := [], outIndices := [], uniqueVertices := [] }

/-- What a call of `LoadObjModel` leaves behind: the returned flag, the
caller's two vectors and the lines written to the standard streams. -/
structure LoadResult (F : Type) where
  ok : Bool
  outVertices : List (Vertex F)
  outIndices : List Nat
  log : List Effect

/-- The lines of 77 and 80-81, written whatever the parse returned. -/
def parseLog {F : Type} (parse : ParseResult F) : List Effect :=
  [Effect.cout "INFO::MODEL::Loading OBJ file"]
    ++ (if parse.warn.isEmpty then [] else [Effect.cout "WARN::MODEL::TinyObjLoader"])
    ++ (if parse.err.isEmpty then [] else [Effect.cerr "ERROR::MODEL::TinyObjLoader"])

/-- The function `FileUtils::LoadObjModel`, applied to the outcome `parse` of
`tinyobj::LoadObj` and to the caller's vectors `outVertices` and `outIndices`. -/
def LoadObjModel {F : Type} [DecidableEq F] (ops : FloatOps F) (parse : ParseResult F)
    (outVertices : List (Vertex F)) (outIndices : List Nat) : Option (LoadResult F) :=
  if parse.ret = false then
    some { ok := false, outVertices := outVertices, outIndices := outIndices,
           log := parseLog parse ++ [Effect.cerr "ERROR::MODEL::Failed to load OBJ file"] }
  else
    (loadLoop ops parse.attrib (initialState F) parse.shapes).map fun st =>
      { ok := true, outVertices := st.outVertices, outIndices := st.outIndices,
        log := parseLog parse ++ [Effect.cout "INFO::MODEL::Loaded"] }

end FileUtils

/-! ## `Mesh.h`, `Mesh.cpp` -/

/-- The data members of `class Mesh`.  `GLuint` handles are naturals, the
`GLsizei` index count is an `int`. -/
structure Mesh where
  m_VAO : Nat
  m_VBO : Nat
  m_EBO : Nat
  m_IndexCount : Int
deriving DecidableEq, Repr

/-- What the device writes through `glGenVertexArrays(1, &m_VAO)`,
`glGenBuffers(1, &m_VBO)` and `glGenBuffers(1, &m_EBO)`.  OpenGL generates
names other than 0; a 0 here stands for a call that wrote nothing, leaving the
zero-initialised member as it was. -/
structure MeshNames where
  vao : Nat
  vbo : Nat
  ebo : Nat
deriving DecidableEq, Repr

/-- The value of `static_cast<GLsizei>(n)` for a `size_t` value `n`: the `int`
congruent to `n` modulo `2^32`. -/
def toGLsizei (n : Nat) : Int :=
  (((n + 2147483648) % 4294967296 : Nat) : Int) - 2147483648

/-- The value of `sizeof(Vertex)`: eight floats. -/
def sizeofVertex : Nat := 32

/-- The value of `sizeof(unsigned int)`. -/
def sizeofUnsignedInt : Nat := 4

/-- The member function `Mesh::SetupMesh` (lines 46-85), given the number of
vertices and of indices. -/
def Mesh.SetupMesh (names : MeshNames) (this : Mesh) (vertexCount indexCount : Nat) :
    Mesh × List Effect :=
  ({ this with m_VAO := names.vao, m_VBO := names.vbo, m_EBO := names.ebo },
   [Effect.gl (GLCall.glGenVertexArrays names.vao),
    Effect.gl (GLCall.glGenBuffers names.vbo),
    Effect.gl (GLCall.glGenBuffers names.ebo),
    Effect.gl (GLCall.glBindVertexArray names.vao),
    Effect.gl (GLCall.glBindBuffer GLenum.GL_ARRAY_BUFFER names.vbo),
    Effect.gl (GLCall.glBufferData GLenum.GL_ARRAY_BUFFER (vertexCount * sizeofVertex)
      GLenum.GL_STATIC_DRAW),
    Effect.gl (GLCall.glBindBuffer GLenum.GL_ELEMENT_ARRAY_BUFFER names.ebo),
    Effect.gl (GLCall.glBufferData GLenum.GL_ELEMENT_ARRAY_BUFFER
      (indexCount * sizeofUnsignedInt) GLenum.GL_STATIC_DRAW),
    Effect.gl (GLCall.glEnableVertexAttribArray 0),
    Effect.gl (GLCall.glVertexAttribPointer 0 3 GLenum.GL_FLOAT GLenum.GL_FALSE sizeofVertex 0),
    Effect.gl (GLCall.glEnableVertexAttribArray 1),
    Effect.gl (GLCall.glVertexAttribPointer 1 3 GLenum.GL_FLOAT GLenum.GL_FALSE sizeofVertex 12),
    Effect.gl (GLCall.glEnableVertexAttribArray 2),
    Effect.gl (GLCall.glVertexAttribPointer 2 2 GLenum.GL_FLOAT GLenum.GL_FALSE sizeofVertex 24),
    Effect.gl (GLCall.glBindVertexArray 0),
    Effect.gl (GLCall.glBindBuffer GLenum.GL_ARRAY_BUFFER 0)])

/-- The constructor `Mesh::Mesh(vertices, indices)` (lines 9-26): the object
built and the effects of building it. -/
def Mesh.construct {F : Type} (names : MeshNames) (vertices : List (Vertex F))
    (indices : List Nat) : Mesh × List Effect :=
  let this : Mesh := { m_VAO := 0, m_VBO := 0, m_EBO := 0, m_IndexCount := 0 }
  if vertices.isEmpty then
    ({ this with m_VAO := 0, m_VBO := 0, m_EBO := 0, m_IndexCount := 0 },
     [Effect.cerr "ERROR::MESH::Cannot create mesh with empty vertices."])
  else if indices.isEmpty then
    ({ this with m_VAO := 0, m_VBO := 0, m_EBO := 0, m_IndexCount := 0 },
     [Effect.cerr "ERROR::MESH::Cannot create mesh with empty indices (use glDrawElements)."])
  else
    Mesh.SetupMesh names { this with m_IndexCount := toGLsizei indices.length }
      vertices.length indices.length

/-- The destructor `Mesh::~Mesh` (lines 29-43). -/
def Mesh.destruct (this : Mesh) : List Effect :=
  (if this.m_VBO ≠ 0 then [Effect.gl (GLCall.glDeleteBuffers this.m_VBO)] else [])
  ++ (if this.m_EBO ≠ 0 then [Effect.gl (GLCall.glDeleteBuffers this.m_EBO)] else [])
  ++ (if this.m_VAO ≠ 0 then [Effect.gl (GLCall.glDeleteVertexArrays this.m_VAO)] else [])

/-- The member function `Mesh::Bind` (lines 88-95). -/
def Mesh.Bind (this : Mesh) : List Effect :=
  if this.m_VAO ≠ 0 then [Effect.gl (GLCall.glBindVertexArray this.m_VAO)]
  else [Effect.cerr "WARN::MESH::Attempting to bind invalid mesh VAO."]

/-- The member function `Mesh::Unbind` (lines 98-101). -/
def Mesh.Unbind (_this : Mesh) : List Effect :=
  [Effect.gl (GLCall.glBindVertexArray 0)]

/-- The member function `Mesh::Draw` (lines 104-117). -/
def Mesh.Draw (this : Mesh) : List Effect :=
  if this.m_VAO ≠ 0 ∧ this.m_IndexCount > 0 then
    [Effect.gl (GLCall.glDrawElements GLenum.GL_TRIANGLES this.m_IndexCount
      GLenum.GL_UNSIGNED_INT 0)]
  else
    (if this.m_VAO = 0 then [Effect.cerr "WARN::MESH::Attempting to draw invalid mesh VAO."]
      else [])
    ++ (if this.m_IndexCount = 0 then
      [Effect.cerr "WARN::MESH::Attempting to draw mesh with zero indices."] else [])

/-! ## `Shader.h`, `Shader.cpp` -/

/-- The data member of `class Shader`. -/
structure Shader where
  m_ProgramID : Nat
deriving DecidableEq, Repr

/-- What the device answers while one `Shader` is constructed: the names
returned by `glCreateShader` for the two stages and by `glCreateProgram`, and
the compile and link status it reports. -/
structure ShaderDevice where
  vertexName : Nat
  vertexCompiles : Bool
  fragmentName : Nat
  fragmentCompiles : Bool
  programName : Nat
  links : Bool
deriving DecidableEq, Repr

/-- The helper `CompileShader(type, source, shaderName)` (lines 130-147), for
a device that returns `name` from `glCreateShader` and reports `success`. -/
def CompileShader (type : GLenum) (name : Nat) (success : Bool) : Nat × List Effect :=
  let pre : List Effect :=
    [Effect.gl (GLCall.glCreateShader type name),
     Effect.gl (GLCall.glShaderSource name),
     Effect.gl (GLCall.glCompileShader name),
     Effect.gl (GLCall.glGetShaderiv name GLenum.GL_COMPILE_STATUS)]
  if !success then
    (0, pre ++ [Effect.gl (GLCall.glGetShaderInfoLog name),
                Effect.cerr "ERROR::SHADER::COMPILATION_FAILED",
                Effect.gl (GLCall.glDeleteShader name)])
  else
    (name, pre ++ [Effect.cout "INFO::SHADER::Compiled successfully"])

/-- The helper `LinkProgram(vertexShader, fragmentShader)` (lines 149-166), for
a device that returns `name` from `glCreateProgram` and reports `success`. -/
def LinkProgram (name : Nat) (success : Bool) (vertexShader fragmentShader : Nat) :
    Nat × List Effect :=
  let pre : List Effect :=
    [Effect.gl (GLCall.glCreateProgram name),
     Effect.gl (GLCall.glAttachShader name vertexShader),
     Effect.gl (GLCall.glAttachShader name fragmentShader),
     Effect.gl (GLCall.glLinkProgram name),
     Effect.gl (GLCall.glGetProgramiv name GLenum.GL_LINK_STATUS)]
  if !success then
    (0, pre ++ [Effect.gl (GLCall.glGetProgramInfoLog name),
                Effect.cerr "ERROR::SHADER::PROGRAM::LINKING_FAILED",
                Effect.gl (GLCall.glDeleteProgram name)])
  else
    (name, pre)

/-- The constructor `Shader::Shader(vertexPath, fragmentPath)` (lines 26-60),
applied to the two texts `FileUtils::ReadFileToString` returned (the empty
string for a file that could not be read). -/
def Shader.construct (device : ShaderDevice) (vertexCode fragmentCode : String) :
    Shader × List Effect :=
  if vertexCode.isEmpty ∨ fragmentCode.isEmpty then
    ({ m_ProgramID := 0 }, [])
  else
    let vertex := CompileShader GLenum.GL_VERTEX_SHADER device.vertexName device.vertexCompiles
    let fragment :=
      CompileShader GLenum.GL_FRAGMENT_SHADER device.fragmentName device.fragmentCompiles
    if vertex.1 = 0 ∨ fragment.1 = 0 then
      ({ m_ProgramID := 0 },
       vertex.2 ++ fragment.2
        ++ (if vertex.1 ≠ 0 then [Effect.gl (GLCall.glDeleteShader vertex.1)] else [])
        ++ (if fragment.1 ≠ 0 then [Effect.gl (GLCall.glDeleteShader fragment.1)] else []))
    else
      let program := LinkProgram device.programName device.links vertex.1 fragment.1
      ({ m_ProgramID := program.1 },
       vertex.2 ++ fragment.2 ++ program.2
        ++ [Effect.gl (GLCall.glDeleteShader vertex.1),
            Effect.gl (GLCall.glDeleteShader fragment.1)]
        ++ (if program.1 ≠ 0 then [Effect.cout "INFO::SHADER::Program linked successfully"]
            else []))

/-- The destructor `Shader::~Shader` (lines 62-67). -/
def Shader.destruct (this : Shader) : List Effect :=
  if this.m_ProgramID ≠ 0 then
    [Effect.gl (GLCall.glDeleteProgram this.m_ProgramID),
     Effect.cout "INFO::SHADER::Program deleted"]
  else []

/-- The member function `Shader::Use` (lines 69-75). -/
def Shader.Use (this : Shader) : List Effect :=
  if this.m_ProgramID ≠ 0 then [Effect.gl (GLCall.glUseProgram this.m_ProgramID)] else []

/-- The member function `Shader::SetBool` (lines 80-83); `location` is what
the device answers to `glGetUniformLocation`. -/
def Shader.SetBool (location : Nat → String → Int) (this : Shader) (name : String)
    (value : Bool) : List Effect :=
  if this.m_ProgramID = 0 then []
  else [Effect.gl (GLCall.glGetUniformLocation this.m_ProgramID name),
        Effect.gl (GLCall.glUniform1i (location this.m_ProgramID name) (if value then 1 else 0))]

/-- The member function `Shader::SetInt` (lines 85-88). -/
def Shader.SetInt (location : Nat → String → Int) (this : Shader) (name : String)
    (value : Int) : List Effect :=
  if this.m_ProgramID = 0 then []
  else [Effect.gl (GLCall.glGetUniformLocation this.m_ProgramID name),
        Effect.gl (GLCall.glUniform1i (location this.m_ProgramID name) value)]

/-- The member function `Shader::SetFloat` (lines 90-93). -/
def Shader.SetFloat {F : Type} (location : Nat → String → Int) (this : Shader) (name : String)
    (_value : F) : List Effect :=
  if this.m_ProgramID = 0 then []
  else [Effect.gl (GLCall.glGetUniformLocation this.m_ProgramID name),
        Effect.gl (GLCall.glUniform1f (location this.m_ProgramID name))]

/-- The member function `Shader::SetMat4` (lines 95-98); a `glm::mat4` is its
sixteen floats. -/
def Shader.SetMat4 {F : Type} (location : Nat → String → Int) (this : Shader) (name : String)
    (_mat : List F) : List Effect :=
  if this.m_ProgramID = 0 then []
  else [Effect.gl (GLCall.glGetUniformLocation this.m_ProgramID name),
        Effect.gl (GLCall.glUniformMatrix4fv (location this.m_ProgramID name) 1
          GLenum.GL_FALSE)]

/-- The member function `Shader::SetVec3` (lines 99-102). -/
def Shader.SetVec3 {F : Type} (location : Nat → String → Int) (this : Shader) (name : String)
    (_value : F × F × F) : List Effect :=
  if this.m_ProgramID = 0 then []
  else [Effect.gl (GLCall.glGetUniformLocation this.m_ProgramID name),
        Effect.gl (GLCall.glUniform3fv (location this.m_ProgramID name) 1)]

/-! ## `Texture.h`, `Texture.cpp` -/

/-- The data members of `class Texture`. -/
structure Texture where
  m_TextureID : Nat
  m_Width : Int
  m_Height : Int
  m_Channels : Int
deriving DecidableEq, Repr

/-- What `stbi_load` hands back: the pixel buffer (`none` for a null pointer)
and what it wrote to the width, height and channel-count arguments. -/
structure Decoded where
  data : Option Nat
  width : Int
  height : Int
  channels : Int
deriving DecidableEq, Repr

/-- The constructor `Texture::Texture()` (line 5). -/
def Texture.construct : Texture :=
  { m_TextureID := 0, m_Width := 0, m_Height := 0, m_Channels := 0 }

/-- The destructor `Texture::~Texture` (lines 7-12). -/
def Texture.destruct (this : Texture) : List Effect :=
  if this.m_TextureID ≠ 0 then
    [Effect.gl (GLCall.glDeleteTextures this.m_TextureID),
     Effect.cout "INFO::TEXTURE::Deleted texture"]
  else []

/-- Lines 45-62 of `Texture::Load`: generation, configuration and upload. -/
def Texture.upload (name : Nat) (this : Texture) (data : Nat)
    (internalFormat dataFormat : GLenum) : List Effect :=
  [Effect.gl (GLCall.glGenTextures name),
   Effect.gl (GLCall.glBindTexture GLenum.GL_TEXTURE_2D name),
   Effect.gl (GLCall.glTexParameteri GLenum.GL_TEXTURE_2D GLenum.GL_TEXTURE_WRAP_S
     GLenum.GL_REPEAT),
   Effect.gl (GLCall.glTexParameteri GLenum.GL_TEXTURE_2D GLenum.GL_TEXTURE_WRAP_T
     GLenum.GL_REPEAT),
   Effect.gl (GLCall.glTexParameteri GLenum.GL_TEXTURE_2D GLenum.GL_TEXTURE_MIN_FILTER
     GLenum.GL_LINEAR_MIPMAP_LINEAR),
   Effect.gl (GLCall.glTexParameteri GLenum.GL_TEXTURE_2D GLenum.GL_TEXTURE_MAG_FILTER
     GLenum.GL_LINEAR),
   Effect.gl (GLCall.glTexImage2D GLenum.GL_TEXTURE_2D 0 internalFormat this.m_Width
     this.m_Height dataFormat GLenum.GL_UNSIGNED_BYTE),
   Effect.gl (GLCall.glGenerateMipmap GLenum.GL_TEXTURE_2D),
   Effect.sys (SysCall.stbi_image_free (some data)),
   Effect.gl (GLCall.glBindTexture GLenum.GL_TEXTURE_2D 0),
   Effect.cout "INFO::TEXTURE::Created OpenGL texture"]

/-- The member function `Texture::Load` (lines 14-66), for a decoder that
hands back `decoded` and a device that writes `name` through `glGenTextures`:
the returned flag, the object afterwards and the effects. -/
def Texture.Load (decoded : Decoded) (name : Nat) (this : Texture) :
    Bool × Texture × List Effect :=
  let this1 : Texture :=
    { this with m_Width := decoded.width, m_Height := decoded.height,
                m_Channels := decoded.channels }
  let pre : List Effect :=
    [Effect.sys (SysCall.stbi_set_flip_vertically_on_load true),
     Effect.sys (SysCall.stbi_load decoded.data)]
  match decoded.data with
  | none =>
    (false, this1,
     pre ++ [Effect.cerr "ERROR::TEXTURE::Failed to load texture file",
             Effect.sys (SysCall.stbi_image_free none)])
  | some data =>
    let pre1 := pre ++ [Effect.cout "INFO::TEXTURE::Loaded texture file"]
    if this1.m_Channels = 4 then
      (true, { this1 with m_TextureID := name },
       pre1 ++ Texture.upload name this1 data GLenum.GL_RGBA8 GLenum.GL_RGBA)
    else if this1.m_Channels = 3 then
      (true, { this1 with m_TextureID := name },
       pre1 ++ Texture.upload name this1 data GLenum.GL_RGB8 GLenum.GL_RGB)
    else if this1.m_Channels = 1 then
      (true, { this1 with m_TextureID := name },
       pre1 ++ Texture.upload name this1 data GLenum.GL_R8 GLenum.GL_RED)
    else
      (false, this1,
       pre1 ++ [Effect.cerr "ERROR::TEXTURE::Unsupported number of channels",
                Effect.sys (SysCall.stbi_image_free (some data))])

/-- The value of the macro `GL_MAX_COMBINED_TEXTURE_IMAGE_UNITS`, which
`Texture::Bind` compares the unit with.  `glad.h` is not among the sources; the
value is the one the OpenGL registry assigns to this enumerant. -/
def GL_MAX_COMBINED_TEXTURE_IMAGE_UNITS : Nat := 35661

/-- The value of the macro `GL_TEXTURE0`, from the OpenGL registry. -/
def GL_TEXTURE0 : Nat := 33984

/-- The member function `Texture::Bind` (lines 68-77); `unit` is an
`unsigned int`. -/
def Texture.Bind (this : Texture) (unit : Nat) : List Effect :=
  if this.m_TextureID ≠ 0 then
    (if unit ≥ GL_MAX_COMBINED_TEXTURE_IMAGE_UNITS then
      [Effect.cerr "WARN::TEXTURE::Texture unit might be invalid."] else [])
    ++ [Effect.gl (GLCall.glActiveTexture ((GL_TEXTURE0 + unit) % 4294967296)),
        Effect.gl (GLCall.glBindTexture GLenum.GL_TEXTURE_2D this.m_TextureID)]
  else []

/-- The member function `Texture::Unbind` (lines 79-83). -/
def Texture.Unbind (_this : Texture) : List Effect :=
  [Effect.gl (GLCall.glBindTexture GLenum.GL_TEXTURE_2D 0)]

/-! ## `Renderer.h`, `Renderer.cpp` -/

/-- The data members of `class Renderer`; the two observation pointers are the
objects they point to, `none` for a null pointer. -/
structure Renderer where
  m_Context : Option Nat
  m_CurrentShader : Option Shader
  m_CurrentMesh : Option Mesh
deriving DecidableEq, Repr

/-- What the libraries answer while a `Renderer` is initialised: the context
`SDL_GL_CreateContext` returns, whether `gladLoadGLLoader` succeeds, the window
size, and what `SDL_GL_SetSwapInterval` returns. -/
structure RendererDevice where
  context : Option Nat
  gladLoads : Bool
  width : Int
  height : Int
  swapInterval : Int
deriving DecidableEq, Repr

/-- The constructor `Renderer::Renderer()` (line 10). -/
def Renderer.construct : Renderer :=
  { m_Context := none, m_CurrentShader := none, m_CurrentMesh := none }

/-- The member function `Renderer::Shutdown` (lines 78-84). -/
def Renderer.Shutdown (this : Renderer) : Renderer × List Effect :=
  match this.m_Context with
  | some context =>
    ({ this with m_Context := none },
     [Effect.sys (SysCall.SDL_GL_DeleteContext context),
      Effect.cout "INFO::RENDERER::OpenGL context destroyed."])
  | none => (this, [])

/-- The destructor `Renderer::~Renderer` (lines 12-15). -/
def Renderer.destruct (this : Renderer) : List Effect :=
  (Renderer.Shutdown this).2

/-- The five `SDL_GL_SetAttribute` calls of lines 25-29. -/
def Renderer.setAttributes : List Effect :=
  List.replicate 5 (Effect.sys SysCall.SDL_GL_SetAttribute)

/-- The member function `Renderer::Initialize` (lines 17-76). -/
def Renderer.Initialize (device : RendererDevice) (this : Renderer) (window : Option Nat) :
    Bool × Renderer × List Effect :=
  match window with
  | none => (false, this, [Effect.cerr "ERROR::RENDERER::Window pointer is null."])
  | some w =>
    let pre := Renderer.setAttributes ++ [Effect.sys (SysCall.SDL_GL_CreateContext w device.context)]
    match device.context with
    | none =>
      (false, { this with m_Context := none },
       pre ++ [Effect.cerr "ERROR::RENDERER::SDL_GL_CreateContext failed"])
    | some context =>
      let pre1 := pre ++ [Effect.cout "INFO::RENDERER::OpenGL context created.",
                          Effect.sys SysCall.SDL_GL_GetProcAddress]
      if !device.gladLoads then
        (false, { this with m_Context := none },
         pre1 ++ [Effect.cerr "ERROR::RENDERER::Failed to initialize GLAD.",
                  Effect.sys (SysCall.SDL_GL_DeleteContext context)])
      else
        (true, { this with m_Context := some context },
         pre1 ++ [Effect.cout "INFO::RENDERER::GLAD initialized.",
                  Effect.gl GLCall.glGetString, Effect.cout "INFO::RENDERER::OpenGL Version",
                  Effect.gl GLCall.glGetString, Effect.cout "INFO::RENDERER::GLSL Version",
                  Effect.gl GLCall.glGetString, Effect.cout "INFO::RENDERER::Vendor",
                  Effect.gl GLCall.glGetString, Effect.cout "INFO::RENDERER::Renderer",
                  Effect.gl (GLCall.glEnable GLenum.GL_DEPTH_TEST),
                  Effect.gl GLCall.glClearColor,
                  Effect.sys (SysCall.SDL_GetWindowSize w),
                  Effect.gl (GLCall.glViewport 0 0 device.width device.height),
                  Effect.sys (SysCall.SDL_GL_SetSwapInterval 1)]
          ++ (if device.swapInterval < 0 then
                [Effect.cout "WARN::RENDERER: Unable to set VSync!"] else []))

/-- The member function `Renderer::Clear` (lines 86-89). -/
def Renderer.Clear (_this : Renderer) : List Effect :=
  [Effect.gl GLCall.glClear]

/-- The member function `Renderer::PrepareDraw` (lines 92-102). -/
def Renderer.PrepareDraw {F : Type} (location : Nat → String → Int) (this : Renderer)
    (shader : Shader) (mesh : Mesh) (mvpMatrix : List F) : Renderer × List Effect :=
  ({ this with m_CurrentShader := some shader, m_CurrentMesh := some mesh },
   shader.Use ++ shader.SetMat4 location "uMVP" mvpMatrix ++ mesh.Bind)

/-- The member function `Renderer::DrawPrepared` (lines 104-110). -/
def Renderer.DrawPrepared (this : Renderer) : List Effect :=
  match this.m_CurrentMesh with
  | some mesh => mesh.Draw
  | none => [Effect.cerr "WARN::RENDERER::DrawPrepared called without a prepared mesh."]

/-- The member function `Renderer::Present` (lines 113-119). -/
def Renderer.Present (this : Renderer) (window : Option Nat) : Renderer × List Effect :=
  match window, this.m_Context with
  | some w, some _ =>
    ({ this with m_CurrentShader := none, m_CurrentMesh := none },
     [Effect.sys (SysCall.SDL_GL_SwapWindow w)])
  | _, _ => (this, [])

/-! ## `Application.h`, `Application.cpp`: start-up and teardown -/

/-- The enumeration `GameState`. -/
inductive GameState where
  | Playing
  | Paused
  | ShowingHelp
deriving DecidableEq, Repr

/-- The float operations and constants the camera code relies on.  `F` stands
for the float values other than NaN, in their order. -/
structure CameraOps (F : Type) where
  ofInt : Int → F
  ofMillis : Nat → F
  neg : F → F
  add : F → F → F
  mul : F → F → F
  fmod : F → F → F
  radians : F → F
  cos : F → F
  sin : F → F
  normalize : F × F × F → F × F × F
  cross : F × F × F → F × F × F → F × F × F
  deg89 : F
  negDeg89 : F
  baseSpeed : F
  sensitivity : F
  rotationSpeed : F
  twoPi : F
  maxStep : F

/-- The data members of `class Application`, followed by the two pieces of the
UI library's own state that `Shutdown` inspects: whether a UI context exists
(`ImGui::GetCurrentContext() != nullptr`) and whether the platform backend is
initialised (`io.BackendPlatformUserData != NULL`). -/
structure Application (F : Type) where
  m_Window : Option Nat
  m_Renderer : Option Renderer
  m_LitTexturedShader : Option Shader
  m_LoadedMesh : Option Mesh
  m_DiffuseTexture : Option Texture
  m_CameraPos : F × F × F
  m_CameraFront : F × F × F
  m_CameraUp : F × F × F
  m_CameraYaw : F
  m_CameraPitch : F
  m_CameraBaseSpeed : F
  m_CameraSpeedMultiplier : F
  m_MouseSensitivity : F
  m_FirstMouse : Bool
  m_LastMouseX : F
  m_LastMouseY : F
  m_CurrentState : GameState
  m_IsRunning : Bool
  m_TickCountLast : Nat
  m_RotationAngle : F
  m_MixerInitialized : Bool
  m_SoundLoaded : Bool
  m_MusicChannel : Int
  m_TestSound : Option Nat
  uiContext : Bool
  uiBackend : Bool

/-- The constructor `Application::Application()` (lines 37-51) with the
default member initialisers of `Application.h`, in a process whose UI library
has no context yet. -/
def Application.construct {F : Type} (ops : CameraOps F) : Application F :=
  { m_Window := none
    m_Renderer := none
    m_LitTexturedShader := none
    m_LoadedMesh := none
    m_DiffuseTexture := none
    m_CameraPos := (ops.ofInt 0, ops.ofInt 0, ops.ofInt 3)
    m_CameraFront := (ops.ofInt 0, ops.ofInt 0, ops.ofInt (-1))
    m_CameraUp := (ops.ofInt 0, ops.ofInt 1, ops.ofInt 0)
    m_CameraYaw := ops.ofInt (-90)
    m_CameraPitch := ops.ofInt 0
    m_CameraBaseSpeed := ops.baseSpeed
    m_CameraSpeedMultiplier := ops.ofInt 2
    m_MouseSensitivity := ops.sensitivity
    m_FirstMouse := true
    m_LastMouseX := ops.ofInt 0
    m_LastMouseY := ops.ofInt 0
    m_CurrentState := GameState.Playing
    m_IsRunning := false
    m_TickCountLast := 0
    m_RotationAngle := ops.ofInt 0
    m_MixerInitialized := false
    m_SoundLoaded := false
    m_MusicChannel := -1
    m_TestSound := none
    uiContext := false
    uiBackend := false }

/-- What the mixer and the file system answer while the sound is loaded and
played: the return value of `Mix_OpenAudio`, the resolved path of the sound
file, whether the file opens, the chunk `Mix_LoadWAV` returns and the channel
`Mix_PlayChannel` returns. -/
structure AudioEnv where
  mixOpenAudio : Int
  soundFilePath : String
  fileOpens : Bool
  wav : Option Nat
  playChannel : Int
deriving DecidableEq, Repr

/-- The member function `Application::LoadAudio` (lines 427-471). -/
def Application.LoadAudio {F : Type} (env : AudioEnv) (this : Application F) :
    Bool × Application F × List Effect :=
  let opened : Option (Application F × List Effect) :=
    if !this.m_MixerInitialized then
      if env.mixOpenAudio < 0 then none
      else some ({ this with m_MixerInitialized := true },
                 [Effect.sys SysCall.Mix_OpenAudio, Effect.cout "INFO::APP::SDL_mixer initialized."])
    else some (this, [])
  match opened with
  | none =>
    (false, this,
     [Effect.sys SysCall.Mix_OpenAudio, Effect.cerr "ERROR::APP::SDL_mixer could not initialize!"])
  | some (this1, e1) =>
    if env.soundFilePath.isEmpty then
      (false, this1, e1 ++ [Effect.cerr "ERROR::APP::Could not get resource path for audio"])
    else
      let e2 := e1 ++ [Effect.cout "DEBUG::APP::Attempting to load audio"]
      if !env.fileOpens then
        (false, this1, e2 ++ [Effect.cerr "ERROR::APP::std::ifstream failed to open audio file"])
      else
        let e3 := e2 ++ [Effect.cout "DEBUG::APP::std::ifstream opened audio file OK.",
                         Effect.sys (SysCall.Mix_LoadWAV env.wav)]
        match env.wav with
        | none =>
          (false, { this1 with m_TestSound := none, m_SoundLoaded := false },
           e3 ++ [Effect.cerr "ERROR::APP::Mix_LoadWAV failed"])
        | some chunk =>
          (true, { this1 with m_TestSound := some chunk, m_SoundLoaded := true },
           e3 ++ [Effect.cout "INFO::APP::Sound loaded successfully"])

/-- The member function `Application::PlaySound` (lines 479-492), for a mixer
whose `Mix_PlayChannel` returns `channel`. -/
def Application.PlaySound {F : Type} (channel : Int) (this : Application F) :
    Application F × List Effect :=
  match this.m_SoundLoaded, this.m_TestSound, this.m_MixerInitialized with
  | true, some chunk, true =>
    ({ this with m_MusicChannel := channel },
     [Effect.sys (SysCall.Mix_PlayChannel chunk channel),
      if channel = -1 then Effect.cerr "ERROR::APP::Mix_PlayChannel failed"
      else Effect.cout "INFO::APP::Played sound once"])
  | _, _, _ =>
    if !this.m_MixerInitialized then
      (this, [Effect.cerr "ERROR::APP::Cannot play sound, mixer not initialized."])
    else if !this.m_SoundLoaded then
      (this, [Effect.cerr "ERROR::APP::Cannot play sound, not loaded."])
    else (this, [])

/-- The member function `Application::CloseAudio` (lines 473-477). -/
def Application.CloseAudio {F : Type} (this : Application F) : Application F × List Effect :=
  let r1 : Application F × List Effect :=
    match this.m_SoundLoaded, this.m_TestSound with
    | true, some chunk =>
      ({ this with m_TestSound := none },
       [Effect.sys (SysCall.Mix_FreeChunk chunk), Effect.cout "INFO::APP::Sound chunk freed."])
    | _, _ => (this, [])
  let r2 : Application F × List Effect :=
    if r1.1.m_MixerInitialized then
      ({ r1.1 with m_MixerInitialized := false, m_SoundLoaded := false },
       r1.2 ++ [Effect.sys SysCall.Mix_Quit, Effect.cout "INFO::APP::SDL_mixer quit."])
    else r1
  ({ r2.1 with m_MusicChannel := -1 }, r2.2)

/-- What the libraries, the file system and the devices answer during one
call of `Application::Initialize`. -/
structure InitEnv (F : Type) where
  sdlInit : Int
  window : Option Nat
  mouseX : Int
  mouseY : Int
  rendererDevice : RendererDevice
  vertPath : String
  fragPath : String
  vertexCode : String
  fragmentCode : String
  shaderDevice : ShaderDevice
  texturePath : String
  decoded : Decoded
  textureName : Nat
  modelPath : String
  parse : ParseResult F
  meshNames : MeshNames
  audio : AudioEnv
  ticks : Nat

/-- The effects of destroying the object a `std::unique_ptr` owned, if any. -/
def destroyOwned {α : Type} (destruct : α → List Effect) : Option α → List Effect
  | some object => destruct object
  | none => []

/-- Lines 146-151 of `Application::Initialize`: the optional audio and the
final bookkeeping. -/
def Application.InitializeAudio {F : Type} (env : InitEnv F) (this : Application F) :
    Bool × Application F × List Effect :=
  let loaded := Application.LoadAudio env.audio this
  let played : Application F × List Effect :=
    if !loaded.1 then (loaded.2.1, loaded.2.2 ++ [Effect.cout "WARN::APP::Audio failed to load."])
    else
      let r := Application.PlaySound env.audio.playChannel loaded.2.1
      (r.1, loaded.2.2 ++ r.2)
  (true, { played.1 with m_IsRunning := true, m_TickCountLast := env.ticks },
   played.2 ++ [Effect.sys SysCall.SDL_GetTicks64])

/-- Lines 125-151 of `Application::Initialize`: the model, then the audio. -/
def Application.InitializeModel {F : Type} [DecidableEq F] (ops : FloatOps F) (env : InitEnv F)
    (this : Application F) : Option (Bool × Application F × List Effect) :=
  if env.modelPath.isEmpty then
    some (false, this, [Effect.cerr "ERROR::APP::Could not get model path"])
  else
    match FileUtils.LoadObjModel ops env.parse [] [] with
    | none => none
    | some loaded =>
      if loaded.ok then
        let mesh := Mesh.construct env.meshNames loaded.outVertices loaded.outIndices
        let this1 : Application F := { this with m_LoadedMesh := some mesh.1 }
        let e1 := loaded.log ++ mesh.2 ++ destroyOwned Mesh.destruct this.m_LoadedMesh
          ++ [Effect.cout "INFO::APP::Model loaded and mesh created"]
        let r := Application.InitializeAudio env this1
        some (r.1, r.2.1, e1 ++ r.2.2)
      else
        some (false, this, loaded.log)

/-- Lines 110-151 of `Application::Initialize`: the texture, then the rest. -/
def Application.InitializeTexture {F : Type} [DecidableEq F] (ops : FloatOps F)
    (env : InitEnv F) (this : Application F) : Option (Bool × Application F × List Effect) :=
  if env.texturePath.isEmpty then
    some (false, this, [Effect.cerr "ERROR::APP::Could not get texture path"])
  else
    let e0 := destroyOwned Texture.destruct this.m_DiffuseTexture
    let loaded := Texture.Load env.decoded env.textureName Texture.construct
    let r1 : Application F × List Effect :=
      if !loaded.1 then
        ({ this with m_DiffuseTexture := none },
         e0 ++ loaded.2.2 ++ [Effect.cerr "ERROR::APP::Failed to load texture"]
          ++ Texture.destruct loaded.2.1)
      else
        ({ this with m_DiffuseTexture := some loaded.2.1 },
         e0 ++ loaded.2.2 ++ [Effect.cout "INFO::APP::Texture loaded"])
    (Application.InitializeModel ops env r1.1).map fun r => (r.1, r.2.1, r1.2 ++ r.2.2)

/-- Lines 88-151 of `Application::Initialize`: the shader, then the rest. -/
def Application.InitializeShader {F : Type} [DecidableEq F] (ops : FloatOps F)
    (env : InitEnv F) (this : Application F) : Option (Bool × Application F × List Effect) :=
  if env.vertPath.isEmpty ∨ env.fragPath.isEmpty then
    some (false, this,
      [Effect.cerr "ERROR::APP::Could not get shader resource path(s)."]
      ++ (if env.vertPath.isEmpty then [Effect.cerr "  - Vertex shader path failed."] else [])
      ++ (if env.fragPath.isEmpty then [Effect.cerr "  - Fragment shader path failed."] else []))
  else
    let shader := Shader.construct env.shaderDevice env.vertexCode env.fragmentCode
    let this1 : Application F := { this with m_LitTexturedShader := some shader.1 }
    let e1 := shader.2 ++ destroyOwned Shader.destruct this.m_LitTexturedShader
    if shader.1.m_ProgramID = 0 then
      some (false, this1,
        e1 ++ [Effect.cerr "ERROR::APP::Failed to load or link lit_textured shader."])
    else
      (Application.InitializeTexture ops env this1).map fun r =>
        (r.1, r.2.1, e1 ++ [Effect.cout "INFO::APP::Lit Textured Shader loaded."] ++ r.2.2)

/-- The member function `Application::Initialize` (lines 57-152): the returned
flag, the object afterwards and the effects; `none` when the model loader
reads outside an array. -/
def Application.Initialize {F : Type} [DecidableEq F] (ops : FloatOps F) (cam : CameraOps F)
    (env : InitEnv F) (this : Application F) : Option (Bool × Application F × List Effect) :=
  if env.sdlInit ≠ 0 then
    some (false, this, [Effect.sys SysCall.SDL_Init, Effect.cerr "ERROR::APP::SDL_Init failed"])
  else
    let e0 := [Effect.sys SysCall.SDL_Init, Effect.cout "INFO::APP::SDL initialized.",
               Effect.sys (SysCall.SDL_CreateWindow env.window)]
    let this0 : Application F := { this with m_Window := env.window }
    match env.window with
    | none =>
      some (false, this0,
        e0 ++ [Effect.cerr "ERROR::APP::Window creation failed", Effect.sys SysCall.SDL_Quit])
    | some window =>
      let e1 := e0 ++ [Effect.cout "INFO::APP::Window created."]
        ++ (if this0.m_CurrentState = GameState.Playing then
              [Effect.sys (SysCall.SDL_SetRelativeMouseMode true)] else [])
        ++ [Effect.sys SysCall.SDL_GetMouseState]
      let this1 : Application F :=
        { this0 with m_LastMouseX := cam.ofInt env.mouseX, m_LastMouseY := cam.ofInt env.mouseY,
                     m_FirstMouse := true }
      let renderer := Renderer.Initialize env.rendererDevice Renderer.construct this1.m_Window
      let this2 : Application F := { this1 with m_Renderer := some renderer.2.1 }
      let e2 := e1 ++ destroyOwned Renderer.destruct this1.m_Renderer ++ renderer.2.2
      if !renderer.1 then
        some (false, this2,
          e2 ++ [Effect.cerr "ERROR::APP::Renderer init failed.",
                 Effect.sys (SysCall.SDL_DestroyWindow window), Effect.sys SysCall.SDL_Quit])
      else
        let e3 := e2 ++ [Effect.cout "INFO::APP::Renderer initialized.",
                         Effect.sys SysCall.ImGui_CreateContext, Effect.sys SysCall.ImGui_GetIO,
                         Effect.sys SysCall.ImGui_StyleColorsDark]
        let this3 : Application F := { this2 with uiContext := true }
        if renderer.2.1.m_Context = none then
          some (false, this3,
            e3 ++ [Effect.cerr "ERROR::APP::ImGui init failed - no renderer/context."])
        else
          let e4 := e3 ++ [Effect.sys SysCall.ImGui_ImplSDL2_InitForOpenGL,
                           Effect.sys SysCall.ImGui_ImplOpenGL3_Init,
                           Effect.cout "INFO::APP::Dear ImGui initialized."]
          let this4 : Application F := { this3 with uiBackend := true }
          (Application.InitializeShader ops env this4).map fun r => (r.1, r.2.1, e4 ++ r.2.2)

/-- The member function `Application::Shutdown` (lines 372-402). -/
def Application.Shutdown {F : Type} (this : Application F) : Application F × List Effect :=
  if !this.m_IsRunning ∧ this.m_Window = none ∧ this.m_Renderer = none then (this, [])
  else
    let e0 := [Effect.cout "INFO::APP::Shutting down..."]
    let ui : Application F × List Effect :=
      if this.uiContext then
        if this.uiBackend then
          ({ this with uiBackend := false, uiContext := false },
           [Effect.sys SysCall.ImGui_GetIO, Effect.sys SysCall.ImGui_ImplOpenGL3_Shutdown,
            Effect.sys SysCall.ImGui_ImplSDL2_Shutdown,
            Effect.cout "INFO::APP::Dear ImGui shutdown.",
            Effect.sys SysCall.ImGui_DestroyContext])
        else
          ({ this with uiContext := false },
           [Effect.sys SysCall.ImGui_GetIO,
            Effect.cout "INFO::APP::Dear ImGui backend already shut down.",
            Effect.sys SysCall.ImGui_DestroyContext])
      else (this, [Effect.cout "INFO::APP::Dear ImGui context already destroyed."])
    let audio := Application.CloseAudio ui.1
    let e1 := e0 ++ ui.2 ++ [Effect.sys (SysCall.SDL_SetRelativeMouseMode false)] ++ audio.2
      ++ destroyOwned Mesh.destruct audio.1.m_LoadedMesh
      ++ destroyOwned Texture.destruct audio.1.m_DiffuseTexture
      ++ destroyOwned Shader.destruct audio.1.m_LitTexturedShader
    let this1 : Application F :=
      { audio.1 with m_LoadedMesh := none, m_DiffuseTexture := none,
                     m_LitTexturedShader := none }
    let e2 := e1 ++ (match this1.m_Renderer with
      | some renderer =>
        (Renderer.Shutdown renderer).2 ++ Renderer.destruct (Renderer.Shutdown renderer).1
      | none => [])
    let this2 : Application F := { this1 with m_Renderer := none }
    let e3 := e2 ++ (match this2.m_Window with
      | some window =>
        [Effect.sys (SysCall.SDL_DestroyWindow window), Effect.cout "INFO::APP::Window destroyed."]
      | none => [])
    ({ this2 with m_Window := none, m_IsRunning := false },
     e3 ++ [Effect.sys SysCall.SDL_Quit, Effect.cout "INFO::APP::SDL quit called."])

/-! ## `Application.cpp`: the frame loop -/

/-- An event as `ProcessEvents` tells events apart: `SDL_QUIT`, `SDL_KEYDOWN`
(with whether the key is `SDLK_ESCAPE`), `SDL_MOUSEMOTION` (with the relative
motion), anything else. -/
inductive SDL_Event where
  | quit
  | keydown (escape : Bool)
  | mousemotion (xrel yrel : Int)
  | other
deriving DecidableEq, Repr

/-- One event returned by `SDL_PollEvent`, with what the UI library answers
for `io.WantCaptureMouse` and what `SDL_GetMouseState` would return while it is
handled. -/
structure PolledEvent where
  event : SDL_Event
  wantCaptureMouse : Bool
  mouseX : Int
  mouseY : Int
deriving DecidableEq, Repr

/-- The keys `HandleKeyboardInput` reads from the keyboard state. -/
structure KeyboardState where
  w : Bool
  s : Bool
  a : Bool
  d : Bool
  lshift : Bool
  rshift : Bool
deriving DecidableEq, Repr

/-- What the UI library and the mixer answer during one call of `RenderUI`:
for each button whether it was pressed this frame, whether the tracked channel
is paused and playing, and the channel a restart would play on. -/
structure UiInput where
  resume : Bool
  help : Bool
  music : Bool
  restartSong : Bool
  quit : Bool
  back : Bool
  musicPaused : Bool
  musicPlaying : Bool
  restartChannel : Int
deriving DecidableEq, Repr

/-- The member function `Application::HandleMouseInput` (lines 224-234). -/
def Application.HandleMouseInput {F : Type} [LinearOrder F] (cam : CameraOps F)
    (this : Application F) (xoffset yoffset : F) : Application F :=
  let xoffset := cam.mul xoffset this.m_MouseSensitivity
  let yoffset := cam.mul yoffset this.m_MouseSensitivity
  let yaw := cam.add this.m_CameraYaw xoffset
  let pitch0 := cam.add this.m_CameraPitch yoffset
  let pitch1 := if pitch0 > cam.deg89 then cam.deg89 else pitch0
  let pitch := if pitch1 < cam.negDeg89 then cam.negDeg89 else pitch1
  let front : F × F × F :=
    (cam.mul (cam.cos (cam.radians yaw)) (cam.cos (cam.radians pitch)),
     cam.sin (cam.radians pitch),
     cam.mul (cam.sin (cam.radians yaw)) (cam.cos (cam.radians pitch)))
  { this with m_CameraYaw := yaw, m_CameraPitch := pitch, m_CameraFront := cam.normalize front }

/-- The body of the loop of `Application::ProcessEvents` (lines 181-207) for
one polled event. -/
def Application.ProcessEvent {F : Type} [LinearOrder F] (cam : CameraOps F)
    (this : Application F) (polled : PolledEvent) : Application F × List Effect :=
  let e0 := [Effect.sys SysCall.SDL_PollEvent, Effect.sys SysCall.ImGui_ImplSDL2_ProcessEvent]
  match polled.event with
  | SDL_Event.quit => ({ this with m_IsRunning := false }, e0)
  | SDL_Event.keydown true =>
    match this.m_CurrentState with
    | GameState.Playing =>
      ({ this with m_CurrentState := GameState.Paused },
       e0 ++ [Effect.sys (SysCall.SDL_SetRelativeMouseMode false)]
        ++ (if this.m_MusicChannel ≠ -1 then [Effect.sys (SysCall.Mix_Pause this.m_MusicChannel)]
            else []))
    | GameState.Paused =>
      ({ this with m_CurrentState := GameState.Playing, m_FirstMouse := true },
       e0 ++ [Effect.sys (SysCall.SDL_SetRelativeMouseMode true)]
        ++ (if this.m_MusicChannel ≠ -1 then [Effect.sys (SysCall.Mix_Resume this.m_MusicChannel)]
            else []))
    | GameState.ShowingHelp => ({ this with m_CurrentState := GameState.Paused }, e0)
  | SDL_Event.mousemotion xrel yrel =>
    if this.m_CurrentState = GameState.Playing ∧ polled.wantCaptureMouse = false then
      let first : Application F × List Effect :=
        if this.m_FirstMouse then
          ({ this with m_LastMouseX := cam.ofInt polled.mouseX,
                       m_LastMouseY := cam.ofInt polled.mouseY, m_FirstMouse := false },
           [Effect.sys SysCall.SDL_GetMouseState])
        else (this, [])
      (Application.HandleMouseInput cam first.1 (cam.ofInt xrel) (cam.neg (cam.ofInt yrel)),
       e0 ++ first.2)
    else (this, e0)
  | _ => (this, e0)

/-- The member function `Application::ProcessEvents` (lines 173-209), for the
events `SDL_PollEvent` returns one after the other. -/
def Application.ProcessEvents {F : Type} [LinearOrder F] (cam : CameraOps F)
    (events : List PolledEvent) (this : Application F) : Application F × List Effect :=
  let r := events.foldl
    (fun (acc : Application F × List Effect) polled =>
      let step := Application.ProcessEvent cam acc.1 polled
      (step.1, acc.2 ++ step.2))
    (this, [Effect.sys SysCall.SDL_PumpEvents, Effect.sys SysCall.SDL_GetKeyboardState,
            Effect.sys SysCall.ImGui_GetIO])
  (r.1, r.2 ++ [Effect.sys SysCall.SDL_PollEvent])

/-- The member function `Application::RestartAudio` (lines 407-420). -/
def Application.RestartAudio {F : Type} (channel : Int) (this : Application F) :
    Application F × List Effect :=
  match this.m_SoundLoaded, this.m_TestSound, this.m_MixerInitialized with
  | true, some _, true =>
    let halted : Application F × List Effect :=
      if this.m_MusicChannel ≠ -1 then
        ({ this with m_MusicChannel := -1 },
         [Effect.sys (SysCall.Mix_HaltChannel this.m_MusicChannel),
          Effect.cout "DEBUG::APP: Halted channel"])
      else (this, [])
    let played := Application.PlaySound channel halted.1
    (played.1, [Effect.cout "INFO:APP: Attempting to restart audio."] ++ halted.2 ++ played.2)
  | _, _, _ =>
    (this, [Effect.cout "INFO:APP: Audio not loaded or mixer not initialized, cannot restart."])

/-- Lines 333-352 of `Application::RenderUI`: the music button of the pause
menu. -/
def Application.musicButton {F : Type} (ui : UiInput) (this : Application F) : List Effect :=
  if this.m_MixerInitialized ∧ this.m_SoundLoaded then
    if this.m_MusicChannel ≠ -1 then
      let isMusicPaused := ui.musicPaused
      let isMusicActive := ui.musicPlaying || isMusicPaused
      [Effect.sys (SysCall.Mix_Paused this.m_MusicChannel),
       Effect.sys (SysCall.Mix_Playing this.m_MusicChannel)]
      ++ (if isMusicActive then
            [Effect.sys (SysCall.ImGui_Button
              (if isMusicPaused then "Resume Music" else "Pause Music"))]
            ++ (if ui.music then
                  (if isMusicPaused then [Effect.sys (SysCall.Mix_Resume this.m_MusicChannel)]
                   else [Effect.sys (SysCall.Mix_Pause this.m_MusicChannel)])
                else [])
          else [])
    else []
  else []

/-- The member function `Application::RenderUI` (lines 318-371). -/
def Application.RenderUI {F : Type} (ui : UiInput) (this : Application F) :
    Application F × List Effect :=
  match this.m_CurrentState with
  | GameState.Paused =>
    let e0 := [Effect.sys (SysCall.ImGui_Window "Pause Menu"),
               Effect.sys (SysCall.ImGui_Button "Resume")]
    let r1 : Application F × List Effect :=
      if ui.resume then
        ({ this with m_CurrentState := GameState.Playing, m_FirstMouse := true },
         e0 ++ [Effect.sys (SysCall.SDL_SetRelativeMouseMode true)]
          ++ (if this.m_MusicChannel ≠ -1 then
                [Effect.sys (SysCall.Mix_Resume this.m_MusicChannel)] else []))
      else (this, e0)
    let r2 : Application F × List Effect :=
      if ui.help then
        ({ r1.1 with m_CurrentState := GameState.ShowingHelp },
         r1.2 ++ [Effect.sys (SysCall.ImGui_Button "Help")])
      else (r1.1, r1.2 ++ [Effect.sys (SysCall.ImGui_Button "Help")])
    let e3 := r2.2 ++ Application.musicButton ui r2.1
      ++ [Effect.sys (SysCall.ImGui_Button "Restart Song")]
    let r4 : Application F × List Effect :=
      if ui.restartSong then
        let r := Application.RestartAudio ui.restartChannel r2.1
        (r.1, e3 ++ r.2)
      else (r2.1, e3)
    let e5 := r4.2 ++ [Effect.sys (SysCall.ImGui_Button "Quit")]
    let r6 : Application F := if ui.quit then { r4.1 with m_IsRunning := false } else r4.1
    (r6, e5 ++ [Effect.sys SysCall.ImGui_End])
  | GameState.ShowingHelp =>
    let e0 := [Effect.sys (SysCall.ImGui_Window "Help"),
               Effect.sys (SysCall.ImGui_Text "Controls:"),
               Effect.sys (SysCall.ImGui_Text "WASD    : Move Camera"),
               Effect.sys (SysCall.ImGui_Text "Mouse   : Look Around"),
               Effect.sys (SysCall.ImGui_Text "L Shift : Move Faster"),
               Effect.sys (SysCall.ImGui_Text "Escape  : Pause / Resume"),
               Effect.sys (SysCall.ImGui_Button "Back")]
    ((if ui.back then { this with m_CurrentState := GameState.Paused } else this),
     e0 ++ [Effect.sys SysCall.ImGui_End])
  | GameState.Playing => (this, [])

/-- The sum of two `glm::vec3`. -/
def vecAdd {F : Type} (cam : CameraOps F) (a b : F × F × F) : F × F × F :=
  (cam.add a.1 b.1, cam.add a.2.1 b.2.1, cam.add a.2.2 b.2.2)

/-- The difference of two `glm::vec3`. -/
def vecSub {F : Type} (cam : CameraOps F) (a b : F × F × F) : F × F × F :=
  (cam.add a.1 (cam.neg b.1), cam.add a.2.1 (cam.neg b.2.1), cam.add a.2.2 (cam.neg b.2.2))

/-- A `glm::vec3` times a float. -/
def vecScale {F : Type} (cam : CameraOps F) (a : F × F × F) (k : F) : F × F × F :=
  (cam.mul a.1 k, cam.mul a.2.1 k, cam.mul a.2.2 k)

/-- The member function `Application::HandleKeyboardInput` (lines 211-222). -/
def Application.HandleKeyboardInput {F : Type} (cam : CameraOps F) (this : Application F)
    (keyboardState : KeyboardState) (deltaTime : F) : Application F :=
  let currentSpeed :=
    if keyboardState.lshift || keyboardState.rshift then
      cam.mul this.m_CameraBaseSpeed this.m_CameraSpeedMultiplier
    else this.m_CameraBaseSpeed
  let velocity := cam.mul currentSpeed deltaTime
  let pos1 := if keyboardState.w then
    vecAdd cam this.m_CameraPos (vecScale cam this.m_CameraFront velocity) else this.m_CameraPos
  let pos2 := if keyboardState.s then
    vecSub cam pos1 (vecScale cam this.m_CameraFront velocity) else pos1
  let worldUp : F × F × F := (cam.ofInt 0, cam.ofInt 1, cam.ofInt 0)
  let cameraRight := cam.normalize (cam.cross this.m_CameraFront worldUp)
  let pos3 := if keyboardState.a then vecSub cam pos2 (vecScale cam cameraRight velocity) else pos2
  let pos4 := if keyboardState.d then vecAdd cam pos3 (vecScale cam cameraRight velocity) else pos3
  { this with m_CameraPos := pos4 }

/-- The member function `Application::Update` (lines 237-246). -/
def Application.Update {F : Type} (cam : CameraOps F) (keyboardState : KeyboardState)
    (this : Application F) (deltaTime : F) : Application F × List Effect :=
  if this.m_CurrentState = GameState.Playing then
    let angle := cam.fmod (cam.add this.m_RotationAngle (cam.mul cam.rotationSpeed deltaTime))
      cam.twoPi
    (Application.HandleKeyboardInput cam { this with m_RotationAngle := angle } keyboardState
      deltaTime,
     [Effect.sys SysCall.SDL_GetKeyboardState])
  else (this, [])

/-- What `Render` obtains from the matrix library and the device: the
transforms of lines 259-271 as functions of the object, the two light vectors
of lines 279-280, and the answers to `glGetUniformLocation`. -/
structure RenderEnv (F : Type) where
  location : Nat → String → Int
  mvp : Application F → List F
  model : Application F → List F
  lightDir : F × F × F
  lightColor : F × F × F

/-- Lines 266-304 of `Application::Render`: the scene. -/
def Application.renderScene {F : Type} (env : RenderEnv F) (this : Application F) :
    List Effect :=
  match this.m_LitTexturedShader, this.m_LoadedMesh, this.m_Renderer with
  | some shader, some mesh, some _ =>
    shader.Use
    ++ shader.SetMat4 env.location "uMVP" (env.mvp this)
    ++ shader.SetMat4 env.location "uModel" (env.model this)
    ++ shader.SetVec3 env.location "uViewPos" this.m_CameraPos
    ++ shader.SetVec3 env.location "uLightDir" env.lightDir
    ++ shader.SetVec3 env.location "uLightColor" env.lightColor
    ++ (match this.m_DiffuseTexture with
        | some texture => texture.Bind 0 ++ shader.SetInt env.location "uTextureDiffuse" 0
        | none => [])
    ++ mesh.Bind ++ mesh.Draw ++ mesh.Unbind
    ++ (match this.m_DiffuseTexture with
        | some texture => texture.Unbind
        | none => [])
  | _, _, _ =>
    (if this.m_LitTexturedShader = none then [Effect.cerr "WARN::RENDER::Shader not loaded!"]
      else [])
    ++ (if this.m_LoadedMesh = none then [Effect.cerr "WARN::RENDER::Mesh not loaded!"] else [])

/-- The member function `Application::Render` (lines 249-316); `none` when
`m_Renderer` is null, which the function dereferences. -/
def Application.Render {F : Type} (env : RenderEnv F) (ui : UiInput)
    (this : Application F) : Option (Application F × List Effect) :=
  match this.m_Renderer with
  | none => none
  | some renderer =>
    let e0 := [Effect.sys SysCall.ImGui_ImplOpenGL3_NewFrame,
               Effect.sys SysCall.ImGui_ImplSDL2_NewFrame, Effect.sys SysCall.ImGui_NewFrame]
      ++ renderer.Clear ++ Application.renderScene env this
    let r1 := Application.RenderUI ui this
    let e1 := e0 ++ r1.2 ++ [Effect.sys SysCall.ImGui_Render,
                             Effect.sys SysCall.ImGui_ImplOpenGL3_RenderDrawData]
    match r1.1.m_Renderer with
    | none => none
    | some renderer1 =>
      let presented := renderer1.Present r1.1.m_Window
      some ({ r1.1 with m_Renderer := some presented.1 }, e1 ++ presented.2)

/-- What one iteration of the frame loop receives: the tick count, the polled
events, the keyboard state and the answers of the UI library and the mixer. -/
structure FrameInput where
  ticks : Nat
  events : List PolledEvent
  keyboard : KeyboardState
  ui : UiInput
deriving DecidableEq, Repr

/-- The value of `deltaTime` in one iteration (lines 158-161): the elapsed
ticks, an unsigned 64-bit difference, as seconds, capped at `0.1f`. -/
def Application.deltaTime {F : Type} [LinearOrder F] (cam : CameraOps F) (tickCountNow : Nat)
    (this : Application F) : F :=
  let elapsed := cam.ofMillis ((tickCountNow % 18446744073709551616 + 18446744073709551616
    - this.m_TickCountLast % 18446744073709551616) % 18446744073709551616)
  if elapsed > cam.maxStep then cam.maxStep else elapsed

/-- The body of the loop of `Application::Run` (lines 158-168). -/
def Application.frame {F : Type} [LinearOrder F] (cam : CameraOps F) (env : RenderEnv F)
    (input : FrameInput) (this : Application F) : Option (Application F × List Effect) :=
  let deltaTime := Application.deltaTime cam input.ticks this
  let this1 : Application F := { this with m_TickCountLast := input.ticks }
  let r1 := Application.ProcessEvents cam input.events this1
  let r2 : Application F × List Effect :=
    if r1.1.m_CurrentState = GameState.Playing then
      Application.Update cam input.keyboard r1.1 deltaTime
    else (r1.1, [])
  (Application.Render env input.ui r2.1).map fun r3 =>
    (r3.1, [Effect.sys SysCall.SDL_GetTicks64] ++ r1.2 ++ r2.2 ++ r3.2)

/-- The loop of `Application::Run` (lines 157-169) on the inputs of the
successive iterations: the object and the effects when the loop exits; `none`
when the inputs run out while `m_IsRunning` still holds, or when an iteration
dereferences a null renderer. -/
def Application.runLoop {F : Type} [LinearOrder F] (cam : CameraOps F) (env : RenderEnv F) :
    List FrameInput → Application F → Option (Application F × List Effect)
  | [], this => if this.m_IsRunning then none else some (this, [])
  | input :: rest, this =>
    if this.m_IsRunning then
      match Application.frame cam env input this with
      | none => none
      | some r => (Application.runLoop cam env rest r.1).map fun r1 => (r1.1, r.2 ++ r1.2)
    else some (this, [])

/-- The member function `Application::Run` (lines 154-171). -/
def Application.Run {F : Type} [LinearOrder F] (cam : CameraOps F) (env : RenderEnv F)
    (inputs : List FrameInput) (this : Application F) : Option (Application F × List Effect) :=
  (Application.runLoop cam env inputs this).map fun r =>
    (r.1, [Effect.cout "INFO::APP::Entering main loop..."] ++ r.2
      ++ [Effect.cout "INFO::APP::Exited main loop."])

/-! ## `main.cpp` -/

/-- The destructor `Application::~Application` (lines 53-55): `Shutdown`, then
the destructors of the members, the four owning pointers in the reverse order
of their declaration. -/
def Application.destruct {F : Type} (this : Application F) : List Effect :=
  let down := Application.Shutdown this
  down.2 ++ destroyOwned Texture.destruct down.1.m_DiffuseTexture
    ++ destroyOwned Mesh.destruct down.1.m_LoadedMesh
    ++ destroyOwned Shader.destruct down.1.m_LitTexturedShader
    ++ destroyOwned Renderer.destruct down.1.m_Renderer

/-- An exception that leaves the `try` block of `main`: whether it derives from
`std::exception`, the object as the throw left it and the effects up to the
throw. -/
structure Thrown (F : Type) where
  isStdException : Bool
  app : Application F
  effects : List Effect

/-- The function `main` of `main.cpp` (lines 4-32), under a name of its own as
`main` is taken: the exit code and the effects.  `thrown`
is the exception that ends the `try` block, if one does; `inputs` are the
inputs of the iterations of the frame loop.  `none` when the loader reads
outside an array, when an iteration dereferences a null renderer, or when the
inputs run out while the loop is running. -/
def Engine.main {F : Type} [DecidableEq F] [LinearOrder F] (ops : FloatOps F) (cam : CameraOps F)
    (env : InitEnv F) (renderEnv : RenderEnv F) (inputs : List FrameInput)
    (thrown : Option (Thrown F)) : Option (Int × List Effect) :=
  match thrown with
  | some t =>
    let down := Application.Shutdown t.app
    some (1, t.effects
      ++ [Effect.cerr (if t.isStdException then "FATAL EXCEPTION"
                       else "FATAL UNKNOWN EXCEPTION occurred!")]
      ++ down.2 ++ Application.destruct down.1)
  | none =>
    match Application.Initialize ops cam env (Application.construct cam) with
    | none => none
    | some r =>
      if r.1 then
        match Application.Run cam renderEnv inputs r.2.1 with
        | none => none
        | some ran => some (0, r.2.2 ++ ran.2 ++ Application.destruct ran.1)
      else
        let down := Application.Shutdown r.2.1
        some (1, r.2.2 ++ [Effect.cerr "FATAL: Application initialization failed!"]
          ++ down.2 ++ Application.destruct down.1)

/-! ## Vocabulary of the resource properties -/

/-- The device keeps to the OpenGL contract while a `Shader` is constructed:
the names it creates are not 0, and a stage is not given the name of a stage
that is still alive (the vertex stage is alive when the fragment stage is
created exactly when it compiled). -/
def ShaderDevice.Valid (device : ShaderDevice) : Prop :=
  device.vertexName ≠ 0 ∧ device.fragmentName ≠ 0 ∧ device.programName ≠ 0 ∧
  (device.vertexCompiles = true → device.fragmentName ≠ device.vertexName)

instance (device : ShaderDevice) : Decidable device.Valid := by
  unfold ShaderDevice.Valid; infer_instance

/-- The stage objects alive after some device calls, starting from the stage
objects `live`: `glCreateShader` adds the created name, `glDeleteShader` removes
the deleted one.  `none` when a stage is deleted that is not alive (a second
deletion) or created under the name of one that is. -/
def stagesAlive : List GLCall → List Nat → Option (List Nat)
  | [], live => some live
  | GLCall.glCreateShader _ name :: rest, live =>
    if name ∈ live then none else stagesAlive rest (name :: live)
  | GLCall.glDeleteShader name :: rest, live =>
    if name ∈ live then stagesAlive rest (live.erase name) else none
  | _ :: rest, live => stagesAlive rest live

/-- The program objects alive after some device calls, in the same way, for
`glCreateProgram` and `glDeleteProgram`. -/
def programsAlive : List GLCall → List Nat → Option (List Nat)
  | [], live => some live
  | GLCall.glCreateProgram name :: rest, live =>
    if name ∈ live then none else programsAlive rest (name :: live)
  | GLCall.glDeleteProgram name :: rest, live =>
    if name ∈ live then programsAlive rest (live.erase name) else none
  | _ :: rest, live => programsAlive rest live

/-- The stage names passed to `glCreateShader` among some device calls. -/
def stagesCreated : List GLCall → List Nat
  | [] => []
  | GLCall.glCreateShader _ name :: rest => name :: stagesCreated rest
  | _ :: rest => stagesCreated rest

/-- The stage names passed to `glDeleteShader` among some device calls. -/
def stagesDeleted : List GLCall → List Nat
  | [] => []
  | GLCall.glDeleteShader name :: rest => name :: stagesDeleted rest
  | _ :: rest => stagesDeleted rest

/-- A device whose two stages compile and whose program links. -/
def sampleDevice : ShaderDevice :=
  { vertexName := 1, vertexCompiles := true, fragmentName := 2, fragmentCompiles := true,
    programName := 3, links := true }

/-- A vertex sequence of one record. -/
def sampleVertices : List (Vertex Int) :=
  [{ Position := (0, 0, 0), Normal := (0, 0, 0), TexCoords := (0, 0) }]

/-- The number of `stbi_image_free` calls on the buffer `data` among some calls. -/
def buffersFreed (data : Nat) : List SysCall → Nat
  | [] => 0
  | SysCall.stbi_image_free (some d) :: rest =>
    (if d = data then 1 else 0) + buffersFreed data rest
  | _ :: rest => buffersFreed data rest

/-- The graphics contexts alive after some library calls, starting from the
contexts `live`: a successful `SDL_GL_CreateContext` adds the context it
returns, `SDL_GL_DeleteContext` removes the one it is given.  `none` when a
context is deleted that is not alive or created under the name of one that
is. -/
def contextsAlive : List SysCall → List Nat → Option (List Nat)
  | [], live => some live
  | SysCall.SDL_GL_CreateContext _ (some context) :: rest, live =>
    if context ∈ live then none else contextsAlive rest (context :: live)
  | SysCall.SDL_GL_DeleteContext context :: rest, live =>
    if context ∈ live then contextsAlive rest (live.erase context) else none
  | _ :: rest, live => contextsAlive rest live

/-- The renderer and the effects after `n` calls of `Renderer::Shutdown` in a row. -/
def Renderer.shutdowns : Nat → Renderer → Renderer × List Effect
  | 0, this => (this, [])
  | n + 1, this =>
    let first := this.Shutdown
    let rest := Renderer.shutdowns n first.1
    (rest.1, first.2 ++ rest.2)

/-- A valid mesh of three indices. -/
def sampleMesh : Mesh := { m_VAO := 1, m_VBO := 2, m_EBO := 3, m_IndexCount := 3 }

/-- A linked shader. -/
def sampleShader : Shader := { m_ProgramID := 3 }

/-- A device that knows no uniform. -/
def noLocation : Nat → String → Int := fun _ _ => -1

/-- The object after `HandleMouseInput` was called on each pair of offsets in
turn. -/
def Application.mouseInputs {F : Type} [LinearOrder F] (cam : CameraOps F) :
    List (F × F) → Application F → Application F
  | [], this => this
  | offset :: rest, this =>
    Application.mouseInputs cam rest (Application.HandleMouseInput cam this offset.1 offset.2)

/-- The answers of a frame in which no button is pressed. -/
def UiInput.idle : UiInput :=
  { resume := false, help := false, music := false, restartSong := false, quit := false,
    back := false, musicPaused := false, musicPlaying := false, restartChannel := -1 }

/-- Whole-number arithmetic standing in for float arithmetic in sample data:
sums and products are exact, angles are whole degrees, and cosine and sine are
exact at the multiples of a right angle and 0 elsewhere. -/
def wholeCamera : CameraOps Int :=
  { ofInt := fun n => n
    ofMillis := fun n => (n : Int) / 1000
    neg := fun x => -x
    add := fun x y => x + y
    mul := fun x y => x * y
    fmod := fun x y => Int.fmod x y
    radians := fun x => x
    cos := fun x => if x % 360 = 0 then 1 else if x % 360 = 180 then -1 else 0
    sin := fun x => if x % 360 = 90 then 1 else if x % 360 = 270 then -1 else 0
    normalize := fun v => v
    cross := fun a b =>
      (a.2.1 * b.2.2 - a.2.2 * b.2.1, a.2.2 * b.1 - a.1 * b.2.2, a.1 * b.2.1 - a.2.1 * b.1)
    deg89 := 89
    negDeg89 := -89
    baseSpeed := 2
    sensitivity := 1
    rotationSpeed := 1
    twoPi := 6
    maxStep := 1 }

/-! ## Vocabulary of the loader's properties -/

namespace FileUtils

/-- The face-vertices of a model in file order: shape by shape, index by index. -/
def faceVertices (shapes : List shape_t) : List index_t :=
  shapes.flatMap fun shape => shape.indices

/-- The records assembled (lines 88-91) from a list of face-vertices, in order;
`none` when one of the reads falls outside its array. -/
def faceRecords {F : Type} (ops : FloatOps F) (attrib : attrib_t F) :
    List index_t → Option (List (Vertex F))
  | [] => some []
  | index :: rest =>
    match assembleVertex ops attrib index, faceRecords ops attrib rest with
    | some v, some vs => some (v :: vs)
    | _, _ => none

/-- The largest `int`. -/
def INT_MAX : Int := 2147483647

/-- The subscripts of one face-vertex are in range: the position subscript
addresses three floats of `attrib.vertices`; a non-negative normal subscript
addresses three floats of `attrib.normals`; a non-negative texcoord subscript
addresses two floats of `attrib.texcoords`; and each of these addresses fits
an `int`. -/
def indexInRange {F : Type} (attrib : attrib_t F) (index : index_t) : Prop :=
  0 ≤ index.vertex_index ∧ 3 * index.vertex_index + 2 < attrib.vertices.length ∧
  3 * index.vertex_index + 2 ≤ INT_MAX ∧
  (0 ≤ index.normal_index → 3 * index.normal_index + 2 < attrib.normals.length ∧
    3 * index.normal_index + 2 ≤ INT_MAX) ∧
  (0 ≤ index.texcoord_index → 2 * index.texcoord_index + 1 < attrib.texcoords.length ∧
    2 * index.texcoord_index + 1 ≤ INT_MAX)

instance {F : Type} (attrib : attrib_t F) (index : index_t) :
    Decidable (indexInRange attrib index) := by
  unfold indexInRange; infer_instance

/-- A successfully parsed model: the parse returned `true` and every
face-vertex has its subscripts in range, each subscript expression being at
most `INT_MAX`. -/
def ParsedOk {F : Type} (parse : ParseResult F) : Prop :=
  parse.ret = true ∧ ∀ index ∈ faceVertices parse.shapes, indexInRange parse.attrib index

instance {F : Type} (parse : ParseResult F) : Decidable (ParsedOk parse) := by
  unfold ParsedOk; infer_instance

/-- What the fields of the record `v` of a face-vertex `index` are to be: the
position is the three floats of `attrib.vertices` at `3 * vertex_index`; the
normal is the three floats of `attrib.normals` at `3 * normal_index` when
`normal_index` is non-negative and three zeros otherwise; the texcoord is
`(u, 1 - w)` for the two floats `u`, `w` of `attrib.texcoords` at
`2 * texcoord_index` when `texcoord_index` is non-negative and two zeros
otherwise. -/
def FieldsFrom {F : Type} (ops : FloatOps F) (attrib : attrib_t F) (index : index_t)
    (v : Vertex F) : Prop :=
  attrib.vertices.get? (3 * index.vertex_index + 0).toNat = some v.Position.1 ∧
  attrib.vertices.get? (3 * index.vertex_index + 1).toNat = some v.Position.2.1 ∧
  attrib.vertices.get? (3 * index.vertex_index + 2).toNat = some v.Position.2.2 ∧
  (0 ≤ index.normal_index →
    attrib.normals.get? (3 * index.normal_index + 0).toNat = some v.Normal.1 ∧
    attrib.normals.get? (3 * index.normal_index + 1).toNat = some v.Normal.2.1 ∧
    attrib.normals.get? (3 * index.normal_index + 2).toNat = some v.Normal.2.2) ∧
  (index.normal_index < 0 → v.Normal = (ops.zero, ops.zero, ops.zero)) ∧
  (0 ≤ index.texcoord_index → ∃ u w,
    attrib.texcoords.get? (2 * index.texcoord_index + 0).toNat = some u ∧
    attrib.texcoords.get? (2 * index.texcoord_index + 1).toNat = some w ∧
    v.TexCoords = (u, ops.oneMinus w)) ∧
  (index.texcoord_index < 0 → v.TexCoords = (ops.zero, ops.zero))

/-- The loop state after the first `k` iterations of the inner loop, counted
across shapes; `none` when one of them reads outside an array. -/
def stateAfter {F : Type} [DecidableEq F] (ops : FloatOps F) (attrib : attrib_t F)
    (shapes : List shape_t) (k : Nat) : Option (LoadState F) :=
  ((faceVertices shapes).take k).foldlM (loopBody ops attrib) (initialState F)

/-- Every face is a triangle: the index list of each shape is a whole number
of triples. -/
def Triangulated (shapes : List shape_t) : Prop :=
  ∀ shape ∈ shapes, 3 ∣ shape.indices.length

instance (shapes : List shape_t) : Decidable (Triangulated shapes) := by
  unfold Triangulated; infer_instance

/-- The distinct elements of a list in order of first appearance. -/
def firstAppearances {α : Type} [DecidableEq α] (l : List α) : List α :=
  l.reverse.dedup.reverse

/-- The relation between the loop state and the records processed so far:
the vertex sequence holds their distinct values in order of first appearance,
the map sends each stored record to its position (narrowed to 32 bits), and
the index sequence holds, for each processed record, what the map holds for it. -/
structure LoopInv {F : Type} [DecidableEq F] (st : LoadState F) (recs : List (Vertex F)) :
    Prop where
  vertices : st.outVertices = firstAppearances recs
  map : ∀ v, st.uniqueVertices.find v =
    if v ∈ st.outVertices then some (toUint32 (st.outVertices.indexOf v)) else none
  indices : st.outIndices = recs.map fun r => toUint32 (st.outVertices.indexOf r)

/-! ## Sample data

Float values are taken to be whole numbers of small magnitude, on which
`1.0f - x` is exact; `F` is `Int`. -/

/-- Exact arithmetic on whole-number floats. -/
def exactOps : FloatOps Int := { zero := 0, oneMinus := fun x => 1 - x }

/-- A model of two triangles over three positions, one normal and one
texcoord, in which some face-vertices lack a normal or a texcoord. -/
def sampleParse : ParseResult Int :=
  { ret := true, warn := "", err := ""
    attrib := { vertices := [1, 2, 3, 4, 5, 6, 7, 8, 9], normals := [10, 11, 12],
                texcoords := [20, 21] }
    shapes := [{ indices := [⟨0, 0, 0⟩, ⟨1, -1, -1⟩, ⟨2, 0, -1⟩] },
               { indices := [⟨1, -1, -1⟩, ⟨0, 0, 0⟩, ⟨2, -1, 0⟩] }] }

/-- Float number `m` of the normal array of the wide model: normal `j` is
`(j % 65536, j / 65536, 0)`. -/
def wideNormal (m : Nat) : Int :=
  if m % 3 = 0 then ((m / 3 % 65536 : Nat) : Int)
  else if m % 3 = 1 then ((m / 3 / 65536 : Nat) : Int)
  else 0

/-- The arrays of the wide model: nine positions, position `i` being
`(i, i, i)`, and `N / 3` normals. -/
def wideAttrib (N : Nat) : attrib_t Int :=
  { vertices := (List.range 27).map fun m => ((m / 3 : Nat) : Int)
    normals := (List.range N).map wideNormal
    texcoords := [] }

/-- Face-vertex `k` of the wide model: position `k / 2^29`, normal `k % 2^29`,
no texcoord. -/
def wideIndex (k : Nat) : index_t :=
  { vertex_index := ((k / 536870912 : Nat) : Int)
    normal_index := ((k % 536870912 : Nat) : Int)
    texcoord_index := -1 }

/-- The record of face-vertex `k` of the wide model. -/
def wideRecord (k : Nat) : Vertex Int :=
  { Position := (((k / 536870912 : Nat) : Int), ((k / 536870912 : Nat) : Int),
      ((k / 536870912 : Nat) : Int))
    Normal := (((k % 536870912 % 65536 : Nat) : Int), ((k % 536870912 / 65536 : Nat) : Int), 0)
    TexCoords := (0, 0) }

/-- The wide model with `N` normal floats and one shape of `n` face-vertices. -/
def wideParse (N n : Nat) : ParseResult Int :=
  { ret := true, warn := "", err := ""
    attrib := wideAttrib N
    shapes := [{ indices := (List.range n).map wideIndex }] }

/-- A model of `2^32 + 1` face-vertices with pairwise different records, over
nine positions and `2^29` normals; every subscript and every `int` expression
of the loader on it fits an `int`. -/
def hugeParse : ParseResult Int := wideParse 1610612736 4294967297

end FileUtils

/-! ## Vocabulary of start-up and teardown -/

/-- The kinds of resource a release call gives back. -/
inductive ReleaseKind where
  | uiRendererBackend
  | uiPlatformBackend
  | uiContext
  | soundChunk
  | mixer
  | buffer
  | vertexArray
  | texture
  | program
  | graphicsContext
  | window
  | sdl
deriving DecidableEq, Repr

/-- The kind of resource an effect releases, if it is a release call. -/
def releaseKind : Effect → Option ReleaseKind
  | Effect.sys SysCall.ImGui_ImplOpenGL3_Shutdown => some ReleaseKind.uiRendererBackend
  | Effect.sys SysCall.ImGui_ImplSDL2_Shutdown => some ReleaseKind.uiPlatformBackend
  | Effect.sys SysCall.ImGui_DestroyContext => some ReleaseKind.uiContext
  | Effect.sys (SysCall.Mix_FreeChunk _) => some ReleaseKind.soundChunk
  | Effect.sys SysCall.Mix_Quit => some ReleaseKind.mixer
  | Effect.gl (GLCall.glDeleteBuffers _) => some ReleaseKind.buffer
  | Effect.gl (GLCall.glDeleteVertexArrays _) => some ReleaseKind.vertexArray
  | Effect.gl (GLCall.glDeleteTextures _) => some ReleaseKind.texture
  | Effect.gl (GLCall.glDeleteProgram _) => some ReleaseKind.program
  | Effect.sys (SysCall.SDL_GL_DeleteContext _) => some ReleaseKind.graphicsContext
  | Effect.sys (SysCall.SDL_DestroyWindow _) => some ReleaseKind.window
  | Effect.sys SysCall.SDL_Quit => some ReleaseKind.sdl
  | _ => none

/-- The releases among some effects, by kind, in order. -/
def releases (effects : List Effect) : List ReleaseKind :=
  effects.filterMap releaseKind

/-- The order of teardown: UI overlay, audio, GPU resources (the two buffers and
the vertex array of the mesh, the texture, the program), graphics context,
window, SDL. -/
def teardownOrder : List ReleaseKind :=
  [ReleaseKind.uiRendererBackend, ReleaseKind.uiPlatformBackend, ReleaseKind.uiContext,
   ReleaseKind.soundChunk, ReleaseKind.mixer, ReleaseKind.buffer, ReleaseKind.buffer,
   ReleaseKind.vertexArray, ReleaseKind.texture, ReleaseKind.program,
   ReleaseKind.graphicsContext, ReleaseKind.window, ReleaseKind.sdl]

/-- The effects of calling `Application::Shutdown` twice in a row, as `main`
and then the destructor do after a failed start. -/
def Application.teardownTwice {F : Type} (this : Application F) : List Effect :=
  (Application.Shutdown this).2 ++ (Application.Shutdown (Application.Shutdown this).1).2

/-- The windows handed to `SDL_DestroyWindow` among some effects, in order. -/
def windowsDestroyed : List Effect → List Nat
  | [] => []
  | Effect.sys (SysCall.SDL_DestroyWindow window) :: rest => window :: windowsDestroyed rest
  | _ :: rest => windowsDestroyed rest

/-- The windows `SDL_CreateWindow` returned among some effects, in order. -/
def windowsCreated : List Effect → List Nat
  | [] => []
  | Effect.sys (SysCall.SDL_CreateWindow (some window)) :: rest => window :: windowsCreated rest
  | _ :: rest => windowsCreated rest

/-- Whether an effect starts a sound: a call of `Mix_PlayChannel`. -/
def startsSound : Effect → Bool
  | Effect.sys (SysCall.Mix_PlayChannel _ _) => true
  | _ => false

/-- Whether a sound is started among some effects. -/
def playsSound (effects : List Effect) : Bool :=
  effects.any startsSound

/-- An environment in which every stage of start-up succeeds, with the model
`sampleParse`. -/
def sampleEnv : InitEnv Int :=
  { sdlInit := 0
    window := some 7
    mouseX := 400
    mouseY := 300
    rendererDevice := { context := some 9, gladLoads := true, width := 800, height := 600,
                        swapInterval := 0 }
    vertPath := "Resources/shaders/lit_textured.vert"
    fragPath := "Resources/shaders/lit_textured.frag"
    vertexCode := "void main() {}"
    fragmentCode := "void main() {}"
    shaderDevice := sampleDevice
    texturePath := "Resources/assets/textures/your_texture.png"
    decoded := { data := some 5, width := 2, height := 2, channels := 3 }
    textureName := 1
    modelPath := "Resources/assets/models/monkey.obj"
    parse := FileUtils.sampleParse
    meshNames := { vao := 1, vbo := 2, ebo := 3 }
    audio := { mixOpenAudio := 0, soundFilePath := "Resources/assets/test_sound.wav",
               fileOpens := true, wav := some 11, playChannel := 0 }
    ticks := 1000 }

/-- The environment `sampleEnv` with a model file the parser rejects. -/
def rejectedModelEnv : InitEnv Int :=
  { sampleEnv with
    parse := { ret := false, warn := "", err := "Cannot open file"
               attrib := { vertices := [], normals := [], texcoords := [] }
               shapes := [] } }

/-- The environment `sampleEnv` with a device on which the program does not
link. -/
def unlinkedShaderEnv : InitEnv Int :=
  { sampleEnv with
    shaderDevice := { vertexName := 1, vertexCompiles := true, fragmentName := 2,
                      fragmentCompiles := true, programName := 3, links := false } }

/-- The environment `sampleEnv` with an image file the decoder rejects and a
mixer that does not open. -/
def degradedEnv : InitEnv Int :=
  { sampleEnv with
    decoded := { data := none, width := 0, height := 0, channels := 0 }
    audio := { mixOpenAudio := -1, soundFilePath := "Resources/assets/test_sound.wav",
               fileOpens := true, wav := none, playChannel := -1 } }

/-- A model file without faces: the parse succeeds and yields no shape. -/
def emptyParse : ParseResult Int :=
  { ret := true, warn := "", err := ""
    attrib := { vertices := [], normals := [], texcoords := [] }
    shapes := [] }

/-- The environment `sampleEnv` with the model file replaced by one without
faces. -/
def emptyModelEnv : InitEnv Int := { sampleEnv with parse := emptyParse }

/-- The environment `sampleEnv` with a device on which `SDL_GL_CreateContext`
fails. -/
def rendererFailEnv : InitEnv Int :=
  { sampleEnv with
    rendererDevice := { context := none, gladLoads := true, width := 800, height := 600,
                        swapInterval := 0 } }

/-- The application after the start-up at `sampleEnv`. -/
def sampleStarted : Application Int :=
  match Application.Initialize FileUtils.exactOps wholeCamera sampleEnv
      (Application.construct wholeCamera) with
  | some r => r.2.1
  | none => Application.construct wholeCamera

/-! ## Vocabulary of the frame loop's properties -/

/-- A call that changes what the mixer plays. -/
inductive PlaybackCall where
  | pause (channel : Int)
  | resume (channel : Int)
  | halt (channel : Int)
  | play (channel : Int)
deriving DecidableEq, Repr

/-- The playback call an effect is, if it is one: `Mix_Pause`, `Mix_Resume`,
`Mix_HaltChannel` or `Mix_PlayChannel` (with the channel it returns). -/
def playbackCall : Effect → Option PlaybackCall
  | Effect.sys (SysCall.Mix_Pause channel) => some (PlaybackCall.pause channel)
  | Effect.sys (SysCall.Mix_Resume channel) => some (PlaybackCall.resume channel)
  | Effect.sys (SysCall.Mix_HaltChannel channel) => some (PlaybackCall.halt channel)
  | Effect.sys (SysCall.Mix_PlayChannel _ channel) => some (PlaybackCall.play channel)
  | _ => none

/-- The playback calls among some effects, in order. -/
def playbackCalls (effects : List Effect) : List PlaybackCall :=
  effects.filterMap playbackCall

/-- The argument of an `SDL_SetRelativeMouseMode` call, if the effect is one. -/
def captureCall : Effect → Option Bool
  | Effect.sys (SysCall.SDL_SetRelativeMouseMode enabled) => some enabled
  | _ => none

/-- The arguments of the `SDL_SetRelativeMouseMode` calls among some effects,
in order. -/
def captureCalls (effects : List Effect) : List Bool :=
  effects.filterMap captureCall

/-- Whether the mouse is captured after some effects, when it was `before`:
the argument of the last `SDL_SetRelativeMouseMode` call, if there is one. -/
def captureAfter (before : Bool) (effects : List Effect) : Bool :=
  (captureCalls effects).foldl (fun _ enabled => enabled) before

/-- Whether an effect is the first call of `Application::Render`. -/
def startsFrame : Effect → Bool
  | Effect.sys SysCall.ImGui_ImplOpenGL3_NewFrame => true
  | _ => false

/-- The number of `Render` calls begun among some effects. -/
def framesRendered (effects : List Effect) : Nat :=
  effects.countP startsFrame

/-- The camera and the object rotation: position, yaw, pitch, front vector
and rotation angle. -/
def Application.pose {F : Type} (this : Application F) : (F × F × F) × F × F × (F × F × F) × F :=
  (this.m_CameraPos, this.m_CameraYaw, this.m_CameraPitch, this.m_CameraFront,
   this.m_RotationAngle)

/-- The states the application is in while `ProcessEvents` handles `events`:
the state before each event and the state after the last. -/
def Application.statesDuring {F : Type} [LinearOrder F] (cam : CameraOps F) :
    List PolledEvent → Application F → List GameState
  | [], this => [this.m_CurrentState]
  | polled :: rest, this =>
    this.m_CurrentState
      :: Application.statesDuring cam rest (Application.ProcessEvent cam this polled).1

/-- An event that closes the window, and a frame that polls it. -/
def quitFrame : FrameInput :=
  { ticks := 1016
    events := [{ event := SDL_Event.quit, wantCaptureMouse := false, mouseX := 0, mouseY := 0 }]
    keyboard := { w := false, s := false, a := false, d := false, lshift := false,
                  rshift := false }
    ui := UiInput.idle }

/-- A render environment over the integers that knows no uniform. -/
def sampleRenderEnv : RenderEnv Int :=
  { location := noLocation
    mvp := fun _ => []
    model := fun _ => []
    lightDir := (0, -1, 0)
    lightColor := (1, 1, 1) }

/-- Lines 259-260 of `Application::Render`: the right vector of the camera. -/
def Application.cameraRight {F : Type} (cam : CameraOps F) (this : Application F) : F × F × F :=
  cam.normalize (cam.cross this.m_CameraFront (cam.ofInt 0, cam.ofInt 1, cam.ofInt 0))

/-- The vector line 261 of `Application::Render` normalises into the up vector
of the camera. -/
def Application.cameraUpRaw {F : Type} (cam : CameraOps F) (this : Application F) : F × F × F :=
  cam.cross (Application.cameraRight cam this) this.m_CameraFront

/-- The vector lines 229-232 of `HandleMouseInput` normalise into the front
vector, for a yaw and a pitch in degrees. -/
def Application.frontOf {F : Type} (cam : CameraOps F) (yaw pitch : F) : F × F × F :=
  (cam.mul (cam.cos (cam.radians yaw)) (cam.cos (cam.radians pitch)),
   cam.sin (cam.radians pitch),
   cam.mul (cam.sin (cam.radians yaw)) (cam.cos (cam.radians pitch)))

/-- The squared length of a vector over the reals. -/
def normSq (v : ℝ × ℝ × ℝ) : ℝ := v.1 * v.1 + v.2.1 * v.2.1 + v.2.2 * v.2.2

/-- The camera operations are the exact ones over the reals: sums, products
and negations, `glm::radians` (degrees times pi / 180), cosine and sine,
`glm::cross`, `glm::normalize` (the vector times the inverse square root of
its squared length) and the two bounds 89 and -89 of the pitch. -/
def CameraOps.OverReals (cam : CameraOps ℝ) : Prop :=
  (∀ n : Int, cam.ofInt n = (n : ℝ)) ∧
  (∀ x, cam.neg x = -x) ∧
  (∀ x y, cam.add x y = x + y) ∧
  (∀ x y, cam.mul x y = x * y) ∧
  (∀ x, cam.radians x = x * Real.pi / 180) ∧
  (∀ x, cam.cos x = Real.cos x) ∧
  (∀ x, cam.sin x = Real.sin x) ∧
  (∀ v, cam.normalize v
    = (v.1 * (Real.sqrt (normSq v))⁻¹, v.2.1 * (Real.sqrt (normSq v))⁻¹,
       v.2.2 * (Real.sqrt (normSq v))⁻¹)) ∧
  (∀ a b, cam.cross a b
    = (a.2.1 * b.2.2 - a.2.2 * b.2.1, a.2.2 * b.1 - a.1 * b.2.2, a.1 * b.2.1 - a.2.1 * b.1)) ∧
  cam.deg89 = 89 ∧ cam.negDeg89 = -89

/-! ## Vocabulary of the texture and mesh lifetimes -/

/-- The destructor `Mesh::~Mesh` (lines 29-43) with the object as its body
leaves it: the body assigns to no member. -/
def Mesh.destructor (this : Mesh) : Mesh × List Effect :=
  (this, Mesh.destruct this)

/-- The number of releases of the buffer `name` among some device calls. -/
def bufferReleases (name : Nat) : List GLCall → Nat
  | [] => 0
  | GLCall.glDeleteBuffers n :: rest => (if n = name then 1 else 0) + bufferReleases name rest
  | _ :: rest => bufferReleases name rest

/-- The number of releases of the vertex array `name` among some device calls. -/
def vertexArrayReleases (name : Nat) : List GLCall → Nat
  | [] => 0
  | GLCall.glDeleteVertexArrays n :: rest =>
    (if n = name then 1 else 0) + vertexArrayReleases name rest
  | _ :: rest => vertexArrayReleases name rest

/-- The texture names written by `glGenTextures` among some device calls. -/
def texturesGenerated : List GLCall → List Nat
  | [] => []
  | GLCall.glGenTextures name :: rest => name :: texturesGenerated rest
  | _ :: rest => texturesGenerated rest

/-- The texture names passed to `glDeleteTextures` among some device calls. -/
def texturesDeleted : List GLCall → List Nat
  | [] => []
  | GLCall.glDeleteTextures name :: rest => name :: texturesDeleted rest
  | _ :: rest => texturesDeleted rest

/-- The object and the effects after `Load` was called once for each decoder
answer and texture name in turn. -/
def Texture.loads : List (Decoded × Nat) → Texture → Texture × List Effect
  | [], this => (this, [])
  | (decoded, name) :: rest, this =>
    let first := Texture.Load decoded name this
    let others := Texture.loads rest first.2.1
    (others.1, first.2.2 ++ others.2)

/-- The effects of a `Texture` constructed, loaded once for each answer in
turn, and destroyed. -/
def Texture.lifetime (answers : List (Decoded × Nat)) : List Effect :=
  let loaded := Texture.loads answers Texture.construct
  loaded.2 ++ Texture.destruct loaded.1

/-- A decoder answer of a 2 by 2 image with three channels. -/
def sampleDecoded : Decoded := { data := some 5, width := 2, height := 2, channels := 3 }

/-- A loaded texture. -/
def sampleTexture : Texture := { m_TextureID := 1, m_Width := 2, m_Height := 2, m_Channels := 3 }

namespace FileUtils

/-- The subscripts of one face-vertex are in range, with nothing said of
the size of the numbers (the precondition as C26 words it): the position
subscript is non-negative and addresses three floats, a non-negative
normal subscript addresses three floats, a non-negative texcoord subscript
addresses two floats. -/
def wellFormedIndex {F : Type} (attrib : attrib_t F) (index : index_t) : Prop :=
  0 ≤ index.vertex_index ∧ 3 * index.vertex_index + 2 < attrib.vertices.length ∧
  (0 ≤ index.normal_index → 3 * index.normal_index + 2 < attrib.normals.length) ∧
  (0 ≤ index.texcoord_index → 2 * index.texcoord_index + 1 < attrib.texcoords.length)

/-- A model with `n` position floats, all 0, and one face-vertex at position
`i`, without normal and texcoord. -/
def longParse (n : Nat) (i : Int) : ParseResult Int :=
  { ret := true, warn := "", err := ""
    attrib := { vertices := List.replicate n 0, normals := [], texcoords := [] }
    shapes := [{ indices := [⟨i, -1, -1⟩] }] }

/-- A model of `2^31 + 4` position floats whose only face-vertex is at
position 715827883, the first for which `3 * vertex_index` exceeds `INT_MAX`. -/
def overflowParse : ParseResult Int := longParse 2147483652 715827883

/-- A model whose only face-vertex has the position subscript -1. -/
def negativeParse : ParseResult Int :=
  { ret := true, warn := "", err := ""
    attrib := { vertices := [1, 2, 3], normals := [], texcoords := [] }
    shapes := [{ indices := [⟨-1, -1, -1⟩] }] }

end FileUtils

/-! ## Vocabulary of the capture invariant -/

/-- The mouse capture agrees with the state: the mouse is captured exactly
when the state is `Playing`. -/
def Application.captureMatches {F : Type} (this : Application F) (captured : Bool) : Prop :=
  captured = true ↔ this.m_CurrentState = GameState.Playing

instance {F : Type} (this : Application F) (captured : Bool) :
    Decidable (this.captureMatches captured) := by
  unfold Application.captureMatches; infer_instance

/-- The buttons of a frame are pressed one at most as far as Resume and Help
go: not both in the same frame. -/
def UiInput.oneChoice (ui : UiInput) : Prop :=
  ¬(ui.resume = true ∧ ui.help = true)

instance (ui : UiInput) : Decidable ui.oneChoice := by
  unfold UiInput.oneChoice; infer_instance

/-- A frame without event and without button. -/
def idleFrame : FrameInput :=
  { ticks := 1016
    events := []
    keyboard := { w := false, s := false, a := false, d := false, lshift := false,
                  rshift := false }
    ui := UiInput.idle }

/-- A frame that polls an Escape key press. -/
def escapeFrame : FrameInput :=
  { idleFrame with
    events := [{ event := SDL_Event.keydown true, wantCaptureMouse := false, mouseX := 0,
                 mouseY := 0 }] }

/-- A frame in which the Resume button and the Help button both report a
press. -/
def resumeHelpFrame : FrameInput :=
  { idleFrame with ui := { UiInput.idle with resume := true, help := true } }

/-! ## The loader: lemmas -/

namespace FileUtils

section Lemmas

theorem readAt_eq_get {α : Type} (v : List α) (a i c : Int) (h0 : 0 ≤ a * i)
    (hc : 0 ≤ c) (h1 : a * i + c < v.length) (h2 : a * i + c ≤ INT_MAX) :
    ∃ x, readAt v a i c = some x ∧ v.get? (a * i + c).toNat = some x := by
  unfold INT_MAX at h2
  simp only [readAt, intValue, subscript, Option.bind_eq_bind]
  generalize a * i = p at *
  have hlt : (p + c).toNat < v.length := by omega
  have hp : -2147483648 ≤ p ∧ p ≤ 2147483647 := by omega
  have hs : -2147483648 ≤ p + c ∧ p + c ≤ 2147483647 := by omega
  have hs0 : 0 ≤ p + c := by omega
  refine ⟨v.get ⟨(p + c).toNat, hlt⟩, ?_, List.get?_eq_get hlt⟩
  simp only [hp, hs, and_self, if_true, Option.some_bind, hs0]
  exact List.get?_eq_get hlt

/-- The record that lines 88-91 assemble, written with total reads: what
`assembleVertex` returns for a face-vertex whose subscripts are in range. -/
theorem assembleVertex_eq {F : Type} (ops : FloatOps F) (attrib : attrib_t F)
    (index : index_t) (h : indexInRange attrib index) :
    ∃ p0 p1 p2 n t,
      assembleVertex ops attrib index
        = some { Position := (p0, p1, p2), Normal := n, TexCoords := t } ∧
      attrib.vertices.get? (3 * index.vertex_index + 0).toNat = some p0 ∧
      attrib.vertices.get? (3 * index.vertex_index + 1).toNat = some p1 ∧
      attrib.vertices.get? (3 * index.vertex_index + 2).toNat = some p2 ∧
      (0 ≤ index.normal_index → ∃ n0 n1 n2, n = (n0, n1, n2) ∧
        attrib.normals.get? (3 * index.normal_index + 0).toNat = some n0 ∧
        attrib.normals.get? (3 * index.normal_index + 1).toNat = some n1 ∧
        attrib.normals.get? (3 * index.normal_index + 2).toNat = some n2) ∧
      (index.normal_index < 0 → n = (ops.zero, ops.zero, ops.zero)) ∧
      (0 ≤ index.texcoord_index → ∃ t0 t1, t = (t0, ops.oneMinus t1) ∧
        attrib.texcoords.get? (2 * index.texcoord_index + 0).toNat = some t0 ∧
        attrib.texcoords.get? (2 * index.texcoord_index + 1).toNat = some t1) ∧
      (index.texcoord_index < 0 → t = (ops.zero, ops.zero)) := by
  obtain ⟨h0, h1, h1m, h2, h3⟩ := h
  obtain ⟨p0, hp0, gp0⟩ := readAt_eq_get attrib.vertices 3 index.vertex_index 0
    (by omega) (by omega) (by omega) (by omega)
  obtain ⟨p1, hp1, gp1⟩ := readAt_eq_get attrib.vertices 3 index.vertex_index 1
    (by omega) (by omega) (by omega) (by omega)
  obtain ⟨p2, hp2, gp2⟩ := readAt_eq_get attrib.vertices 3 index.vertex_index 2
    (by omega) (by omega) (by omega) (by omega)
  simp only [assembleVertex, hp0, hp1, hp2, Option.bind_eq_bind, Option.some_bind, ge_iff_le]
  by_cases hn : 0 ≤ index.normal_index
  · obtain ⟨h2, h2m⟩ := h2 hn
    obtain ⟨n0, hn0, gn0⟩ := readAt_eq_get attrib.normals 3 index.normal_index 0
      (by omega) (by omega) (by omega) (by omega)
    obtain ⟨n1, hn1, gn1⟩ := readAt_eq_get attrib.normals 3 index.normal_index 1
      (by omega) (by omega) (by omega) (by omega)
    obtain ⟨n2, hn2, gn2⟩ := readAt_eq_get attrib.normals 3 index.normal_index 2
      (by omega) (by omega) (by omega) (by omega)
    simp only [hn, if_true, hn0, hn1, hn2, Option.some_bind, Option.pure_def]
    by_cases ht : 0 ≤ index.texcoord_index
    · obtain ⟨h3, h3m⟩ := h3 ht
      obtain ⟨t0, ht0, gt0⟩ := readAt_eq_get attrib.texcoords 2 index.texcoord_index 0
        (by omega) (by omega) (by omega) (by omega)
      obtain ⟨t1, ht1, gt1⟩ := readAt_eq_get attrib.texcoords 2 index.texcoord_index 1
        (by omega) (by omega) (by omega) (by omega)
      simp only [ht, if_true, ht0, ht1, Option.some_bind]
      exact ⟨p0, p1, p2, _, _, rfl, gp0, gp1, gp2, fun _ => ⟨n0, n1, n2, rfl, gn0, gn1, gn2⟩,
        fun hlt => absurd hn (by omega), fun _ => ⟨t0, t1, rfl, gt0, gt1⟩,
        fun hlt => absurd ht (by omega)⟩
    · simp only [ht, if_false, Option.pure_def, Option.some_bind]
      exact ⟨p0, p1, p2, _, _, rfl, gp0, gp1, gp2, fun _ => ⟨n0, n1, n2, rfl, gn0, gn1, gn2⟩,
        fun hlt => absurd hn (by omega), fun h => h.elim, fun _ => rfl⟩
  · simp only [hn, if_false, Option.pure_def, Option.some_bind]
    by_cases ht : 0 ≤ index.texcoord_index
    · obtain ⟨h3, h3m⟩ := h3 ht
      obtain ⟨t0, ht0, gt0⟩ := readAt_eq_get attrib.texcoords 2 index.texcoord_index 0
        (by omega) (by omega) (by omega) (by omega)
      obtain ⟨t1, ht1, gt1⟩ := readAt_eq_get attrib.texcoords 2 index.texcoord_index 1
        (by omega) (by omega) (by omega) (by omega)
      simp only [ht, if_true, ht0, ht1, Option.some_bind]
      exact ⟨p0, p1, p2, _, _, rfl, gp0, gp1, gp2, fun h => h.elim, fun _ => rfl,
        fun _ => ⟨t0, t1, rfl, gt0, gt1⟩, fun hlt => absurd ht (by omega)⟩
    · simp only [ht, if_false, Option.some_bind]
      exact ⟨p0, p1, p2, _, _, rfl, gp0, gp1, gp2, fun h => h.elim, fun _ => rfl,
        fun h => h.elim, fun _ => rfl⟩

theorem assembleVertex_isSome {F : Type} (ops : FloatOps F) (attrib : attrib_t F)
    (index : index_t) (h : indexInRange attrib index) :
    ∃ v, assembleVertex ops attrib index = some v := by
  obtain ⟨p0, p1, p2, n, t, hv, -⟩ := assembleVertex_eq ops attrib index h
  exact ⟨_, hv⟩

theorem faceRecords_isSome {F : Type} (ops : FloatOps F) (attrib : attrib_t F) (indices : List index_t)
    (h : ∀ index ∈ indices, indexInRange attrib index) :
    ∃ recs, faceRecords ops attrib indices = some recs := by
  induction indices with
  | nil => exact ⟨[], rfl⟩
  | cons a rest ih =>
    obtain ⟨v, hv⟩ := assembleVertex_isSome ops attrib a (h a (by simp))
    obtain ⟨vs, hvs⟩ := ih (fun i hi => h i (by simp [hi]))
    exact ⟨v :: vs, by simp [faceRecords, hv, hvs]⟩

theorem loadLoop_eq_foldlM {F : Type} [DecidableEq F] (ops : FloatOps F) (attrib : attrib_t F) (st : LoadState F)
    (shapes : List shape_t) :
    loadLoop ops attrib st shapes = (faceVertices shapes).foldlM (loopBody ops attrib) st := by
  induction shapes generalizing st with
  | nil => simp [loadLoop, faceVertices]
  | cons s rest ih =>
    simp only [loadLoop, faceVertices, List.foldlM_cons, List.flatMap_cons,
      List.foldlM_append] at ih ⊢
    simp only [shapeLoop]
    congr 1
    funext st1
    exact ih st1

theorem foldlM_loopBody {F : Type} [DecidableEq F] (ops : FloatOps F) (attrib : attrib_t F) (indices : List index_t)
    (st : LoadState F) :
    indices.foldlM (loopBody ops attrib) st
      = (faceRecords ops attrib indices).map fun recs => recs.foldl insertVertex st := by
  induction indices generalizing st with
  | nil => simp [faceRecords]
  | cons a rest ih =>
    simp only [faceRecords, List.foldlM_cons, loopBody]
    cases ha : assembleVertex ops attrib a with
    | none => simp
    | some v =>
      simp only [Option.map_some', Option.some_bind, Option.bind_eq_bind]
      rw [ih]
      cases faceRecords ops attrib rest <;> simp

theorem firstAppearances_concat {α : Type} [DecidableEq α] (l : List α) (a : α) :
    firstAppearances (l ++ [a])
      = if a ∈ l then firstAppearances l else firstAppearances l ++ [a] := by
  unfold firstAppearances
  rw [List.reverse_append, List.reverse_singleton, List.singleton_append]
  by_cases h : a ∈ l
  · rw [if_pos h, List.dedup_cons_of_mem (List.mem_reverse.mpr h)]
  · rw [if_neg h, List.dedup_cons_of_not_mem (fun h1 => h (List.mem_reverse.mp h1)),
      List.reverse_cons]

theorem mem_firstAppearances {α : Type} [DecidableEq α] (l : List α) (a : α) :
    a ∈ firstAppearances l ↔ a ∈ l := by
  simp [firstAppearances]

theorem nodup_firstAppearances {α : Type} [DecidableEq α] (l : List α) :
    (firstAppearances l).Nodup := by
  unfold firstAppearances
  exact List.nodup_reverse.mpr (List.nodup_dedup _)

theorem length_firstAppearances {α : Type} [DecidableEq α] (l : List α) :
    (firstAppearances l).length = l.toFinset.card := by
  unfold firstAppearances
  rw [List.length_reverse, ← List.card_toFinset, List.toFinset_reverse]

theorem loopInv_initial {F : Type} [DecidableEq F] : LoopInv (initialState F) [] := by
  refine ⟨rfl, ?_, rfl⟩
  intro v
  simp [initialState, VertexMap.find]

theorem loopInv_insertVertex {F : Type} [DecidableEq F] (st : LoadState F)
    (recs : List (Vertex F)) (vertex : Vertex F) (h : LoopInv st recs) :
    LoopInv (insertVertex st vertex) (recs ++ [vertex]) := by
  obtain ⟨hv, hm, hi⟩ := h
  have hmem : ∀ r, r ∈ st.outVertices ↔ r ∈ recs := by
    intro r; rw [hv]; exact mem_firstAppearances recs r
  by_cases hin : vertex ∈ st.outVertices
  · have hfind : st.uniqueVertices.find vertex
        = some (toUint32 (st.outVertices.indexOf vertex)) := by rw [hm, if_pos hin]
    have hst : insertVertex st vertex
        = { st with outIndices := st.outIndices ++ [toUint32 (st.outVertices.indexOf vertex)] } := by
      simp [insertVertex, VertexMap.count, VertexMap.index, hfind]
    rw [hst]
    refine ⟨?_, ?_, ?_⟩
    · show st.outVertices = _
      rw [firstAppearances_concat, if_pos ((hmem vertex).mp hin), hv]
    · exact hm
    · show st.outIndices ++ _ = _
      rw [List.map_append, hi]; rfl
  · have hfind : st.uniqueVertices.find vertex = none := by rw [hm, if_neg hin]
    have hst : insertVertex st vertex
        = { outVertices := st.outVertices ++ [vertex]
            outIndices := st.outIndices ++ [toUint32 st.outVertices.length]
            uniqueVertices := (vertex, toUint32 st.outVertices.length) :: st.uniqueVertices } := by
      simp [insertVertex, VertexMap.count, VertexMap.index, VertexMap.assign, hfind,
        VertexMap.find]
    rw [hst]
    refine ⟨?_, ?_, ?_⟩
    · show st.outVertices ++ [vertex] = _
      rw [firstAppearances_concat, if_neg (fun h1 => hin ((hmem vertex).mpr h1)), hv]
    · intro v
      show VertexMap.find ((vertex, _) :: st.uniqueVertices) v = _
      by_cases hvv : vertex = v
      · subst hvv
        simp [VertexMap.find, List.indexOf_append_of_not_mem hin]
      · by_cases hvin : v ∈ st.outVertices
        · have : v ∈ st.outVertices ++ [vertex] := List.mem_append_left _ hvin
          simp only [VertexMap.find, if_neg hvv, hm v, if_pos hvin, if_pos this,
            List.indexOf_append_of_mem hvin]
        · have : v ∉ st.outVertices ++ [vertex] := by
            simp [hvin, Ne.symm hvv]
          simp only [VertexMap.find, if_neg hvv, hm v, if_neg hvin, if_neg this]
    · show st.outIndices ++ _ = List.map (fun r => toUint32 ((st.outVertices ++ [vertex]).indexOf r))
        (recs ++ [vertex])
      rw [List.map_append, hi]
      congr 1
      · apply List.map_congr_left
        intro r hr
        rw [List.indexOf_append_of_mem ((hmem r).mpr hr)]
      · simp [List.indexOf_append_of_not_mem hin]

theorem loopInv_foldl {F : Type} [DecidableEq F] (recs : List (Vertex F)) :
    LoopInv (recs.foldl insertVertex (initialState F)) recs := by
  induction recs using List.reverseRecOn with
  | nil => exact loopInv_initial
  | append_singleton l a ih =>
    rw [List.foldl_append]
    exact loopInv_insertVertex _ l a ih

theorem LoadObjModel_eq {F : Type} [DecidableEq F] (ops : FloatOps F) (parse : ParseResult F)
    (outVertices : List (Vertex F)) (outIndices : List Nat) (h : ParsedOk parse) :
    ∃ recs, faceRecords ops parse.attrib (faceVertices parse.shapes) = some recs ∧
      LoadObjModel ops parse outVertices outIndices
        = some { ok := true
                 outVertices := firstAppearances recs
                 outIndices := recs.map fun r => toUint32 ((firstAppearances recs).indexOf r)
                 log := parseLog parse ++ [Effect.cout "INFO::MODEL::Loaded"] } := by
  obtain ⟨hret, hwf⟩ := h
  obtain ⟨recs, hrecs⟩ := faceRecords_isSome ops parse.attrib _ hwf
  refine ⟨recs, hrecs, ?_⟩
  have hinv := loopInv_foldl recs
  simp only [LoadObjModel, hret, loadLoop_eq_foldlM, foldlM_loopBody, hrecs, Option.map_some']
  simp only [Bool.true_eq_false, if_false, Option.some.injEq]
  rw [hinv.indices, hinv.vertices]

theorem length_faceRecords {F : Type} (ops : FloatOps F) (attrib : attrib_t F)
    (indices : List index_t) (recs : List (Vertex F))
    (h : faceRecords ops attrib indices = some recs) : recs.length = indices.length := by
  induction indices generalizing recs with
  | nil => simp [faceRecords] at h; subst h; rfl
  | cons a rest ih =>
    simp only [faceRecords] at h
    cases ha : assembleVertex ops attrib a with
    | none => simp [ha] at h
    | some v =>
      cases hr : faceRecords ops attrib rest with
      | none => simp [ha, hr] at h
      | some vs =>
        simp only [ha, hr, Option.some.injEq] at h
        subst h
        simp [ih vs hr]

theorem indexOf_firstAppearances_lt {α : Type} [DecidableEq α] (l : List α) (a : α)
    (h : a ∈ l) : (firstAppearances l).indexOf a < (firstAppearances l).length :=
  List.indexOf_lt_length.mpr ((mem_firstAppearances l a).mpr h)

theorem toUint32_le (n : Nat) : toUint32 n ≤ n := Nat.mod_le _ _

theorem toUint32_of_lt (n : Nat) (h : n < 4294967296) : toUint32 n = n := Nat.mod_eq_of_lt h

theorem LoopInv.indices_lt {F : Type} [DecidableEq F] {st : LoadState F}
    {recs : List (Vertex F)} (h : LoopInv st recs) :
    ∀ i ∈ st.outIndices, i < st.outVertices.length := by
  intro i hi
  rw [h.indices, List.mem_map] at hi
  obtain ⟨r, hr, rfl⟩ := hi
  have hmem : r ∈ st.outVertices := by
    rw [h.vertices]; exact (mem_firstAppearances recs r).mpr hr
  exact lt_of_le_of_lt (toUint32_le _) (List.indexOf_lt_length.mpr hmem)

theorem stateAfter_inv {F : Type} [DecidableEq F] (ops : FloatOps F) (parse : ParseResult F)
    (h : ParsedOk parse) (k : Nat) :
    ∃ st recs, stateAfter ops parse.attrib parse.shapes k = some st ∧ LoopInv st recs := by
  obtain ⟨recs, hrecs⟩ := faceRecords_isSome ops parse.attrib
    ((faceVertices parse.shapes).take k) (fun i hi => h.2 i (List.mem_of_mem_take hi))
  refine ⟨_, recs, ?_, loopInv_foldl recs⟩
  simp [stateAfter, foldlM_loopBody, hrecs]

theorem stateAfter_length {F : Type} [DecidableEq F] (ops : FloatOps F) (attrib : attrib_t F)
    (shapes : List shape_t) :
    stateAfter ops attrib shapes (faceVertices shapes).length
      = loadLoop ops attrib (initialState F) shapes := by
  simp [stateAfter, loadLoop_eq_foldlM]

theorem length_faceVertices_dvd (shapes : List shape_t) (h : Triangulated shapes) :
    3 ∣ (faceVertices shapes).length := by
  induction shapes with
  | nil => simp [faceVertices]
  | cons a rest ih =>
    simp only [faceVertices, List.flatMap_cons, List.length_append] at ih ⊢
    exact Dvd.dvd.add (h a (by simp)) (ih (fun s hs => h s (by simp [hs])))

theorem lookup_indices {α : Type} [DecidableEq α] (recs : List α)
    (h : (firstAppearances recs).length ≤ 4294967296) :
    (recs.map fun r => toUint32 ((firstAppearances recs).indexOf r)).map
        (fun i => (firstAppearances recs).get? i)
      = recs.map some := by
  rw [List.map_map]
  apply List.map_congr_left
  intro r hr
  have hlt := indexOf_firstAppearances_lt recs r hr
  simp only [Function.comp_apply]
  rw [toUint32_of_lt _ (by omega), List.get?_eq_getElem?,
    List.getElem?_indexOf ((mem_firstAppearances recs r).mpr hr)]

theorem indexOf_map_of_inj {α β : Type} [DecidableEq α] [DecidableEq β] (f : α → β)
    (l : List α) (a : α) (h : ∀ x ∈ l, f x = f a → x = a) :
    (l.map f).indexOf (f a) = l.indexOf a := by
  induction l with
  | nil => rfl
  | cons b rest ih =>
    rw [List.map_cons]
    by_cases hb : b = a
    · subst hb
      rw [List.indexOf_cons_self, List.indexOf_cons_self]
    · have hfb : f b ≠ f a := fun e => hb (h b (by simp) e)
      rw [List.indexOf_cons_ne _ hfb, List.indexOf_cons_ne _ hb,
        ih (fun x hx => h x (by simp [hx]))]

theorem pairwise_firstAppearances {α : Type} [DecidableEq α] (l : List α) :
    ((firstAppearances l).map fun x => l.indexOf x).Pairwise (· < ·) := by
  induction l using List.reverseRecOn with
  | nil => simp [firstAppearances]
  | append_singleton l a ih =>
    have hcongr : (firstAppearances l).map (fun x => (l ++ [a]).indexOf x)
        = (firstAppearances l).map (fun x => l.indexOf x) := by
      apply List.map_congr_left
      intro x hx
      exact List.indexOf_append_of_mem ((mem_firstAppearances l x).mp hx)
    rw [firstAppearances_concat]
    by_cases h : a ∈ l
    · rw [if_pos h, hcongr]; exact ih
    · rw [if_neg h, List.map_append, hcongr, List.pairwise_append]
      refine ⟨ih, by simp, ?_⟩
      intro x hx y hy
      rw [List.mem_map] at hx
      obtain ⟨z, hz, rfl⟩ := hx
      simp only [List.map_cons, List.map_nil, List.mem_singleton] at hy
      subst hy
      rw [List.indexOf_append_of_not_mem h]
      have : l.indexOf z < l.length :=
        List.indexOf_lt_length.mpr ((mem_firstAppearances l z).mp hz)
      simp
      omega

theorem indexOf_firstAppearances_strictMono {α : Type} [DecidableEq α] (l : List α)
    (i j : Nat) (hij : i < j) (hj : j < (firstAppearances l).length) :
    l.indexOf ((firstAppearances l).get ⟨i, lt_trans hij hj⟩)
      < l.indexOf ((firstAppearances l).get ⟨j, hj⟩) := by
  have h := pairwise_firstAppearances l
  rw [List.pairwise_iff_get] at h
  have := h ⟨i, by simp; omega⟩ ⟨j, by simpa using hj⟩ (by simpa using hij)
  simpa using this

theorem readAt_map_range {α : Type} (g : Nat → α) (N : Nat) (a i c : Int) (h0 : 0 ≤ a * i)
    (hc : 0 ≤ c) (h1 : a * i + c < N) (h2 : a * i + c ≤ INT_MAX) :
    readAt ((List.range N).map g) a i c = some (g (a * i + c).toNat) := by
  obtain ⟨x, hx, hg⟩ := readAt_eq_get ((List.range N).map g) a i c h0 hc
    (by rw [List.length_map, List.length_range]; exact h1) h2
  have hlt : (a * i + c).toNat < N := by omega
  rw [List.get?_eq_getElem?, List.getElem?_map, List.getElem?_range hlt] at hg
  rw [hx, ← Option.some.inj hg]

theorem readAt_wide_vertices (N i c : Nat) (hi : i < 9) (hc : c < 3) :
    readAt (wideAttrib N).vertices 3 (i : Int) (c : Int) = some (i : Int) := by
  have h := readAt_map_range (fun m => ((m / 3 : Nat) : Int)) 27 3 (i : Int) (c : Int)
    (by omega) (by omega) (by omega) (by unfold INT_MAX; omega)
  have t : (3 * (i : Int) + (c : Int)).toNat / 3 = i := by omega
  simp only [t] at h
  exact h

theorem readAt_wide_normals (N j c : Nat) (hN : 1610612736 ≤ N) (hj : j < 536870912)
    (hc : c < 3) :
    readAt (wideAttrib N).normals 3 (j : Int) (c : Int) = some (wideNormal (3 * j + c)) := by
  have h := readAt_map_range wideNormal N 3 (j : Int) (c : Int)
    (by omega) (by omega) (by omega) (by unfold INT_MAX; omega)
  have t : (3 * (j : Int) + (c : Int)).toNat = 3 * j + c := by omega
  rw [t] at h
  exact h

theorem wideNormal_values (j : Nat) :
    wideNormal (3 * j + 0) = ((j % 65536 : Nat) : Int) ∧
    wideNormal (3 * j + 1) = ((j / 65536 : Nat) : Int) ∧
    wideNormal (3 * j + 2) = 0 := by
  have a0 : (3 * j + 0) % 3 = 0 := by omega
  have b0 : (3 * j + 0) / 3 = j := by omega
  have a1 : (3 * j + 1) % 3 = 1 := by omega
  have b1 : (3 * j + 1) / 3 = j := by omega
  have a2 : (3 * j + 2) % 3 = 2 := by omega
  refine ⟨?_, ?_, ?_⟩
  · simp only [wideNormal, a0, b0, if_true]
  · simp only [wideNormal, a1, b1]; simp
  · simp only [wideNormal, a2]; simp

theorem assembleVertex_wideIndex (N k : Nat) (hN : 1610612736 ≤ N) (hk : k < 4831838208) :
    assembleVertex exactOps (wideAttrib N) (wideIndex k) = some (wideRecord k) := by
  have hi : k / 536870912 < 9 := by omega
  have hj : k % 536870912 < 536870912 := by omega
  have e0 := readAt_wide_vertices N (k / 536870912) 0 hi (by omega)
  have e1 := readAt_wide_vertices N (k / 536870912) 1 hi (by omega)
  have e2 := readAt_wide_vertices N (k / 536870912) 2 hi (by omega)
  have n0 := readAt_wide_normals N (k % 536870912) 0 hN hj (by omega)
  have n1 := readAt_wide_normals N (k % 536870912) 1 hN hj (by omega)
  have n2 := readAt_wide_normals N (k % 536870912) 2 hN hj (by omega)
  obtain ⟨w0, w1, w2⟩ := wideNormal_values (k % 536870912)
  rw [w0] at n0; rw [w1] at n1; rw [w2] at n2
  have hn : (0 : Int) ≤ ((k % 536870912 : Nat) : Int) := by omega
  have ht : ¬ ((0 : Int) ≤ -1) := by omega
  simp only [Nat.cast_zero, Nat.cast_one, Nat.cast_ofNat] at e0 e1 e2 n0 n1 n2
  simp only [assembleVertex, wideIndex]
  simp only [e0, e1, e2, n0, n1, n2, Option.bind_eq_bind, Option.some_bind, ge_iff_le, hn,
    if_true, ht, if_false, Option.pure_def, wideRecord, exactOps]

theorem faceRecords_map {F : Type} {α : Type} (ops : FloatOps F) (attrib : attrib_t F)
    (f : α → index_t) (g : α → Vertex F) (l : List α)
    (h : ∀ x ∈ l, assembleVertex ops attrib (f x) = some (g x)) :
    faceRecords ops attrib (l.map f) = some (l.map g) := by
  induction l with
  | nil => rfl
  | cons a rest ih =>
    simp only [List.map_cons, faceRecords, h a (by simp),
      ih (fun x hx => h x (by simp [hx]))]

theorem wideRecord_injective (a b : Nat) (h : wideRecord a = wideRecord b) : a = b := by
  simp only [wideRecord, Vertex.mk.injEq, Prod.mk.injEq, and_true, and_self] at h
  omega

theorem faceRecords_wide (N n : Nat) (hN : 1610612736 ≤ N) (hn : n ≤ 4831838208) :
    faceRecords exactOps (wideParse N n).attrib (faceVertices (wideParse N n).shapes)
      = some ((List.range n).map wideRecord) := by
  have : faceVertices (wideParse N n).shapes = (List.range n).map wideIndex := by
    simp [faceVertices, wideParse]
  rw [this]
  apply faceRecords_map
  intro k hk
  exact assembleVertex_wideIndex N k hN (by have := List.mem_range.mp hk; omega)

theorem nodup_wideRecords (n : Nat) : ((List.range n).map wideRecord).Nodup :=
  (List.nodup_range n).map (fun a b h => wideRecord_injective a b h)

theorem firstAppearances_of_nodup {α : Type} [DecidableEq α] (l : List α) (h : l.Nodup) :
    firstAppearances l = l := by
  unfold firstAppearances
  rw [(List.nodup_reverse.mpr h).dedup, List.reverse_reverse]

theorem parsedOk_wide (N n : Nat) (hN : 1610612736 ≤ N) (hn : n ≤ 4831838208) :
    ParsedOk (wideParse N n) := by
  refine ⟨rfl, ?_⟩
  have : faceVertices (wideParse N n).shapes = (List.range n).map wideIndex := by
    simp [faceVertices, wideParse]
  rw [this]
  intro index hindex
  rw [List.mem_map] at hindex
  obtain ⟨k, hk, rfl⟩ := hindex
  have hk := List.mem_range.mp hk
  have hv : (wideParse N n).attrib.vertices.length = 27 := by
    show ((List.range 27).map _).length = 27
    rw [List.length_map, List.length_range]
  have hno : (wideParse N n).attrib.normals.length = N := by
    show ((List.range N).map _).length = N
    rw [List.length_map, List.length_range]
  refine ⟨?_, ?_, ?_, ?_, ?_⟩
  · simp only [wideIndex]; omega
  · rw [hv]; simp only [wideIndex]; omega
  · simp only [wideIndex, INT_MAX]; omega
  · intro _; rw [hno]; simp only [wideIndex, INT_MAX]; omega
  · intro h; simp only [wideIndex] at h; omega

theorem LoadObjModel_wide (N n : Nat) (hN : 1610612736 ≤ N) (hn : n ≤ 4831838208) :
    LoadObjModel exactOps (wideParse N n) [] []
      = some { ok := true
               outVertices := (List.range n).map wideRecord
               outIndices := (List.range n).map toUint32
               log := parseLog (wideParse N n) ++ [Effect.cout "INFO::MODEL::Loaded"] } := by
  obtain ⟨recs, hrecs, hload⟩ := LoadObjModel_eq exactOps (wideParse N n) [] []
    (parsedOk_wide N n hN hn)
  rw [faceRecords_wide N n hN hn] at hrecs
  have hrecs := (Option.some.inj hrecs).symm
  subst hrecs
  rw [hload, firstAppearances_of_nodup _ (nodup_wideRecords n), List.map_map]
  congr 2
  apply List.map_congr_left
  intro k _
  simp only [Function.comp_apply]
  rw [indexOf_map_of_inj wideRecord (List.range n) k (fun x _ e => wideRecord_injective x k e)]
  congr 1
  have hnd := List.nodup_range n
  have hk : k < (List.range n).length := by
    rw [List.length_range]; exact List.mem_range.mp ‹k ∈ List.range n›
  have := List.indexOf_getElem hnd k hk
  rwa [List.getElem_range] at this

theorem wide_lookup_wraps (N n : Nat) (hN : 1610612736 ≤ N) (hn : n ≤ 4831838208)
    (hbig : 4294967296 < n) :
    ParsedOk (wideParse N n) ∧
    ∃ r recs, LoadObjModel exactOps (wideParse N n) [] [] = some r ∧ r.ok = true ∧
      faceRecords exactOps (wideParse N n).attrib (faceVertices (wideParse N n).shapes)
        = some recs ∧
      r.outIndices.get? 4294967296 = some 0 ∧
      r.outVertices.get? 0 = some (wideRecord 0) ∧
      recs.get? 4294967296 = some (wideRecord 4294967296) ∧
      wideRecord 0 ≠ wideRecord 4294967296 ∧
      r.outIndices.map (fun i => r.outVertices.get? i) ≠ recs.map some := by
  refine ⟨parsedOk_wide N n hN hn, _, _, LoadObjModel_wide N n hN hn, rfl,
    faceRecords_wide N n hN hn, ?_, ?_, ?_, ?_, ?_⟩
  · simp [List.getElem?_map, List.getElem?_range, hbig, toUint32]
  · have : 0 < n := by omega
    simp [List.getElem?_map, List.getElem?_range, this]
  · simp [List.getElem?_map, List.getElem?_range, hbig]
  · intro h
    have := wideRecord_injective _ _ h
    omega
  · intro h
    have h1 := congrArg (fun l => l.get? 4294967296) h
    have h0 : 0 < n := by omega
    simp only [List.get?_eq_getElem?, List.getElem?_map, List.getElem?_range, hbig, h0,
      Option.map_some', toUint32, Nat.mod_self, Option.some.injEq] at h1
    have := wideRecord_injective _ _ h1
    omega

theorem wide_not_dense (N n : Nat) (hN : 1610612736 ≤ N) (hn : n ≤ 4831838208) :
    ParsedOk (wideParse N n) ∧
    ∃ r, LoadObjModel exactOps (wideParse N n) [] [] = some r ∧ r.ok = true ∧
      r.outVertices.length = n ∧ 4294967296 ∉ r.outIndices := by
  refine ⟨parsedOk_wide N n hN hn, _, LoadObjModel_wide N n hN hn, rfl, ?_, ?_⟩
  · simp
  · intro h
    rw [List.mem_map] at h
    obtain ⟨k, -, hk⟩ := h
    have : toUint32 k < 4294967296 := Nat.mod_lt _ (by norm_num)
    omega


theorem faceRecords_forall₂ {F : Type} (ops : FloatOps F) (attrib : attrib_t F)
    (indices : List index_t) (recs : List (Vertex F))
    (h : faceRecords ops attrib indices = some recs) :
    List.Forall₂ (fun index v => assembleVertex ops attrib index = some v) indices recs := by
  induction indices generalizing recs with
  | nil => simp [faceRecords] at h; subst h; exact List.Forall₂.nil
  | cons a rest ih =>
    simp only [faceRecords] at h
    cases ha : assembleVertex ops attrib a with
    | none => simp [ha] at h
    | some v =>
      cases hr : faceRecords ops attrib rest with
      | none => simp [ha, hr] at h
      | some vs =>
        simp only [ha, hr, Option.some.injEq] at h
        subst h
        exact List.Forall₂.cons ha (ih vs hr)

theorem dense_indices {α : Type} [DecidableEq α] (recs : List α)
    (h : (firstAppearances recs).length ≤ 4294967296) (i : Nat)
    (hi : i < (firstAppearances recs).length) :
    i ∈ recs.map fun r => toUint32 ((firstAppearances recs).indexOf r) := by
  rw [List.mem_map]
  refine ⟨(firstAppearances recs).get ⟨i, hi⟩, ?_, ?_⟩
  · exact (mem_firstAppearances recs _).mp (List.get_mem _ _ _)
  · have := List.indexOf_getElem (nodup_firstAppearances recs) i hi
    rw [List.get_eq_getElem, this, toUint32_of_lt _ (by omega)]

theorem indexOf_indices {α : Type} [DecidableEq α] (recs : List α)
    (h : (firstAppearances recs).length ≤ 4294967296) (i : Nat)
    (hi : i < (firstAppearances recs).length) :
    (recs.map fun r => toUint32 ((firstAppearances recs).indexOf r)).indexOf i
      = recs.indexOf ((firstAppearances recs).get ⟨i, hi⟩) := by
  have hget := List.indexOf_getElem (nodup_firstAppearances recs) i hi
  have hcongr : (recs.map fun r => toUint32 ((firstAppearances recs).indexOf r))
      = recs.map fun r => (firstAppearances recs).indexOf r := by
    apply List.map_congr_left
    intro r hr
    exact toUint32_of_lt _ (by have := indexOf_firstAppearances_lt recs r hr; omega)
  rw [hcongr]
  have := indexOf_map_of_inj (fun r => (firstAppearances recs).indexOf r) recs
    ((firstAppearances recs).get ⟨i, hi⟩) (by
      intro x hx e
      exact (List.indexOf_inj ((mem_firstAppearances recs x).mpr hx)
        (List.get_mem _ _ _)).mp e)
  simp only [List.get_eq_getElem, hget] at this
  rw [List.get_eq_getElem]
  exact this

theorem assembleVertex_fields {F : Type} (ops : FloatOps F) (attrib : attrib_t F)
    (index : index_t) (h : indexInRange attrib index) :
    ∃ v, assembleVertex ops attrib index = some v ∧ FieldsFrom ops attrib index v := by
  obtain ⟨p0, p1, p2, n, t, he, g0, g1, g2, hn, hn0, ht, ht0⟩ :=
    assembleVertex_eq ops attrib index h
  refine ⟨_, he, g0, g1, g2, ?_, hn0, ?_, ht0⟩
  · intro h0
    obtain ⟨n0, n1, n2, rfl, a0, a1, a2⟩ := hn h0
    exact ⟨a0, a1, a2⟩
  · intro h0
    obtain ⟨t0, t1, rfl, a0, a1⟩ := ht h0
    exact ⟨t0, t1, a0, a1, rfl⟩

theorem faceRecords_fields {F : Type} (ops : FloatOps F) (attrib : attrib_t F)
    (indices : List index_t) (h : ∀ index ∈ indices, indexInRange attrib index) :
    ∃ recs, faceRecords ops attrib indices = some recs ∧
      List.Forall₂ (fun index v => assembleVertex ops attrib index = some v ∧
        FieldsFrom ops attrib index v) indices recs := by
  induction indices with
  | nil => exact ⟨[], rfl, List.Forall₂.nil⟩
  | cons a rest ih =>
    obtain ⟨v, hv, hf⟩ := assembleVertex_fields ops attrib a (h a (by simp))
    obtain ⟨vs, hvs, hall⟩ := ih (fun i hi => h i (by simp [hi]))
    exact ⟨v :: vs, by simp [faceRecords, hv, hvs], List.Forall₂.cons ⟨hv, hf⟩ hall⟩

end Lemmas

end FileUtils

/-! ## The loader: reads outside an array -/

namespace FileUtils

theorem readAt_eq_none_of_out {α : Type} (v : List α) (a i c : Int)
    (h : a * i + c < 0 ∨ (v.length : Int) ≤ a * i + c) : readAt v a i c = none := by
  simp only [readAt, intValue, subscript, Option.bind_eq_bind]
  generalize a * i = p at *
  by_cases hp : -2147483648 ≤ p ∧ p ≤ 2147483647
  · simp only [hp, and_self, if_true, Option.some_bind]
    by_cases hs : -2147483648 ≤ p + c ∧ p + c ≤ 2147483647
    · simp only [hs, and_self, if_true, Option.some_bind]
      by_cases h0 : 0 ≤ p + c
      · simp only [h0, if_true]
        apply List.get?_eq_none.mpr
        omega
      · simp only [h0, if_false]
    · simp only [hs, if_false, Option.none_bind]
  · simp only [hp, if_false, Option.none_bind]

theorem readAt_eq_none_of_overflow {α : Type} (v : List α) (a i c : Int)
    (h : INT_MAX < a * i) : readAt v a i c = none := by
  unfold INT_MAX at h
  simp only [readAt, intValue, Option.bind_eq_bind]
  have hp : ¬(-2147483648 ≤ a * i ∧ a * i ≤ 2147483647) := by omega
  simp only [hp, if_false, Option.none_bind]

theorem assembleVertex_eq_none {F : Type} (ops : FloatOps F) (attrib : attrib_t F)
    (index : index_t)
    (h : ¬(0 ≤ index.vertex_index ∧ 3 * index.vertex_index + 2 < attrib.vertices.length)) :
    assembleVertex ops attrib index = none := by
  by_cases h0 : 0 ≤ index.vertex_index
  · have h2 : readAt attrib.vertices 3 index.vertex_index 2 = none :=
      readAt_eq_none_of_out _ _ _ _ (Or.inr (by omega))
    simp only [assembleVertex, h2, Option.bind_eq_bind, Option.none_bind]
    cases readAt attrib.vertices 3 index.vertex_index 0 with
    | none => rfl
    | some p0 =>
      cases readAt attrib.vertices 3 index.vertex_index 1 with
      | none => rfl
      | some p1 => rfl
  · have h2 : readAt attrib.vertices 3 index.vertex_index 0 = none :=
      readAt_eq_none_of_out _ _ _ _ (Or.inl (by omega))
    simp only [assembleVertex, h2, Option.bind_eq_bind, Option.none_bind]

theorem faceRecords_eq_none {F : Type} (ops : FloatOps F) (attrib : attrib_t F)
    (indices : List index_t) (index : index_t) (hmem : index ∈ indices)
    (h : assembleVertex ops attrib index = none) : faceRecords ops attrib indices = none := by
  induction indices with
  | nil => simp at hmem
  | cons a rest ih =>
    rcases List.mem_cons.mp hmem with rfl | hrest
    · simp [faceRecords, h]
    · simp only [faceRecords, ih hrest]
      cases assembleVertex ops attrib a <;> rfl

theorem LoadObjModel_eq_none {F : Type} [DecidableEq F] (ops : FloatOps F)
    (parse : ParseResult F) (outVertices : List (Vertex F)) (outIndices : List Nat)
    (hret : parse.ret = true) (index : index_t) (hmem : index ∈ faceVertices parse.shapes)
    (h : assembleVertex ops parse.attrib index = none) :
    LoadObjModel ops parse outVertices outIndices = none := by
  simp only [LoadObjModel, hret, loadLoop_eq_foldlM, foldlM_loopBody,
    faceRecords_eq_none ops parse.attrib _ index hmem h, Bool.true_eq_false, if_false,
    Option.map_none']

theorem find_insertVertex {F : Type} [DecidableEq F] (st : LoadState F) (vertex : Vertex F) :
    (∃ x, (insertVertex st vertex).uniqueVertices.find vertex = some x ∧
      (insertVertex st vertex).outIndices = st.outIndices ++ [x]) ∧
    (insertVertex st vertex).uniqueVertices
      = if st.uniqueVertices.count vertex = 0 then
          st.uniqueVertices.assign vertex (toUint32 st.outVertices.length)
        else st.uniqueVertices := by
  unfold insertVertex
  cases hfind : st.uniqueVertices.find vertex with
  | none =>
    simp [VertexMap.count, VertexMap.index, VertexMap.assign, VertexMap.find, hfind]
  | some x =>
    simp [VertexMap.count, VertexMap.index, hfind]

theorem longParse_overflow (n : Nat) (i : Int) (h : INT_MAX < 3 * i) :
    LoadObjModel exactOps (longParse n i) [] [] = none := by
  apply LoadObjModel_eq_none exactOps (longParse n i) [] [] rfl ⟨i, -1, -1⟩
  · simp [longParse, faceVertices]
  · simp only [assembleVertex, longParse, readAt_eq_none_of_overflow _ 3 i 0 h,
      Option.bind_eq_bind, Option.none_bind]

theorem longParse_wellFormed (n : Nat) (i : Int) (h0 : 0 ≤ i) (h : 3 * i + 2 < n) :
    ∀ index ∈ faceVertices (longParse n i).shapes,
      wellFormedIndex (longParse n i).attrib index := by
  intro index hmem
  simp only [longParse, faceVertices, List.flatMap_cons, List.flatMap_nil, List.append_nil,
    List.mem_singleton] at hmem
  subst hmem
  simp only [wellFormedIndex, longParse, List.length_replicate]
  exact ⟨h0, h, fun hn => absurd hn (by decide), fun hn => absurd hn (by decide)⟩

theorem longParse_assemble (n : Nat) (i : Int) (h : INT_MAX < 3 * i) :
    assembleVertex exactOps (longParse n i).attrib ⟨i, -1, -1⟩ = none := by
  simp only [assembleVertex, longParse, readAt_eq_none_of_overflow _ 3 i 0 h,
    Option.bind_eq_bind, Option.none_bind]

theorem longParse_faceVertices (n : Nat) (i : Int) :
    faceVertices (longParse n i).shapes = [⟨i, -1, -1⟩] := by
  simp [longParse, faceVertices]

theorem longParse_faceRecords (n : Nat) (i : Int) (h : INT_MAX < 3 * i) :
    faceRecords exactOps (longParse n i).attrib (faceVertices (longParse n i).shapes) = none := by
  rw [longParse_faceVertices]
  simp only [faceRecords, longParse_assemble n i h]

theorem longParse_stateAfter (n : Nat) (i : Int) (h : INT_MAX < 3 * i) :
    stateAfter exactOps (longParse n i).attrib (longParse n i).shapes 0
      = some (initialState Int) ∧
    stateAfter exactOps (longParse n i).attrib (longParse n i).shapes 1 = none := by
  constructor
  · simp [stateAfter]
  · simp only [stateAfter, longParse_faceVertices, List.take_succ_cons, List.take_zero,
      foldlM_loopBody, faceRecords, longParse_assemble n i h, Option.map_none']

theorem longParse_components (n : Nat) (i : Int) (h0 : 0 ≤ i) (h : 3 * i + 2 < n) :
    (longParse n i).attrib.vertices.get? (3 * i + 0).toNat = some 0 ∧
    (longParse n i).attrib.vertices.get? (3 * i + 1).toNat = some 0 ∧
    (longParse n i).attrib.vertices.get? (3 * i + 2).toNat = some 0 := by
  have key : ∀ m : Nat, m < n → (List.replicate n (0 : Int)).get? m = some 0 := by
    intro m hm
    rw [List.get?_eq_getElem?, List.getElem?_replicate]
    simp [hm]
  refine ⟨key _ ?_, key _ ?_, key _ ?_⟩ <;> omega

end FileUtils

/-! ## The loader: properties -/

namespace FileUtils

/-- C1 (amended): for every successfully parsed model whose subscripts are in
range, each subscript expression being at most `INT_MAX` (`ParsedOk`), the call
returns `true`, the vertex sequence it produces contains no two equal records,
contains exactly the records assembled from the face-vertices, and its length
is the number of distinct records among them. -/
theorem LoadObjModel_vertices_distinct {F : Type} [DecidableEq F] (ops : FloatOps F)
    (parse : ParseResult F) (outVertices : List (Vertex F)) (outIndices : List Nat)
    (h : ParsedOk parse) :
    ∃ r recs, LoadObjModel ops parse outVertices outIndices = some r ∧ r.ok = true ∧
      faceRecords ops parse.attrib (faceVertices parse.shapes) = some recs ∧
      r.outVertices.Nodup ∧
      (∀ v, v ∈ r.outVertices ↔ v ∈ recs) ∧
      r.outVertices.length = recs.toFinset.card := by
  obtain ⟨recs, hrecs, hload⟩ := LoadObjModel_eq ops parse outVertices outIndices h
  exact ⟨_, recs, hload, rfl, hrecs, nodup_firstAppearances recs,
    mem_firstAppearances recs, length_firstAppearances recs⟩

/-- The statement of the amended C1 at `sampleParse`. -/
theorem LoadObjModel_vertices_distinct_sample :
    ParsedOk sampleParse ∧
    ∃ r recs, LoadObjModel exactOps sampleParse [] [] = some r ∧ r.ok = true ∧
      faceRecords exactOps sampleParse.attrib (faceVertices sampleParse.shapes) = some recs ∧
      r.outVertices.Nodup ∧
      (∀ v, v ∈ r.outVertices ↔ v ∈ recs) ∧
      r.outVertices.length = recs.toFinset.card :=
  ⟨by decide, LoadObjModel_vertices_distinct exactOps sampleParse [] [] (by decide)⟩

/-- C1, as stated, fails on the model `overflowParse`: the parse succeeded and
the subscripts of its only face-vertex are in range (position 715827883
addresses three of the `2^31 + 4` position floats), yet `3 * 715827883` does not
fit an `int`, so that no record is assembled and the call produces no vertex
sequence. -/
theorem LoadObjModel_vertices_overflow :
    overflowParse.ret = true ∧
    (∀ index ∈ faceVertices overflowParse.shapes,
      wellFormedIndex overflowParse.attrib index) ∧
    faceRecords exactOps overflowParse.attrib (faceVertices overflowParse.shapes) = none ∧
    LoadObjModel exactOps overflowParse [] [] = none :=
  ⟨rfl, longParse_wellFormed 2147483652 715827883 (by decide) (by decide),
   longParse_faceRecords 2147483652 715827883 (by decide),
   longParse_overflow 2147483652 715827883 (by decide)⟩

/-- C3 (amended): for every successfully parsed model whose subscripts are in
range, each subscript expression being at most `INT_MAX` (`ParsedOk`), every
value of the produced index sequence is below the length of the produced vertex
sequence, and the same holds of the loop state after each iteration (the state
after `k` iterations exists for every `k`, and the state after the last one is
the loop's result). -/
theorem LoadObjModel_indices_lt_length {F : Type} [DecidableEq F] (ops : FloatOps F)
    (parse : ParseResult F) (outVertices : List (Vertex F)) (outIndices : List Nat)
    (h : ParsedOk parse) :
    (∃ r, LoadObjModel ops parse outVertices outIndices = some r ∧ r.ok = true ∧
      ∀ i ∈ r.outIndices, i < r.outVertices.length) ∧
    (∀ k, ∃ st, stateAfter ops parse.attrib parse.shapes k = some st ∧
      ∀ i ∈ st.outIndices, i < st.outVertices.length) ∧
    stateAfter ops parse.attrib parse.shapes (faceVertices parse.shapes).length
      = loadLoop ops parse.attrib (initialState F) parse.shapes := by
  refine ⟨?_, ?_, stateAfter_length ops parse.attrib parse.shapes⟩
  · obtain ⟨recs, -, hload⟩ := LoadObjModel_eq ops parse outVertices outIndices h
    refine ⟨_, hload, rfl, ?_⟩
    have hinv := loopInv_foldl recs
    intro i hi
    have := hinv.indices_lt i (by rw [hinv.indices, hinv.vertices]; exact hi)
    rw [hinv.vertices] at this
    exact this
  · intro k
    obtain ⟨st, recs, hst, hinv⟩ := stateAfter_inv ops parse h k
    exact ⟨st, hst, hinv.indices_lt⟩

/-- The statement of the amended C3 at `sampleParse`. -/
theorem LoadObjModel_indices_lt_length_sample :
    ParsedOk sampleParse ∧
    (∃ r, LoadObjModel exactOps sampleParse [] [] = some r ∧ r.ok = true ∧
      ∀ i ∈ r.outIndices, i < r.outVertices.length) ∧
    (∀ k, ∃ st, stateAfter exactOps sampleParse.attrib sampleParse.shapes k = some st ∧
      ∀ i ∈ st.outIndices, i < st.outVertices.length) ∧
    stateAfter exactOps sampleParse.attrib sampleParse.shapes
        (faceVertices sampleParse.shapes).length
      = loadLoop exactOps sampleParse.attrib (initialState Int) sampleParse.shapes :=
  ⟨by decide, LoadObjModel_indices_lt_length exactOps sampleParse [] [] (by decide)⟩

/-- C3, as stated, fails on the model `overflowParse`: the parse succeeded and
the subscripts of its only face-vertex are in range, yet the first iteration
computes `3 * 715827883` in `int`, which does not fit: there is a loop state
before the first iteration and none after it, and the call produces no index
sequence. -/
theorem LoadObjModel_indices_overflow :
    overflowParse.ret = true ∧
    (∀ index ∈ faceVertices overflowParse.shapes,
      wellFormedIndex overflowParse.attrib index) ∧
    LoadObjModel exactOps overflowParse [] [] = none ∧
    stateAfter exactOps overflowParse.attrib overflowParse.shapes 0
      = some (initialState Int) ∧
    stateAfter exactOps overflowParse.attrib overflowParse.shapes 1 = none :=
  ⟨rfl, longParse_wellFormed 2147483652 715827883 (by decide) (by decide),
   longParse_overflow 2147483652 715827883 (by decide),
   longParse_stateAfter 2147483652 715827883 (by decide)⟩

/-- C2 (amended): for every successfully parsed model whose subscripts are in
range, each subscript expression being at most `INT_MAX` (`ParsedOk`), the
index count equals the total face-vertex count and is a multiple of 3 when
every face is a triangle; and, provided the produced vertex sequence has at
most 2^32 entries, looking up each output index in the output vertex sequence
reproduces, in order, the records assembled from the face-vertices in file
order. -/
theorem LoadObjModel_lookup_reproduces {F : Type} [DecidableEq F] (ops : FloatOps F)
    (parse : ParseResult F) (outVertices : List (Vertex F)) (outIndices : List Nat)
    (h : ParsedOk parse) :
    ∃ r recs, LoadObjModel ops parse outVertices outIndices = some r ∧ r.ok = true ∧
      faceRecords ops parse.attrib (faceVertices parse.shapes) = some recs ∧
      r.outIndices.length = (faceVertices parse.shapes).length ∧
      (Triangulated parse.shapes → 3 ∣ r.outIndices.length) ∧
      (r.outVertices.length ≤ 4294967296 →
        r.outIndices.map (fun i => r.outVertices.get? i) = recs.map some) := by
  obtain ⟨recs, hrecs, hload⟩ := LoadObjModel_eq ops parse outVertices outIndices h
  have hlen := length_faceRecords ops parse.attrib _ recs hrecs
  refine ⟨_, recs, hload, rfl, hrecs, ?_, ?_, ?_⟩
  · simp [hlen]
  · intro ht
    simp only [List.length_map, hlen]
    exact length_faceVertices_dvd parse.shapes ht
  · intro hN
    exact lookup_indices recs hN

/-- The statement of the amended C2 at `sampleParse`. -/
theorem LoadObjModel_lookup_reproduces_sample :
    ParsedOk sampleParse ∧
    ∃ r recs, LoadObjModel exactOps sampleParse [] [] = some r ∧ r.ok = true ∧
      faceRecords exactOps sampleParse.attrib (faceVertices sampleParse.shapes) = some recs ∧
      r.outIndices.length = (faceVertices sampleParse.shapes).length ∧
      (Triangulated sampleParse.shapes → 3 ∣ r.outIndices.length) ∧
      (r.outVertices.length ≤ 4294967296 →
        r.outIndices.map (fun i => r.outVertices.get? i) = recs.map some) :=
  ⟨by decide, LoadObjModel_lookup_reproduces exactOps sampleParse [] [] (by decide)⟩

/-- C2, as stated, fails on the model `hugeParse` of 2^32 + 1 face-vertices
with pairwise different records: the position stored for the record of
face-vertex 2^32 is narrowed to 0, so the index pushed for it is 0 and looking
it up yields the record of face-vertex 0.  It fails on the model
`overflowParse` too: the parse succeeded and the subscripts of its only
face-vertex are in range, yet `3 * 715827883` does not fit an `int` and the
call produces no index sequence. -/
theorem LoadObjModel_lookup_wraps :
    (ParsedOk hugeParse ∧
      ∃ r recs, LoadObjModel exactOps hugeParse [] [] = some r ∧ r.ok = true ∧
        faceRecords exactOps hugeParse.attrib (faceVertices hugeParse.shapes) = some recs ∧
        r.outIndices.get? 4294967296 = some 0 ∧
        r.outVertices.get? 0 = some (wideRecord 0) ∧
        recs.get? 4294967296 = some (wideRecord 4294967296) ∧
        wideRecord 0 ≠ wideRecord 4294967296 ∧
        r.outIndices.map (fun i => r.outVertices.get? i) ≠ recs.map some) ∧
    (overflowParse.ret = true ∧
      (∀ index ∈ faceVertices overflowParse.shapes,
        wellFormedIndex overflowParse.attrib index) ∧
      LoadObjModel exactOps overflowParse [] [] = none) :=
  ⟨wide_lookup_wraps 1610612736 4294967297 (by norm_num) (by norm_num) (by norm_num),
   rfl, longParse_wellFormed 2147483652 715827883 (by decide) (by decide),
   longParse_overflow 2147483652 715827883 (by decide)⟩

/-- C4 (amended): for every successfully parsed model whose subscripts are in
range, each subscript expression being at most `INT_MAX` (`ParsedOk`), the
vertex sequence holds the distinct assembled records in order of first
appearance (no record twice, every assembled record present, and first
appearances among the face-vertices increasing along the sequence); and,
provided it has at most 2^32 entries, every value below its length occurs in
the index sequence and the first occurrences of these values appear in
increasing order. -/
theorem LoadObjModel_dense_append_order {F : Type} [DecidableEq F] (ops : FloatOps F)
    (parse : ParseResult F) (outVertices : List (Vertex F)) (outIndices : List Nat)
    (h : ParsedOk parse) :
    ∃ r recs, LoadObjModel ops parse outVertices outIndices = some r ∧ r.ok = true ∧
      faceRecords ops parse.attrib (faceVertices parse.shapes) = some recs ∧
      r.outVertices.Nodup ∧
      (∀ v, v ∈ r.outVertices ↔ v ∈ recs) ∧
      (∀ i j (hij : i < j) (hj : j < r.outVertices.length),
        recs.indexOf (r.outVertices.get ⟨i, lt_trans hij hj⟩)
          < recs.indexOf (r.outVertices.get ⟨j, hj⟩)) ∧
      (r.outVertices.length ≤ 4294967296 →
        (∀ i, i < r.outVertices.length → i ∈ r.outIndices) ∧
        (∀ i j, i < j → j < r.outVertices.length →
          r.outIndices.indexOf i < r.outIndices.indexOf j)) := by
  obtain ⟨recs, hrecs, hload⟩ := LoadObjModel_eq ops parse outVertices outIndices h
  refine ⟨_, recs, hload, rfl, hrecs, nodup_firstAppearances recs, mem_firstAppearances recs,
    indexOf_firstAppearances_strictMono recs, ?_⟩
  intro hN
  refine ⟨fun i hi => dense_indices recs hN i hi, ?_⟩
  intro i j hij hj
  show List.indexOf i (recs.map _) < List.indexOf j (recs.map _)
  rw [indexOf_indices recs hN i (lt_trans hij hj), indexOf_indices recs hN j hj]
  exact indexOf_firstAppearances_strictMono recs i j hij hj

/-- The statement of the amended C4 at `sampleParse`. -/
theorem LoadObjModel_dense_append_order_sample :
    ParsedOk sampleParse ∧
    ∃ r recs, LoadObjModel exactOps sampleParse [] [] = some r ∧ r.ok = true ∧
      faceRecords exactOps sampleParse.attrib (faceVertices sampleParse.shapes) = some recs ∧
      r.outVertices.Nodup ∧
      (∀ v, v ∈ r.outVertices ↔ v ∈ recs) ∧
      (∀ i j (hij : i < j) (hj : j < r.outVertices.length),
        recs.indexOf (r.outVertices.get ⟨i, lt_trans hij hj⟩)
          < recs.indexOf (r.outVertices.get ⟨j, hj⟩)) ∧
      (r.outVertices.length ≤ 4294967296 →
        (∀ i, i < r.outVertices.length → i ∈ r.outIndices) ∧
        (∀ i j, i < j → j < r.outVertices.length →
          r.outIndices.indexOf i < r.outIndices.indexOf j)) :=
  ⟨by decide, LoadObjModel_dense_append_order exactOps sampleParse [] [] (by decide)⟩

/-- C4, as stated, fails on the model `hugeParse`: the vertex sequence has
2^32 + 1 entries, yet the value 2^32 does not occur in the index sequence.  It
fails on the model `overflowParse` too: the parse succeeded and the subscripts
of its only face-vertex are in range, yet `3 * 715827883` does not fit an `int`
and the call produces neither a vertex sequence nor an index sequence. -/
theorem LoadObjModel_not_dense :
    (ParsedOk hugeParse ∧
      ∃ r, LoadObjModel exactOps hugeParse [] [] = some r ∧ r.ok = true ∧
        r.outVertices.length = 4294967297 ∧ 4294967296 < r.outVertices.length ∧
        4294967296 ∉ r.outIndices) ∧
    (overflowParse.ret = true ∧
      (∀ index ∈ faceVertices overflowParse.shapes,
        wellFormedIndex overflowParse.attrib index) ∧
      LoadObjModel exactOps overflowParse [] [] = none) := by
  obtain ⟨hp, r, hr, hok, hlen, hnot⟩ :=
    wide_not_dense 1610612736 4294967297 (by norm_num) (by norm_num)
  exact ⟨⟨hp, r, hr, hok, hlen, by rw [hlen]; norm_num, hnot⟩,
    rfl, longParse_wellFormed 2147483652 715827883 (by decide) (by decide),
    longParse_overflow 2147483652 715827883 (by decide)⟩

/-- C5 (amended): for every successfully parsed model whose subscripts are in
range, each subscript expression being at most `INT_MAX` (`ParsedOk`), the
records assembled by the loader correspond to the face-vertices one by one,
each record being determined by its own face-vertex alone: its position is the
three position floats at `vertex_index`; its normal is the three normal floats
at `normal_index` when that is non-negative and `(0, 0, 0)` otherwise; its
texcoord is `(u, 1 - v)` for the two texcoord floats `u, v` at `texcoord_index`
when that is non-negative and `(0, 0)` otherwise (`FieldsFrom`).  Every vertex
the call stores is such a record. -/
theorem LoadObjModel_record_fields {F : Type} [DecidableEq F] (ops : FloatOps F)
    (parse : ParseResult F) (outVertices : List (Vertex F)) (outIndices : List Nat)
    (h : ParsedOk parse) :
    ∃ r recs, LoadObjModel ops parse outVertices outIndices = some r ∧ r.ok = true ∧
      faceRecords ops parse.attrib (faceVertices parse.shapes) = some recs ∧
      List.Forall₂ (fun index v => assembleVertex ops parse.attrib index = some v ∧
        FieldsFrom ops parse.attrib index v) (faceVertices parse.shapes) recs ∧
      ∀ v ∈ r.outVertices, ∃ index ∈ faceVertices parse.shapes,
        FieldsFrom ops parse.attrib index v := by
  obtain ⟨recs, hrecs, hload⟩ := LoadObjModel_eq ops parse outVertices outIndices h
  obtain ⟨recs1, hrecs1, hall⟩ := faceRecords_fields ops parse.attrib _ h.2
  rw [hrecs] at hrecs1
  have := Option.some.inj hrecs1
  subst this
  refine ⟨_, recs, hload, rfl, hrecs, hall, ?_⟩
  intro v hv
  have hv : v ∈ recs := (mem_firstAppearances recs v).mp hv
  obtain ⟨k, hk, rfl⟩ := List.getElem_of_mem hv
  have hlen := hall.length_eq
  have := List.Forall₂.get hall (by omega) hk
  exact ⟨_, List.get_mem _ _ _, this.2⟩

/-- The statement of the amended C5 at `sampleParse`. -/
theorem LoadObjModel_record_fields_sample :
    ParsedOk sampleParse ∧
    ∃ r recs, LoadObjModel exactOps sampleParse [] [] = some r ∧ r.ok = true ∧
      faceRecords exactOps sampleParse.attrib (faceVertices sampleParse.shapes) = some recs ∧
      List.Forall₂ (fun index v => assembleVertex exactOps sampleParse.attrib index = some v ∧
        FieldsFrom exactOps sampleParse.attrib index v) (faceVertices sampleParse.shapes) recs ∧
      ∀ v ∈ r.outVertices, ∃ index ∈ faceVertices sampleParse.shapes,
        FieldsFrom exactOps sampleParse.attrib index v :=
  ⟨by decide, LoadObjModel_record_fields exactOps sampleParse [] [] (by decide)⟩

/-- C5, as stated, fails on the only face-vertex of `overflowParse`: its
position subscript 715827883 is in range and the three position floats it
names are in the array, yet lines 88-91 compute `3 * 715827883` in `int`, which
does not fit, and assemble no record. -/
theorem LoadObjModel_record_overflow :
    overflowParse.ret = true ∧
    faceVertices overflowParse.shapes = [⟨715827883, -1, -1⟩] ∧
    wellFormedIndex overflowParse.attrib ⟨715827883, -1, -1⟩ ∧
    (overflowParse.attrib.vertices.get? (3 * 715827883 + 0 : Int).toNat = some 0 ∧
     overflowParse.attrib.vertices.get? (3 * 715827883 + 1 : Int).toNat = some 0 ∧
     overflowParse.attrib.vertices.get? (3 * 715827883 + 2 : Int).toNat = some 0) ∧
    assembleVertex exactOps overflowParse.attrib ⟨715827883, -1, -1⟩ = none ∧
    LoadObjModel exactOps overflowParse [] [] = none :=
  ⟨rfl, longParse_faceVertices 2147483652 715827883,
   longParse_wellFormed 2147483652 715827883 (by decide) (by decide) _
     (by rw [longParse_faceVertices 2147483652 715827883]; exact List.mem_singleton.mpr rfl),
   longParse_components 2147483652 715827883 (by decide) (by decide),
   longParse_assemble 2147483652 715827883 (by decide),
   longParse_overflow 2147483652 715827883 (by decide)⟩

end FileUtils

/-! ## Mesh and shader: properties -/

theorem Mesh.construct_replicate (names : MeshNames) (v : Vertex Int) (n : Nat) :
    Mesh.construct names [v] (List.replicate (n + 1) 0)
      = ({ m_VAO := names.vao, m_VBO := names.vbo, m_EBO := names.ebo,
           m_IndexCount := toGLsizei (n + 1) },
         (Mesh.SetupMesh names ⟨0, 0, 0, toGLsizei (n + 1)⟩ 1 (n + 1)).2) := by
  simp [Mesh.construct, Mesh.SetupMesh, List.replicate_succ]

/-- C7 (amended): constructing a `Mesh` from an empty vertex sequence or an
empty index sequence yields handles and index count all zero and makes no GPU
call, and `Bind` and `Draw` on that mesh make no GPU call and write a
diagnostic.  For non-empty vertices and a non-empty index sequence of fewer
than 2^31 indices the recorded index count is the number of indices, and, the
device having generated a vertex array name other than 0, `Draw` makes exactly
one GPU call, the indexed triangle-list draw with that count. -/
theorem Mesh.construct_draw {F : Type} (names : MeshNames) (vertices : List (Vertex F))
    (indices : List Nat) :
    (vertices = [] ∨ indices = [] →
      (Mesh.construct names vertices indices).1
          = { m_VAO := 0, m_VBO := 0, m_EBO := 0, m_IndexCount := 0 } ∧
      gpuCalls (Mesh.construct names vertices indices).2 = [] ∧
      gpuCalls (Mesh.construct names vertices indices).1.Bind = [] ∧
      diagnostics (Mesh.construct names vertices indices).1.Bind ≠ [] ∧
      gpuCalls (Mesh.construct names vertices indices).1.Draw = [] ∧
      diagnostics (Mesh.construct names vertices indices).1.Draw ≠ []) ∧
    (vertices ≠ [] → indices ≠ [] → indices.length < 2147483648 →
      (Mesh.construct names vertices indices).1.m_IndexCount = indices.length ∧
      (names.vao ≠ 0 →
        (Mesh.construct names vertices indices).1.Draw
          = [Effect.gl (GLCall.glDrawElements GLenum.GL_TRIANGLES indices.length
              GLenum.GL_UNSIGNED_INT 0)])) := by
  constructor
  · intro h
    have hc : Mesh.construct names vertices indices
        = ({ m_VAO := 0, m_VBO := 0, m_EBO := 0, m_IndexCount := 0 },
           [Effect.cerr "ERROR::MESH::Cannot create mesh with empty vertices."])
        ∨ Mesh.construct names vertices indices
        = ({ m_VAO := 0, m_VBO := 0, m_EBO := 0, m_IndexCount := 0 },
           [Effect.cerr
             "ERROR::MESH::Cannot create mesh with empty indices (use glDrawElements)."]) := by
      by_cases hv : vertices = []
      · left; simp [Mesh.construct, hv]
      · right
        have hi : indices = [] := h.resolve_left hv
        simp [Mesh.construct, hv, hi]
    rcases hc with hc | hc <;> rw [hc] <;>
      simp [gpuCalls, diagnostics, Mesh.Bind, Mesh.Draw]
  · intro hv hi hlen
    have hcount : toGLsizei indices.length = (indices.length : Int) := by
      unfold toGLsizei; omega
    have hc : Mesh.construct names vertices indices
        = Mesh.SetupMesh names ⟨0, 0, 0, toGLsizei indices.length⟩
            vertices.length indices.length := by
      simp [Mesh.construct, hv, hi]
    have hpos : (0 : Int) < indices.length := by
      have := List.length_pos.mpr hi
      omega
    rw [hc]
    refine ⟨by simp [Mesh.SetupMesh, hcount], ?_⟩
    intro hvao
    simp [Mesh.SetupMesh, Mesh.Draw, hvao, hcount, hpos]

/-- The statement of the amended C7 at a mesh of one vertex and three indices. -/
theorem Mesh.construct_draw_sample :
    sampleVertices ≠ [] ∧ [0, 0, 0] ≠ ([] : List Nat) ∧
    ([0, 0, 0] : List Nat).length < 2147483648 ∧
    (Mesh.construct ⟨1, 2, 3⟩ sampleVertices [0, 0, 0]).1.m_IndexCount
      = ([0, 0, 0] : List Nat).length ∧
    ((⟨1, 2, 3⟩ : MeshNames).vao ≠ 0 →
      (Mesh.construct ⟨1, 2, 3⟩ sampleVertices [0, 0, 0]).1.Draw
        = [Effect.gl (GLCall.glDrawElements GLenum.GL_TRIANGLES ([0, 0, 0] : List Nat).length
            GLenum.GL_UNSIGNED_INT 0)]) :=
  ⟨by decide, by decide, by decide,
    (Mesh.construct_draw ⟨1, 2, 3⟩ sampleVertices [0, 0, 0]).2 (by decide) (by decide)
      (by decide)⟩

/-- C7, as stated, fails for a mesh of one vertex and 2^31 indices: the
recorded index count is -2^31, not the number of indices, and `Draw` makes no
GPU call although the device generated non-zero names. -/
theorem Mesh.construct_count_wraps :
    sampleVertices ≠ [] ∧ List.replicate 2147483648 0 ≠ ([] : List Nat) ∧
    (List.replicate 2147483648 (0 : Nat)).length = 2147483648 ∧
    (Mesh.construct ⟨1, 2, 3⟩ sampleVertices (List.replicate 2147483648 0)).1.m_VAO = 1 ∧
    (Mesh.construct ⟨1, 2, 3⟩ sampleVertices (List.replicate 2147483648 0)).1.m_IndexCount
      = -2147483648 ∧
    gpuCalls (Mesh.construct ⟨1, 2, 3⟩ sampleVertices (List.replicate 2147483648 0)).1.Draw
      = [] := by
  have h := Mesh.construct_replicate ⟨1, 2, 3⟩
    { Position := (0, 0, 0), Normal := (0, 0, 0), TexCoords := (0, 0) } 2147483647
  have hc : toGLsizei (2147483647 + 1) = -2147483648 := by unfold toGLsizei; norm_num
  rw [hc] at h
  refine ⟨by decide, ?_, List.length_replicate _ _, ?_, ?_, ?_⟩
  · intro he
    have := congrArg List.length he
    rw [List.length_replicate] at this
    exact absurd this (by norm_num)
  · show (Mesh.construct ⟨1, 2, 3⟩ [_] (List.replicate (2147483647 + 1) 0)).1.m_VAO = 1
    rw [h]
  · show (Mesh.construct ⟨1, 2, 3⟩ [_] (List.replicate (2147483647 + 1) 0)).1.m_IndexCount = _
    rw [h]
  · show gpuCalls (Mesh.construct ⟨1, 2, 3⟩ [_] (List.replicate (2147483647 + 1) 0)).1.Draw = _
    rw [h]
    simp [Mesh.Draw, gpuCalls]
theorem String.isEmpty_eq_false_iff (s : String) : s.isEmpty = false ↔ s ≠ "" := by
  rw [← Bool.not_eq_true, String.isEmpty_iff]

theorem Shader.construct_empty (device : ShaderDevice) (vertexCode fragmentCode : String)
    (h : vertexCode = "" ∨ fragmentCode = "") :
    Shader.construct device vertexCode fragmentCode = ({ m_ProgramID := 0 }, []) := by
  unfold Shader.construct
  rw [if_pos]
  rcases h with h | h
  · exact Or.inl ((String.isEmpty_iff _).mpr h)
  · exact Or.inr ((String.isEmpty_iff _).mpr h)

theorem CompileShader_fst (type : GLenum) (name : Nat) (success : Bool) :
    (CompileShader type name success).1 = if success then name else 0 := by
  cases success <;> rfl

theorem LinkProgram_fst (name : Nat) (success : Bool) (v f : Nat) :
    (LinkProgram name success v f).1 = if success then name else 0 := by
  cases success <;> rfl

/-- C8: for a device that keeps to the OpenGL contract (the names it creates
are not 0) and for every outcome of reading the two files, compiling the two
stages and linking, the constructed `Shader` has a non-zero program id if and
only if both texts are non-empty, both stages compile and linking succeeds; in
every other case the program id is 0. -/
theorem Shader.construct_programID (device : ShaderDevice) (vertexCode fragmentCode : String)
    (h : device.Valid) :
    ((Shader.construct device vertexCode fragmentCode).1.m_ProgramID ≠ 0 ↔
      (vertexCode ≠ "" ∧ fragmentCode ≠ "" ∧ device.vertexCompiles = true ∧
        device.fragmentCompiles = true ∧ device.links = true)) ∧
    (¬ (vertexCode ≠ "" ∧ fragmentCode ≠ "" ∧ device.vertexCompiles = true ∧
        device.fragmentCompiles = true ∧ device.links = true) →
      (Shader.construct device vertexCode fragmentCode).1.m_ProgramID = 0) := by
  obtain ⟨hv, hf, hp, -⟩ := h
  have key : (Shader.construct device vertexCode fragmentCode).1.m_ProgramID ≠ 0 ↔
      (vertexCode ≠ "" ∧ fragmentCode ≠ "" ∧ device.vertexCompiles = true ∧
        device.fragmentCompiles = true ∧ device.links = true) := by
    by_cases hve : vertexCode = ""
    · rw [Shader.construct_empty device _ _ (Or.inl hve)]
      simp [hve]
    by_cases hfe : fragmentCode = ""
    · rw [Shader.construct_empty device _ _ (Or.inr hfe)]
      simp [hfe]
    unfold Shader.construct
    have hve1 : vertexCode.isEmpty = false := (String.isEmpty_eq_false_iff _).mpr hve
    have hfe1 : fragmentCode.isEmpty = false := (String.isEmpty_eq_false_iff _).mpr hfe
    simp only [hve1, hfe1, Bool.false_eq_true, or_self, if_false, CompileShader_fst,
      LinkProgram_fst]
    cases hvc : device.vertexCompiles <;> cases hfc : device.fragmentCompiles <;>
      cases hl : device.links <;> simp [hv, hf, hp, hve, hfe]
  exact ⟨key, fun hn => by_contra fun hne => hn (key.mp hne)⟩

/-- The statement of C8 at `sampleDevice` and two non-empty texts. -/
theorem Shader.construct_programID_sample :
    sampleDevice.Valid ∧
    (((Shader.construct sampleDevice "void main() {}" "void main() {}").1.m_ProgramID ≠ 0 ↔
      (("void main() {}" : String) ≠ "" ∧ ("void main() {}" : String) ≠ "" ∧
        sampleDevice.vertexCompiles = true ∧ sampleDevice.fragmentCompiles = true ∧
        sampleDevice.links = true)) ∧
    (¬ (("void main() {}" : String) ≠ "" ∧ ("void main() {}" : String) ≠ "" ∧
        sampleDevice.vertexCompiles = true ∧ sampleDevice.fragmentCompiles = true ∧
        sampleDevice.links = true) →
      (Shader.construct sampleDevice "void main() {}" "void main() {}").1.m_ProgramID = 0)) :=
  ⟨by decide, Shader.construct_programID sampleDevice "void main() {}" "void main() {}"
    (by decide)⟩

/-- C10: a `Shader` constructed from an empty vertex or fragment text has
program id 0, and on every `Shader` with program id 0 the operations `Use`,
`SetBool`, `SetInt`, `SetFloat`, `SetMat4` and `SetVec3` have no effect at all,
in particular make no GPU call, for every name and value. -/
theorem Shader.invalid_noop {F : Type} (device : ShaderDevice) (vertexCode fragmentCode : String)
    (h : vertexCode = "" ∨ fragmentCode = "") :
    (Shader.construct device vertexCode fragmentCode).1.m_ProgramID = 0 ∧
    gpuCalls (Shader.construct device vertexCode fragmentCode).2 = [] ∧
    ∀ (this : Shader), this.m_ProgramID = 0 →
      ∀ (location : Nat → String → Int) (name : String) (b : Bool) (n : Int) (x : F)
        (mat : List F) (vec : F × F × F),
        gpuCalls this.Use = [] ∧
        gpuCalls (this.SetBool location name b) = [] ∧
        gpuCalls (this.SetInt location name n) = [] ∧
        gpuCalls (this.SetFloat location name x) = [] ∧
        gpuCalls (this.SetMat4 location name mat) = [] ∧
        gpuCalls (this.SetVec3 location name vec) = [] := by
  have hc := Shader.construct_empty device vertexCode fragmentCode h
  refine ⟨by rw [hc], by rw [hc]; rfl, ?_⟩
  intro this hid location name b n x mat vec
  simp [Shader.Use, Shader.SetBool, Shader.SetInt, Shader.SetFloat, Shader.SetMat4,
    Shader.SetVec3, hid, gpuCalls]

/-- The statement of C10 at an empty vertex text. -/
theorem Shader.invalid_noop_sample :
    (("" : String) = "" ∨ ("void main() {}" : String) = "") ∧
    ((Shader.construct sampleDevice "" "void main() {}").1.m_ProgramID = 0 ∧
    gpuCalls (Shader.construct sampleDevice "" "void main() {}").2 = [] ∧
    ∀ (this : Shader), this.m_ProgramID = 0 →
      ∀ (location : Nat → String → Int) (name : String) (b : Bool) (n : Int) (x : Int)
        (mat : List Int) (vec : Int × Int × Int),
        gpuCalls this.Use = [] ∧
        gpuCalls (this.SetBool location name b) = [] ∧
        gpuCalls (this.SetInt location name n) = [] ∧
        gpuCalls (this.SetFloat location name x) = [] ∧
        gpuCalls (this.SetMat4 location name mat) = [] ∧
        gpuCalls (this.SetVec3 location name vec) = []) :=
  ⟨Or.inl rfl, Shader.invalid_noop sampleDevice "" "void main() {}" (Or.inl rfl)⟩

/-- C9: for a device that keeps to the OpenGL contract and for every combination
of compile and link outcomes, replaying the constructor's device calls leaves
no stage object alive and never deletes a stage that is not alive: every stage
created (both are, once the texts are non-empty) is deleted exactly once, the
deleted stages being the created ones.  A program whose link failed is deleted
exactly once: the only program left alive is the one the object holds. -/
theorem Shader.construct_stages_released (device : ShaderDevice)
    (vertexCode fragmentCode : String) (h : device.Valid) :
    stagesAlive (gpuCalls (Shader.construct device vertexCode fragmentCode).2) [] = some [] ∧
    (stagesDeleted (gpuCalls (Shader.construct device vertexCode fragmentCode).2)).Perm
      (stagesCreated (gpuCalls (Shader.construct device vertexCode fragmentCode).2)) ∧
    (vertexCode ≠ "" → fragmentCode ≠ "" →
      stagesCreated (gpuCalls (Shader.construct device vertexCode fragmentCode).2)
        = [device.vertexName, device.fragmentName]) ∧
    programsAlive (gpuCalls (Shader.construct device vertexCode fragmentCode).2) []
      = some (if (Shader.construct device vertexCode fragmentCode).1.m_ProgramID = 0 then []
              else [(Shader.construct device vertexCode fragmentCode).1.m_ProgramID]) := by
  obtain ⟨hv, hf, hp, hne⟩ := h
  by_cases hve1 : vertexCode = ""
  · rw [Shader.construct_empty device _ _ (Or.inl hve1)]
    simp [hve1, gpuCalls, stagesAlive, stagesDeleted, stagesCreated, programsAlive]
  by_cases hfe1 : fragmentCode = ""
  · rw [Shader.construct_empty device _ _ (Or.inr hfe1)]
    simp [hfe1, gpuCalls, stagesAlive, stagesDeleted, stagesCreated, programsAlive]
  have hve : vertexCode.isEmpty = false := (String.isEmpty_eq_false_iff _).mpr hve1
  have hfe : fragmentCode.isEmpty = false := (String.isEmpty_eq_false_iff _).mpr hfe1
  unfold Shader.construct
  simp only [hve, hfe, Bool.false_eq_true, or_self, if_false]
  cases hvc : device.vertexCompiles
  · cases hfc : device.fragmentCompiles <;> cases hl : device.links <;>
      simp [CompileShader, LinkProgram, gpuCalls, stagesAlive, stagesDeleted, stagesCreated,
        programsAlive, hv, hf, hp, hve1, hfe1]
  · have hne1 : device.fragmentName ≠ device.vertexName := hne hvc
    cases hfc : device.fragmentCompiles <;> cases hl : device.links <;>
      simp [CompileShader, LinkProgram, gpuCalls, stagesAlive, stagesDeleted, stagesCreated,
        programsAlive, hv, hf, hp, hne1, Ne.symm hne1, List.Perm.swap, hve1, hfe1]

/-- The statement of C9 at `sampleDevice` and two non-empty texts. -/
theorem Shader.construct_stages_released_sample :
    sampleDevice.Valid ∧
    (stagesAlive (gpuCalls (Shader.construct sampleDevice "void main() {}"
      "void main() {}").2) [] = some [] ∧
    (stagesDeleted (gpuCalls (Shader.construct sampleDevice "void main() {}"
      "void main() {}").2)).Perm
      (stagesCreated (gpuCalls (Shader.construct sampleDevice "void main() {}"
        "void main() {}").2)) ∧
    (("void main() {}" : String) ≠ "" → ("void main() {}" : String) ≠ "" →
      stagesCreated (gpuCalls (Shader.construct sampleDevice "void main() {}"
        "void main() {}").2)
        = [sampleDevice.vertexName, sampleDevice.fragmentName]) ∧
    programsAlive (gpuCalls (Shader.construct sampleDevice "void main() {}"
      "void main() {}").2) []
      = some (if (Shader.construct sampleDevice "void main() {}"
                "void main() {}").1.m_ProgramID = 0 then []
              else [(Shader.construct sampleDevice "void main() {}"
                "void main() {}").1.m_ProgramID])) :=
  ⟨by decide, Shader.construct_stages_released sampleDevice "void main() {}" "void main() {}"
    (by decide)⟩

/-! ## Texture and renderer: properties -/

/-- C11: after a successful decode (the decoder returned a buffer),
`Texture::Load` returns `true` if and only if the decoded channel count is 1, 3
or 4, and then uploads with the format mapped from the channel count: 1 gives
`GL_R8` / `GL_RED`, 3 gives `GL_RGB8` / `GL_RGB`, 4 gives `GL_RGBA8` / `GL_RGBA`;
for every other channel count it returns `false`, uploads nothing and writes an
error line. -/
theorem Texture.Load_channels (decoded : Decoded) (name : Nat) (this : Texture) (data : Nat)
    (h : decoded.data = some data) :
    ((Texture.Load decoded name this).1 = true ↔
      (decoded.channels = 1 ∨ decoded.channels = 3 ∨ decoded.channels = 4)) ∧
    (decoded.channels = 1 →
      GLCall.glTexImage2D GLenum.GL_TEXTURE_2D 0 GLenum.GL_R8 decoded.width decoded.height
        GLenum.GL_RED GLenum.GL_UNSIGNED_BYTE ∈ gpuCalls (Texture.Load decoded name this).2.2) ∧
    (decoded.channels = 3 →
      GLCall.glTexImage2D GLenum.GL_TEXTURE_2D 0 GLenum.GL_RGB8 decoded.width decoded.height
        GLenum.GL_RGB GLenum.GL_UNSIGNED_BYTE ∈ gpuCalls (Texture.Load decoded name this).2.2) ∧
    (decoded.channels = 4 →
      GLCall.glTexImage2D GLenum.GL_TEXTURE_2D 0 GLenum.GL_RGBA8 decoded.width decoded.height
        GLenum.GL_RGBA GLenum.GL_UNSIGNED_BYTE ∈ gpuCalls (Texture.Load decoded name this).2.2) ∧
    (∀ internalFormat width height format type,
      GLCall.glTexImage2D GLenum.GL_TEXTURE_2D 0 internalFormat width height format type
          ∈ gpuCalls (Texture.Load decoded name this).2.2 →
        (decoded.channels = 1 ∧ internalFormat = GLenum.GL_R8 ∧ format = GLenum.GL_RED) ∨
        (decoded.channels = 3 ∧ internalFormat = GLenum.GL_RGB8 ∧ format = GLenum.GL_RGB) ∨
        (decoded.channels = 4 ∧ internalFormat = GLenum.GL_RGBA8 ∧ format = GLenum.GL_RGBA)) ∧
    (¬ (decoded.channels = 1 ∨ decoded.channels = 3 ∨ decoded.channels = 4) →
      (Texture.Load decoded name this).1 = false ∧
      gpuCalls (Texture.Load decoded name this).2.2 = [] ∧
      diagnostics (Texture.Load decoded name this).2.2
        = ["ERROR::TEXTURE::Unsupported number of channels"]) := by
  unfold Texture.Load
  simp only [h]
  by_cases h4 : decoded.channels = 4
  · simp [h4, Texture.upload, gpuCalls]
    intro _ _ _ _ _ e1 _ _ e2 _
    exact ⟨e1, e2⟩
  by_cases h3 : decoded.channels = 3
  · simp [h3, Texture.upload, gpuCalls]
    intro _ _ _ _ _ e1 _ _ e2 _
    exact ⟨e1, e2⟩
  by_cases h1 : decoded.channels = 1
  · simp [h1, Texture.upload, gpuCalls]
    intro _ _ _ _ _ e1 _ _ e2 _
    exact ⟨e1, e2⟩
  simp [h4, h3, h1, gpuCalls, diagnostics]

/-- The statement of C11 at a decoded image of three channels. -/
theorem Texture.Load_channels_sample :
    (⟨some 5, 2, 2, 3⟩ : Decoded).data = some 5 ∧
    (((Texture.Load ⟨some 5, 2, 2, 3⟩ 1 Texture.construct).1 = true ↔
      ((⟨some 5, 2, 2, 3⟩ : Decoded).channels = 1 ∨ (⟨some 5, 2, 2, 3⟩ : Decoded).channels = 3
        ∨ (⟨some 5, 2, 2, 3⟩ : Decoded).channels = 4)) ∧
    GLCall.glTexImage2D GLenum.GL_TEXTURE_2D 0 GLenum.GL_RGB8 2 2
        GLenum.GL_RGB GLenum.GL_UNSIGNED_BYTE
      ∈ gpuCalls (Texture.Load ⟨some 5, 2, 2, 3⟩ 1 Texture.construct).2.2) :=
  ⟨rfl, (Texture.Load_channels ⟨some 5, 2, 2, 3⟩ 1 Texture.construct 5 rfl).1,
    (Texture.Load_channels ⟨some 5, 2, 2, 3⟩ 1 Texture.construct 5 rfl).2.2.1 rfl⟩

/-- C12: whenever `Texture::Load` returns `false` on a freshly constructed
`Texture` (which it does when the decoder returns no buffer), the texture id is
still 0 and no GPU call was made: no device texture was generated, bound or
uploaded.  On every path where the decoder returned a buffer, on whatever
object, that buffer is passed to `stbi_image_free` exactly once. -/
theorem Texture.Load_failure (decoded : Decoded) (name : Nat) :
    ((Texture.Load decoded name Texture.construct).1 = false →
      (Texture.Load decoded name Texture.construct).2.1.m_TextureID = 0 ∧
      gpuCalls (Texture.Load decoded name Texture.construct).2.2 = []) ∧
    (decoded.data = none → (Texture.Load decoded name Texture.construct).1 = false) ∧
    (∀ (this : Texture) (data : Nat), decoded.data = some data →
      buffersFreed data (sysCalls (Texture.Load decoded name this).2.2) = 1) := by
  refine ⟨?_, ?_, ?_⟩
  · unfold Texture.Load
    cases hd : decoded.data with
    | none => simp [Texture.construct, gpuCalls]
    | some data =>
      simp only []
      split_ifs <;> simp [Texture.construct, gpuCalls]
  · intro hd
    unfold Texture.Load
    simp [hd]
  · intro this data hd
    unfold Texture.Load
    simp only [hd]
    split_ifs <;> simp [Texture.upload, sysCalls, buffersFreed]

theorem Renderer.Shutdown_idempotent (this : Renderer) :
    this.Shutdown.1.Shutdown = (this.Shutdown.1, []) := by
  unfold Renderer.Shutdown
  cases h : this.m_Context <;> simp [h]

/-- C13 (amended): after every call of `Renderer::Present` with a non-null
window on a renderer that holds a graphics context, the prepared shader and
mesh are none, also when a shader and a mesh were prepared just before, and a
`DrawPrepared` issued then writes the nothing-prepared diagnostic and draws
nothing. -/
theorem Renderer.Present_clears {F : Type} (this : Renderer) (window context : Nat)
    (h : this.m_Context = some context) :
    (this.Present (some window)).1.m_CurrentShader = none ∧
    (this.Present (some window)).1.m_CurrentMesh = none ∧
    (this.Present (some window)).1.DrawPrepared
      = [Effect.cerr "WARN::RENDERER::DrawPrepared called without a prepared mesh."] ∧
    ∀ (location : Nat → String → Int) (shader : Shader) (mesh : Mesh) (mvpMatrix : List F),
      ((this.PrepareDraw location shader mesh mvpMatrix).1.Present (some window)).1.m_CurrentMesh
        = none ∧
      ((this.PrepareDraw location shader mesh mvpMatrix).1.Present (some window)).1.m_CurrentShader
        = none ∧
      gpuCalls ((this.PrepareDraw location shader mesh mvpMatrix).1.Present
        (some window)).1.DrawPrepared = [] := by
  simp [Renderer.Present, Renderer.DrawPrepared, Renderer.PrepareDraw, h, gpuCalls]

/-- The statement of the amended C13 at a renderer holding context 9. -/
theorem Renderer.Present_clears_sample :
    (⟨some 9, some sampleShader, some sampleMesh⟩ : Renderer).m_Context = some 9 ∧
    ((⟨some 9, some sampleShader, some sampleMesh⟩ : Renderer).Present (some 7)).1.m_CurrentMesh
      = none ∧
    ((⟨some 9, some sampleShader, some sampleMesh⟩ : Renderer).Present (some 7)).1.DrawPrepared
      = [Effect.cerr "WARN::RENDERER::DrawPrepared called without a prepared mesh."] :=
  ⟨rfl, (Renderer.Present_clears (F := Int) ⟨some 9, some sampleShader, some sampleMesh⟩ 7 9 rfl).2.1,
    (Renderer.Present_clears (F := Int) ⟨some 9, some sampleShader, some sampleMesh⟩ 7 9 rfl).2.2.1⟩

/-- C13, as stated, fails on a renderer that holds no graphics context (one
never initialised, or shut down): `Present` returns at its guard, the prepared
mesh stays prepared, and the `DrawPrepared` that follows draws it.  The same
happens for a null window on a renderer that holds a context. -/
theorem Renderer.Present_keeps_prepared :
    ((Renderer.construct.PrepareDraw noLocation sampleShader sampleMesh
      ([] : List Int)).1.Present (some 7)).1.m_CurrentMesh = some sampleMesh ∧
    ((Renderer.construct.PrepareDraw noLocation sampleShader sampleMesh
      ([] : List Int)).1.Present (some 7)).1.DrawPrepared
      = [Effect.gl (GLCall.glDrawElements GLenum.GL_TRIANGLES 3 GLenum.GL_UNSIGNED_INT 0)] ∧
    (((⟨some 9, none, none⟩ : Renderer).PrepareDraw noLocation sampleShader sampleMesh
      ([] : List Int)).1.Present none).1.DrawPrepared
      = [Effect.gl (GLCall.glDrawElements GLenum.GL_TRIANGLES 3 GLenum.GL_UNSIGNED_INT 0)] := by
  refine ⟨rfl, ?_, ?_⟩ <;>
    simp [Renderer.Present, Renderer.DrawPrepared, Renderer.PrepareDraw, Renderer.construct,
      Mesh.Draw, sampleMesh]

theorem Renderer.shutdowns_none (n : Nat) (this : Renderer) (h : this.m_Context = none) :
    Renderer.shutdowns n this = (this, []) := by
  induction n with
  | zero => rfl
  | succ n ih =>
    have hs : this.Shutdown = (this, []) := by simp [Renderer.Shutdown, h]
    simp [Renderer.shutdowns, hs, ih]

theorem Renderer.shutdowns_some (n : Nat) (this : Renderer) (context : Nat)
    (h : this.m_Context = some context) :
    Renderer.shutdowns (n + 1) this
      = ({ this with m_Context := none },
         [Effect.sys (SysCall.SDL_GL_DeleteContext context),
          Effect.cout "INFO::RENDERER::OpenGL context destroyed."]) := by
  have hs : this.Shutdown = ({ this with m_Context := none },
      [Effect.sys (SysCall.SDL_GL_DeleteContext context),
       Effect.cout "INFO::RENDERER::OpenGL context destroyed."]) := by
    simp [Renderer.Shutdown, h]
  have hn := Renderer.shutdowns_none n { this with m_Context := none } rfl
  simp only [Renderer.shutdowns, hs, hn, List.append_nil]

/-- C14: `Renderer::Shutdown` is idempotent and the graphics context is
released exactly once: for every outcome of `Initialize` on a fresh renderer
(null window, context creation failed, function loading failed after the
context was created, success), followed by any number of `Shutdown` calls and
the destructor, replaying the calls leaves no context alive and never deletes
one that is not alive; and a `Shutdown` after a `Shutdown` leaves the renderer
unchanged and has no effect. -/
theorem Renderer.Shutdown_releases_once (device : RendererDevice) (window : Option Nat)
    (n : Nat) :
    contextsAlive (sysCalls
      ((Renderer.Initialize device Renderer.construct window).2.2
        ++ (Renderer.shutdowns n (Renderer.Initialize device Renderer.construct window).2.1).2
        ++ (Renderer.shutdowns n
            (Renderer.Initialize device Renderer.construct window).2.1).1.destruct)) []
      = some [] ∧
    ∀ (this : Renderer), this.Shutdown.1.Shutdown = (this.Shutdown.1, []) := by
  refine ⟨?_, Renderer.Shutdown_idempotent⟩
  cases window with
  | none =>
    have : Renderer.Initialize device Renderer.construct none
        = (false, Renderer.construct, [Effect.cerr "ERROR::RENDERER::Window pointer is null."]) := rfl
    rw [this, Renderer.shutdowns_none n _ rfl]
    simp [Renderer.destruct, Renderer.Shutdown, Renderer.construct, sysCalls, contextsAlive]
  | some w =>
    cases hc : device.context with
    | none =>
      have hi : (Renderer.Initialize device Renderer.construct (some w)).2.1.m_Context = none := by
        simp [Renderer.Initialize, hc]
      rw [Renderer.shutdowns_none n _ hi]
      simp [Renderer.Initialize, hc, Renderer.destruct, Renderer.Shutdown, Renderer.construct,
        sysCalls, contextsAlive, Renderer.setAttributes, List.replicate]
    | some c =>
      cases hg : device.gladLoads with
      | false =>
        have hi : (Renderer.Initialize device Renderer.construct (some w)).2.1.m_Context
            = none := by
          simp [Renderer.Initialize, hc, hg]
        rw [Renderer.shutdowns_none n _ hi]
        simp [Renderer.Initialize, hc, hg, Renderer.destruct, Renderer.Shutdown,
          Renderer.construct, sysCalls, contextsAlive, Renderer.setAttributes, List.replicate]
      | true =>
        have hi : (Renderer.Initialize device Renderer.construct (some w)).2.1.m_Context
            = some c := by
          simp [Renderer.Initialize, hc, hg]
        cases n with
        | zero =>
          by_cases hs : device.swapInterval < 0 <;>
            simp [Renderer.shutdowns, Renderer.Initialize, hc, hg, hs, Renderer.destruct,
              Renderer.Shutdown, Renderer.construct, sysCalls, contextsAlive,
              Renderer.setAttributes, List.replicate]
        | succ n =>
          rw [Renderer.shutdowns_some n _ c hi]
          by_cases hs : device.swapInterval < 0 <;>
            simp [Renderer.Initialize, hc, hg, hs, Renderer.destruct, Renderer.Shutdown,
              Renderer.construct, sysCalls, contextsAlive, Renderer.setAttributes,
              List.replicate]

/-! ## The frame loop: properties -/

theorem Application.HandleMouseInput_pitch_cases {F : Type} [LinearOrder F] (cam : CameraOps F)
    (hlim : cam.negDeg89 ≤ cam.deg89) (this : Application F) (x y : F) :
    (cam.negDeg89 ≤ (Application.HandleMouseInput cam this x y).m_CameraPitch ∧
      (Application.HandleMouseInput cam this x y).m_CameraPitch ≤ cam.deg89) ∧
    (cam.add this.m_CameraPitch (cam.mul y this.m_MouseSensitivity) > cam.deg89 →
      (Application.HandleMouseInput cam this x y).m_CameraPitch = cam.deg89) ∧
    (cam.add this.m_CameraPitch (cam.mul y this.m_MouseSensitivity) < cam.negDeg89 →
      (Application.HandleMouseInput cam this x y).m_CameraPitch = cam.negDeg89) ∧
    (cam.negDeg89 ≤ cam.add this.m_CameraPitch (cam.mul y this.m_MouseSensitivity) ∧
      cam.add this.m_CameraPitch (cam.mul y this.m_MouseSensitivity) ≤ cam.deg89 →
      (Application.HandleMouseInput cam this x y).m_CameraPitch
        = cam.add this.m_CameraPitch (cam.mul y this.m_MouseSensitivity)) := by
  have hp : (Application.HandleMouseInput cam this x y).m_CameraPitch
      = if (if cam.add this.m_CameraPitch (cam.mul y this.m_MouseSensitivity) > cam.deg89
              then cam.deg89
              else cam.add this.m_CameraPitch (cam.mul y this.m_MouseSensitivity)) < cam.negDeg89
        then cam.negDeg89
        else (if cam.add this.m_CameraPitch (cam.mul y this.m_MouseSensitivity) > cam.deg89
              then cam.deg89
              else cam.add this.m_CameraPitch (cam.mul y this.m_MouseSensitivity)) := rfl
  rw [hp]
  generalize cam.add this.m_CameraPitch (cam.mul y this.m_MouseSensitivity) = r
  by_cases h1 : r > cam.deg89
  · have h2 : ¬ cam.deg89 < cam.negDeg89 := not_lt.mpr hlim
    rw [if_pos h1, if_neg h2]
    refine ⟨⟨hlim, le_refl _⟩, fun _ => rfl, ?_, ?_⟩
    · intro h3
      exact absurd (lt_trans h3 (lt_of_le_of_lt hlim h1)) (lt_irrefl _)
    · intro h3
      exact absurd h1 (not_lt.mpr h3.2)
  · rw [if_neg h1]
    by_cases h2 : r < cam.negDeg89
    · rw [if_pos h2]
      refine ⟨⟨le_refl _, hlim⟩, fun h => absurd h h1, fun _ => rfl, ?_⟩
      intro h3
      exact absurd h2 (not_lt.mpr h3.1)
    · rw [if_neg h2]
      exact ⟨⟨not_lt.mp h2, not_lt.mp h1⟩, fun h => absurd h h1, fun h => absurd h h2,
        fun _ => rfl⟩

/-- C16: with `-89.0f` not above `89.0f`, for every starting pitch in
`[-89, 89]` and every finite sequence of mouse offsets passed to
`HandleMouseInput`, the camera pitch after each update lies in `[-89, 89]`; in
each update, whenever the computed `pitch + yoffset * sensitivity` exceeds 89
the pitch becomes exactly 89, whenever it is below -89 the pitch becomes
exactly -89, and otherwise the pitch is that value. -/
theorem Application.HandleMouseInput_pitch {F : Type} [LinearOrder F] (cam : CameraOps F)
    (this : Application F) (offsets : List (F × F)) (hlim : cam.negDeg89 ≤ cam.deg89)
    (hstart : cam.negDeg89 ≤ this.m_CameraPitch ∧ this.m_CameraPitch ≤ cam.deg89) :
    (∀ k, cam.negDeg89 ≤ (Application.mouseInputs cam (offsets.take k) this).m_CameraPitch ∧
      (Application.mouseInputs cam (offsets.take k) this).m_CameraPitch ≤ cam.deg89) ∧
    ∀ (app : Application F) (x y : F),
      (cam.add app.m_CameraPitch (cam.mul y app.m_MouseSensitivity) > cam.deg89 →
        (Application.HandleMouseInput cam app x y).m_CameraPitch = cam.deg89) ∧
      (cam.add app.m_CameraPitch (cam.mul y app.m_MouseSensitivity) < cam.negDeg89 →
        (Application.HandleMouseInput cam app x y).m_CameraPitch = cam.negDeg89) ∧
      (cam.negDeg89 ≤ cam.add app.m_CameraPitch (cam.mul y app.m_MouseSensitivity) ∧
        cam.add app.m_CameraPitch (cam.mul y app.m_MouseSensitivity) ≤ cam.deg89 →
        (Application.HandleMouseInput cam app x y).m_CameraPitch
          = cam.add app.m_CameraPitch (cam.mul y app.m_MouseSensitivity)) := by
  refine ⟨?_, fun app x y => (Application.HandleMouseInput_pitch_cases cam hlim app x y).2⟩
  have key : ∀ (l : List (F × F)) (app : Application F),
      (cam.negDeg89 ≤ app.m_CameraPitch ∧ app.m_CameraPitch ≤ cam.deg89) →
      cam.negDeg89 ≤ (Application.mouseInputs cam l app).m_CameraPitch ∧
        (Application.mouseInputs cam l app).m_CameraPitch ≤ cam.deg89 := by
    intro l
    induction l with
    | nil => intro app h; exact h
    | cons o rest ih =>
      intro app _
      exact ih _ (Application.HandleMouseInput_pitch_cases cam hlim app o.1 o.2).1
  intro k
  exact key _ this hstart

/-- The statement of C16 for the freshly constructed object in whole-number
arithmetic and three offsets, the second of which pushes the pitch past 89. -/
theorem Application.HandleMouseInput_pitch_sample :
    wholeCamera.negDeg89 ≤ wholeCamera.deg89 ∧
    (wholeCamera.negDeg89 ≤ (Application.construct wholeCamera).m_CameraPitch ∧
      (Application.construct wholeCamera).m_CameraPitch ≤ wholeCamera.deg89) ∧
    (∀ k, wholeCamera.negDeg89 ≤ (Application.mouseInputs wholeCamera
        (([(0, 50), (10, 70), (0, -300)] : List (Int × Int)).take k)
        (Application.construct wholeCamera)).m_CameraPitch ∧
      (Application.mouseInputs wholeCamera
        (([(0, 50), (10, 70), (0, -300)] : List (Int × Int)).take k)
        (Application.construct wholeCamera)).m_CameraPitch ≤ wholeCamera.deg89) :=
  ⟨by decide, by decide,
    (Application.HandleMouseInput_pitch wholeCamera (Application.construct wholeCamera)
      [(0, 50), (10, 70), (0, -300)] (by decide) (by decide)).1⟩

theorem Application.PlaySound_flags {F : Type} (channel : Int) (this : Application F) :
    (Application.PlaySound channel this).1.m_IsRunning = this.m_IsRunning ∧
    (Application.PlaySound channel this).1.m_CurrentState = this.m_CurrentState := by
  unfold Application.PlaySound
  split
  · exact ⟨rfl, rfl⟩
  · split_ifs <;> exact ⟨rfl, rfl⟩

theorem Application.RestartAudio_flags {F : Type} (channel : Int) (this : Application F) :
    (Application.RestartAudio channel this).1.m_IsRunning = this.m_IsRunning ∧
    (Application.RestartAudio channel this).1.m_CurrentState = this.m_CurrentState := by
  unfold Application.RestartAudio
  split
  · simp only []
    split_ifs
    · have := Application.PlaySound_flags channel { this with m_MusicChannel := -1 }
      exact this
    · exact Application.PlaySound_flags channel this
  · exact ⟨rfl, rfl⟩

theorem Application.HandleMouseInput_flags {F : Type} [LinearOrder F] (cam : CameraOps F)
    (this : Application F) (x y : F) :
    (Application.HandleMouseInput cam this x y).m_IsRunning = this.m_IsRunning ∧
    (Application.HandleMouseInput cam this x y).m_CurrentState = this.m_CurrentState :=
  ⟨rfl, rfl⟩

theorem Application.ProcessEvent_running {F : Type} [LinearOrder F] (cam : CameraOps F)
    (this : Application F) (polled : PolledEvent) :
    (Application.ProcessEvent cam this polled).1.m_IsRunning
      = (this.m_IsRunning && decide (polled.event ≠ SDL_Event.quit)) := by
  unfold Application.ProcessEvent
  cases he : polled.event with
  | quit => simp
  | keydown escape =>
    cases escape with
    | true => cases hs : this.m_CurrentState <;> simp [hs]
    | false => simp
  | mousemotion xrel yrel =>
    simp only []
    split_ifs <;> simp [Application.HandleMouseInput]
  | other => simp

theorem Application.ProcessEvent_state {F : Type} [LinearOrder F] (cam : CameraOps F)
    (this : Application F) (polled : PolledEvent) :
    (Application.ProcessEvent cam this polled).1.m_CurrentState
      = if polled.event = SDL_Event.keydown true then
          (match this.m_CurrentState with
            | GameState.Playing => GameState.Paused
            | GameState.Paused => GameState.Playing
            | GameState.ShowingHelp => GameState.Paused)
        else this.m_CurrentState := by
  unfold Application.ProcessEvent
  cases he : polled.event with
  | quit => simp
  | keydown escape =>
    cases escape with
    | true => cases hs : this.m_CurrentState <;> simp [hs]
    | false => simp
  | mousemotion xrel yrel =>
    simp only []
    split_ifs <;> first | contradiction | simp [Application.HandleMouseInput]
  | other => simp

theorem Application.ProcessEvents_running {F : Type} [LinearOrder F] (cam : CameraOps F)
    (events : List PolledEvent) (this : Application F) :
    (Application.ProcessEvents cam events this).1.m_IsRunning
      = (this.m_IsRunning && events.all fun polled => decide (polled.event ≠ SDL_Event.quit)) := by
  unfold Application.ProcessEvents
  simp only []
  generalize [Effect.sys SysCall.SDL_PumpEvents, Effect.sys SysCall.SDL_GetKeyboardState,
    Effect.sys SysCall.ImGui_GetIO] = e0
  induction events generalizing this e0 with
  | nil => simp
  | cons polled rest ih =>
    simp only [List.foldl_cons, List.all_cons]
    rw [ih, Application.ProcessEvent_running, Bool.and_assoc]

theorem Application.Update_flags {F : Type} (cam : CameraOps F) (keyboard : KeyboardState)
    (this : Application F) (deltaTime : F) :
    (Application.Update cam keyboard this deltaTime).1.m_IsRunning = this.m_IsRunning ∧
    (Application.Update cam keyboard this deltaTime).1.m_CurrentState = this.m_CurrentState := by
  unfold Application.Update
  split_ifs <;> exact ⟨rfl, rfl⟩

theorem Application.RenderUI_running {F : Type} (ui : UiInput) (this : Application F) :
    (Application.RenderUI ui this).1.m_IsRunning
      = (this.m_IsRunning &&
          !(decide (this.m_CurrentState = GameState.Paused) && ui.quit)) := by
  unfold Application.RenderUI
  cases hs : this.m_CurrentState with
  | Playing => simp
  | ShowingHelp =>
    simp only []
    split_ifs <;> simp
  | Paused =>
    simp only []
    cases hq : ui.quit <;> cases hr : ui.restartSong <;> cases hh : ui.help <;>
      cases hres : ui.resume <;>
      simp [(Application.RestartAudio_flags _ _).1]

theorem Application.RenderUI_state {F : Type} (ui : UiInput) (this : Application F) :
    (Application.RenderUI ui this).1.m_CurrentState
      = match this.m_CurrentState with
        | GameState.Playing => GameState.Playing
        | GameState.Paused =>
          if ui.help then GameState.ShowingHelp
          else if ui.resume then GameState.Playing else GameState.Paused
        | GameState.ShowingHelp => if ui.back then GameState.Paused else GameState.ShowingHelp := by
  unfold Application.RenderUI
  cases hs : this.m_CurrentState with
  | Playing => simp [hs]
  | ShowingHelp =>
    simp only []
    split_ifs <;> simp [hs]
  | Paused =>
    simp only []
    cases hq : ui.quit <;> cases hr : ui.restartSong <;> cases hh : ui.help <;>
      cases hres : ui.resume <;>
      simp [(Application.RestartAudio_flags _ _).2, hs]

theorem Application.Render_flags {F : Type} (env : RenderEnv F) (ui : UiInput)
    (this r : Application F) (e : List Effect) (h : Application.Render env ui this = some (r, e)) :
    r.m_IsRunning = (Application.RenderUI ui this).1.m_IsRunning ∧
    r.m_CurrentState = (Application.RenderUI ui this).1.m_CurrentState := by
  unfold Application.Render at h
  cases hr : this.m_Renderer with
  | none => simp [hr] at h
  | some renderer =>
    simp only [hr] at h
    cases hr1 : (Application.RenderUI ui this).1.m_Renderer with
    | none => simp [hr1] at h
    | some renderer1 =>
      simp only [hr1, Option.some.injEq, Prod.mk.injEq] at h
      obtain ⟨h1, -⟩ := h
      subst h1
      exact ⟨rfl, rfl⟩

theorem Application.runLoop_stopped {F : Type} [LinearOrder F] (cam : CameraOps F)
    (env : RenderEnv F) (inputs : List FrameInput) (this : Application F)
    (h : this.m_IsRunning = false) :
    Application.runLoop cam env inputs this = some (this, []) := by
  cases inputs <;> simp [Application.runLoop, h]

theorem Application.frame_flags {F : Type} [LinearOrder F] (cam : CameraOps F)
    (env : RenderEnv F) (input : FrameInput) (this : Application F)
    (r : Application F × List Effect) (h : Application.frame cam env input this = some r) :
    r.1.m_IsRunning
      = (this.m_IsRunning
          && (input.events.all fun polled => decide (polled.event ≠ SDL_Event.quit))
          && !(decide ((Application.ProcessEvents cam input.events
                { this with m_TickCountLast := input.ticks }).1.m_CurrentState
                  = GameState.Paused) && input.ui.quit)) := by
  unfold Application.frame at h
  simp only [Option.map_eq_some'] at h
  obtain ⟨⟨r3, e3⟩, hr, rfl⟩ := h
  have hflags := Application.Render_flags env input.ui _ r3 e3 hr
  simp only []
  rw [hflags.1, Application.RenderUI_running]
  split_ifs with hs
  · rw [(Application.Update_flags cam input.keyboard _ _).1,
      (Application.Update_flags cam input.keyboard _ _).2,
      Application.ProcessEvents_running]
  · rw [Application.ProcessEvents_running]

/-- C15: the transitions of the application state machine.  An Escape key
press takes `Playing` to `Paused`, `Paused` to `Playing` and `ShowingHelp` to
`Paused`; in the pause menu the Resume button (Help not pressed) reaches
`Playing` and the Help button reaches `ShowingHelp`; in the help window the Back
button reaches `Paused`.  A window-close event, in any state, and the Quit
button of the pause menu clear the running flag, and the iteration of the frame
loop in which that happens is its last.  No other event and no other button
changes the state, `Update` does not, and nothing but a quit input changes the
running flag. -/
theorem Application.state_machine {F : Type} [LinearOrder F] (cam : CameraOps F)
    (env : RenderEnv F) (this : Application F) :
    (∀ polled : PolledEvent, polled.event = SDL_Event.keydown true →
      (this.m_CurrentState = GameState.Playing →
        (Application.ProcessEvent cam this polled).1.m_CurrentState = GameState.Paused) ∧
      (this.m_CurrentState = GameState.Paused →
        (Application.ProcessEvent cam this polled).1.m_CurrentState = GameState.Playing) ∧
      (this.m_CurrentState = GameState.ShowingHelp →
        (Application.ProcessEvent cam this polled).1.m_CurrentState = GameState.Paused)) ∧
    (∀ ui : UiInput, this.m_CurrentState = GameState.Paused → ui.resume = true →
      ui.help = false → (Application.RenderUI ui this).1.m_CurrentState = GameState.Playing) ∧
    (∀ ui : UiInput, this.m_CurrentState = GameState.Paused → ui.help = true →
      (Application.RenderUI ui this).1.m_CurrentState = GameState.ShowingHelp) ∧
    (∀ ui : UiInput, this.m_CurrentState = GameState.ShowingHelp → ui.back = true →
      (Application.RenderUI ui this).1.m_CurrentState = GameState.Paused) ∧
    (∀ polled : PolledEvent, polled.event = SDL_Event.quit →
      (Application.ProcessEvent cam this polled).1.m_IsRunning = false ∧
      (Application.ProcessEvent cam this polled).1.m_CurrentState = this.m_CurrentState) ∧
    (∀ ui : UiInput, this.m_CurrentState = GameState.Paused → ui.quit = true →
      (Application.RenderUI ui this).1.m_IsRunning = false) ∧
    (∀ polled : PolledEvent, polled.event ≠ SDL_Event.keydown true →
      (Application.ProcessEvent cam this polled).1.m_CurrentState = this.m_CurrentState) ∧
    (∀ polled : PolledEvent, polled.event ≠ SDL_Event.quit →
      (Application.ProcessEvent cam this polled).1.m_IsRunning = this.m_IsRunning) ∧
    (∀ ui : UiInput,
      (this.m_CurrentState = GameState.Playing ∨
        (this.m_CurrentState = GameState.Paused ∧ ui.resume = false ∧ ui.help = false) ∨
        (this.m_CurrentState = GameState.ShowingHelp ∧ ui.back = false)) →
      (Application.RenderUI ui this).1.m_CurrentState = this.m_CurrentState) ∧
    (∀ ui : UiInput, ¬ (this.m_CurrentState = GameState.Paused ∧ ui.quit = true) →
      (Application.RenderUI ui this).1.m_IsRunning = this.m_IsRunning) ∧
    (∀ (keyboard : KeyboardState) (deltaTime : F),
      (Application.Update cam keyboard this deltaTime).1.m_CurrentState = this.m_CurrentState ∧
      (Application.Update cam keyboard this deltaTime).1.m_IsRunning = this.m_IsRunning) ∧
    (∀ (input : FrameInput) (rest : List FrameInput) (r : Application F × List Effect),
      this.m_IsRunning = true → Application.frame cam env input this = some r →
      ((∃ polled ∈ input.events, polled.event = SDL_Event.quit) ∨
        (input.ui.quit = true ∧
          (Application.ProcessEvents cam input.events
            { this with m_TickCountLast := input.ticks }).1.m_CurrentState = GameState.Paused)) →
      r.1.m_IsRunning = false ∧
      Application.runLoop cam env (input :: rest) this = some r) := by
  refine ⟨?_, ?_, ?_, ?_, ?_, ?_, ?_, ?_, ?_, ?_, ?_, ?_⟩
  · intro polled he
    rw [Application.ProcessEvent_state, if_pos he]
    refine ⟨?_, ?_, ?_⟩ <;> intro hs <;> rw [hs]
  · intro ui hs hr hh
    rw [Application.RenderUI_state, hs]
    simp [hr, hh]
  · intro ui hs hh
    rw [Application.RenderUI_state, hs]
    simp [hh]
  · intro ui hs hb
    rw [Application.RenderUI_state, hs]
    simp [hb]
  · intro polled he
    rw [Application.ProcessEvent_running, Application.ProcessEvent_state]
    simp [he]
  · intro ui hs hq
    rw [Application.RenderUI_running]
    simp [hs, hq]
  · intro polled he
    rw [Application.ProcessEvent_state, if_neg he]
  · intro polled he
    rw [Application.ProcessEvent_running]
    simp [he]
  · intro ui h
    rw [Application.RenderUI_state]
    rcases h with h | ⟨h, h1, h2⟩ | ⟨h, h1⟩ <;> rw [h] <;> simp [*]
  · intro ui h
    rw [Application.RenderUI_running]
    by_cases hs : this.m_CurrentState = GameState.Paused
    · have hq : ui.quit = false := by
        cases hq : ui.quit
        · rfl
        · exact absurd ⟨hs, hq⟩ h
      simp [hq]
    · simp [hs]
  · intro keyboard deltaTime
    exact ⟨(Application.Update_flags cam keyboard this deltaTime).2,
      (Application.Update_flags cam keyboard this deltaTime).1⟩
  · intro input rest r hrun hframe hquit
    have hflag := Application.frame_flags cam env input this r hframe
    have hstop : r.1.m_IsRunning = false := by
      rw [hflag]
      rcases hquit with ⟨polled, hmem, he⟩ | ⟨hq, hs⟩
      · have hall : (input.events.all fun polled => decide (polled.event ≠ SDL_Event.quit))
            = false := by
          rw [List.all_eq_false]
          exact ⟨polled, hmem, by simp [he]⟩
        rw [hall, Bool.and_false, Bool.false_and]
      · simp [hq, hs]
    refine ⟨hstop, ?_⟩
    simp only [Application.runLoop, hrun, if_true, hframe,
      Application.runLoop_stopped cam env rest r.1 hstop, Option.map_some', List.append_nil]

/-! ## Start-up and teardown: lemmas -/

theorem releases_append (a b : List Effect) : releases (a ++ b) = releases a ++ releases b := by
  simp [releases, List.filterMap_append]

theorem playsSound_append (a b : List Effect) :
    playsSound (a ++ b) = (playsSound a || playsSound b) := by
  simp [playsSound, List.any_append]

theorem Application.LoadAudio_members {F : Type} (env : AudioEnv) (this : Application F) :
    (Application.LoadAudio env this).2.1.m_LoadedMesh = this.m_LoadedMesh ∧
    (Application.LoadAudio env this).2.1.m_DiffuseTexture = this.m_DiffuseTexture ∧
    playsSound (Application.LoadAudio env this).2.2 = false := by
  unfold Application.LoadAudio
  cases this.m_MixerInitialized <;> cases env.wav <;>
    simp [playsSound, startsSound] <;> split_ifs <;> simp [startsSound]

theorem Application.LoadAudio_fst {F : Type} (env : AudioEnv) (a b : Application F)
    (h : a.m_MixerInitialized = b.m_MixerInitialized) :
    (Application.LoadAudio env a).1 = (Application.LoadAudio env b).1 := by
  unfold Application.LoadAudio
  rw [h]
  cases b.m_MixerInitialized <;> cases env.wav <;> simp <;> split_ifs <;> simp

theorem Application.PlaySound_members {F : Type} (channel : Int) (this : Application F) :
    (Application.PlaySound channel this).1.m_LoadedMesh = this.m_LoadedMesh ∧
    (Application.PlaySound channel this).1.m_DiffuseTexture = this.m_DiffuseTexture := by
  unfold Application.PlaySound
  split
  · exact ⟨rfl, rfl⟩
  · split_ifs <;> exact ⟨rfl, rfl⟩

theorem Application.InitializeAudio_spec {F : Type} (env : InitEnv F) (this : Application F) :
    (Application.InitializeAudio env this).1 = true ∧
    (Application.InitializeAudio env this).2.1.m_LoadedMesh = this.m_LoadedMesh ∧
    (Application.InitializeAudio env this).2.1.m_DiffuseTexture = this.m_DiffuseTexture ∧
    ((Application.LoadAudio env.audio this).1 = false →
      playsSound (Application.InitializeAudio env this).2.2 = false) := by
  have hl := Application.LoadAudio_members env.audio this
  have hp := Application.PlaySound_members env.audio.playChannel
    (Application.LoadAudio env.audio this).2.1
  unfold Application.InitializeAudio
  refine ⟨rfl, ?_, ?_, ?_⟩
  · by_cases h : (Application.LoadAudio env.audio this).1 = true
    · simp [h, hp.1, hl.1]
    · simp [h, hl.1]
  · by_cases h : (Application.LoadAudio env.audio this).1 = true
    · simp [h, hp.2, hl.2.1]
    · simp [h, hl.2.1]
  · intro h
    simp [h, playsSound_append, hl.2.2]
    simp [playsSound, startsSound]

theorem playsSound_destroyOwned_mesh (o : Option Mesh) :
    playsSound (destroyOwned Mesh.destruct o) = false := by
  cases o with
  | none => rfl
  | some m =>
    simp only [destroyOwned, Mesh.destruct, playsSound_append]
    split_ifs <;> simp [playsSound, startsSound]

theorem playsSound_texture_destruct (t : Texture) : playsSound (Texture.destruct t) = false := by
  unfold Texture.destruct
  split_ifs <;> simp [playsSound, startsSound]

theorem playsSound_destroyOwned_texture (o : Option Texture) :
    playsSound (destroyOwned Texture.destruct o) = false := by
  cases o with
  | none => rfl
  | some t => exact playsSound_texture_destruct t

theorem playsSound_destroyOwned_shader (o : Option Shader) :
    playsSound (destroyOwned Shader.destruct o) = false := by
  cases o with
  | none => rfl
  | some s =>
    simp only [destroyOwned, Shader.destruct]
    split_ifs <;> simp [playsSound, startsSound]

theorem playsSound_destroyOwned_renderer (o : Option Renderer) :
    playsSound (destroyOwned Renderer.destruct o) = false := by
  cases o with
  | none => rfl
  | some r =>
    simp only [destroyOwned, Renderer.destruct, Renderer.Shutdown]
    cases r.m_Context <;> simp [playsSound, startsSound]

theorem playsSound_mesh_construct {F : Type} (names : MeshNames) (vertices : List (Vertex F))
    (indices : List Nat) : playsSound (Mesh.construct names vertices indices).2 = false := by
  unfold Mesh.construct
  split_ifs <;> simp [playsSound, startsSound, Mesh.SetupMesh]

theorem playsSound_shader_construct (device : ShaderDevice) (vertexCode fragmentCode : String) :
    playsSound (Shader.construct device vertexCode fragmentCode).2 = false := by
  unfold Shader.construct CompileShader LinkProgram
  cases device.vertexCompiles <;> cases device.fragmentCompiles <;> cases device.links <;>
    simp [playsSound, startsSound] <;> split_ifs <;> simp [startsSound]

theorem playsSound_texture_load (decoded : Decoded) (name : Nat) (this : Texture) :
    playsSound (Texture.Load decoded name this).2.2 = false := by
  unfold Texture.Load
  cases decoded.data with
  | none => simp [playsSound, startsSound]
  | some data =>
    simp only []
    split_ifs <;> simp [playsSound, startsSound, Texture.upload]

theorem playsSound_renderer_initialize (device : RendererDevice) (this : Renderer)
    (window : Option Nat) :
    playsSound (Renderer.Initialize device this window).2.2 = false := by
  unfold Renderer.Initialize
  cases window with
  | none => simp [playsSound, startsSound]
  | some w =>
    cases device.context with
    | none => simp [playsSound, startsSound, Renderer.setAttributes, List.replicate]
    | some context =>
      simp only []
      split_ifs <;> simp [playsSound, startsSound, Renderer.setAttributes, List.replicate]

theorem FileUtils.playsSound_log {F : Type} [DecidableEq F] (ops : FloatOps F)
    (parse : ParseResult F) (outVertices : List (Vertex F)) (outIndices : List Nat)
    (loaded : FileUtils.LoadResult F)
    (h : FileUtils.LoadObjModel ops parse outVertices outIndices = some loaded) :
    playsSound loaded.log = false := by
  unfold FileUtils.LoadObjModel at h
  have hp : playsSound (FileUtils.parseLog parse) = false := by
    unfold FileUtils.parseLog
    split_ifs <;> simp [playsSound, startsSound]
  split_ifs at h
  · cases h
    simp [playsSound_append, hp]
    simp [playsSound, startsSound]
  · cases hloop : FileUtils.loadLoop ops parse.attrib (FileUtils.initialState F) parse.shapes with
    | none => simp [hloop] at h
    | some st =>
      simp [hloop] at h
      subst h
      simp [playsSound_append, hp]
      simp [playsSound, startsSound]

/-- The model stage when the loader succeeds. -/
theorem Application.InitializeModel_ok {F : Type} [DecidableEq F] (ops : FloatOps F)
    (env : InitEnv F) (this : Application F) (loaded : FileUtils.LoadResult F)
    (hpath : env.modelPath.isEmpty = false)
    (hl : FileUtils.LoadObjModel ops env.parse [] [] = some loaded) (hok : loaded.ok = true) :
    ∃ r, Application.InitializeModel ops env this = some r ∧ r.1 = true ∧
      r.2.1.m_DiffuseTexture = this.m_DiffuseTexture ∧
      r.2.1.m_LoadedMesh
        = some (Mesh.construct env.meshNames loaded.outVertices loaded.outIndices).1 ∧
      ((Application.LoadAudio env.audio this).1 = false → playsSound r.2.2 = false) := by
  have ha : ∀ mesh : Mesh, _ := fun mesh =>
    Application.InitializeAudio_spec env { this with m_LoadedMesh := some mesh }
  have hf : ∀ mesh : Mesh, _ := fun mesh =>
    Application.LoadAudio_fst env.audio { this with m_LoadedMesh := some mesh } this rfl
  specialize ha (Mesh.construct env.meshNames loaded.outVertices loaded.outIndices).1
  specialize hf (Mesh.construct env.meshNames loaded.outVertices loaded.outIndices).1
  simp only [Application.InitializeModel, hpath, hl, hok]
  refine ⟨_, rfl, ha.1, ha.2.2.1, ha.2.1, ?_⟩
  intro h
  rw [← hf] at h
  have h1 : playsSound [Effect.cout "INFO::APP::Model loaded and mesh created"] = false := rfl
  simp only [playsSound_append, ha.2.2.2 h, FileUtils.playsSound_log ops _ _ _ _ hl,
    playsSound_mesh_construct, playsSound_destroyOwned_mesh, h1, Bool.or_false]

/-- The model stage when the loader fails. -/
theorem Application.InitializeModel_failed {F : Type} [DecidableEq F] (ops : FloatOps F)
    (env : InitEnv F) (this : Application F) (loaded : FileUtils.LoadResult F)
    (hl : FileUtils.LoadObjModel ops env.parse [] [] = some loaded) (hok : loaded.ok = false) :
    ∃ e, Application.InitializeModel ops env this = some (false, this, e) ∧ gpuCalls e = [] := by
  unfold Application.InitializeModel
  by_cases hpath : env.modelPath.isEmpty = true
  · exact ⟨[Effect.cerr "ERROR::APP::Could not get model path"], by simp [hpath], rfl⟩
  · refine ⟨loaded.log, by simp [hpath, hl, hok], ?_⟩
    unfold FileUtils.LoadObjModel at hl
    split_ifs at hl with hret
    · cases hl
      simp only [FileUtils.parseLog]
      split_ifs <;> rfl
    · cases hloop : FileUtils.loadLoop ops env.parse.attrib (FileUtils.initialState F)
          env.parse.shapes with
      | none => simp [hloop] at hl
      | some st =>
        simp [hloop] at hl
        subst hl
        simp at hok

/-- The texture stage when the loader succeeds: the outcome of loading the
texture does not matter. -/
theorem Application.InitializeTexture_ok {F : Type} [DecidableEq F] (ops : FloatOps F)
    (env : InitEnv F) (this : Application F) (loaded : FileUtils.LoadResult F)
    (htex : env.texturePath.isEmpty = false) (hpath : env.modelPath.isEmpty = false)
    (hl : FileUtils.LoadObjModel ops env.parse [] [] = some loaded) (hok : loaded.ok = true) :
    ∃ r, Application.InitializeTexture ops env this = some r ∧ r.1 = true ∧
      ((Texture.Load env.decoded env.textureName Texture.construct).1 = false →
        r.2.1.m_DiffuseTexture = none) ∧
      r.2.1.m_LoadedMesh
        = some (Mesh.construct env.meshNames loaded.outVertices loaded.outIndices).1 ∧
      ((Application.LoadAudio env.audio this).1 = false → playsSound r.2.2 = false) := by
  have hm : ∀ t : Option Texture, _ := fun t =>
    Application.InitializeModel_ok ops env { this with m_DiffuseTexture := t } loaded hpath hl hok
  have hf : ∀ t : Option Texture, _ := fun t =>
    Application.LoadAudio_fst env.audio { this with m_DiffuseTexture := t } this rfl
  cases hload : (Texture.Load env.decoded env.textureName Texture.construct).1 with
  | true =>
    obtain ⟨r, hr, h1, _, h3, h4⟩ :=
      hm (some (Texture.Load env.decoded env.textureName Texture.construct).2.1)
    simp only [Application.InitializeTexture, htex, hload, hr, Bool.false_eq_true,
      Bool.not_true, ↓reduceIte, Option.map_some']
    refine ⟨_, rfl, h1, fun h => by simp at h, h3, ?_⟩
    intro h
    have h5 : playsSound [Effect.cout "INFO::APP::Texture loaded"] = false := rfl
    simp only [playsSound_append, h4 ((hf _).trans h), playsSound_destroyOwned_texture,
      playsSound_texture_load, h5, Bool.or_false]
  | false =>
    obtain ⟨r, hr, h1, h2, h3, h4⟩ := hm none
    simp only [Application.InitializeTexture, htex, hload, hr, Bool.false_eq_true,
      Bool.not_false, ↓reduceIte, Option.map_some']
    refine ⟨_, rfl, h1, fun _ => h2, h3, ?_⟩
    intro h
    have h5 : playsSound [Effect.cerr "ERROR::APP::Failed to load texture"] = false := rfl
    simp only [playsSound_append, h4 ((hf _).trans h), playsSound_destroyOwned_texture,
      playsSound_texture_load, playsSound_texture_destruct, h5, Bool.or_false]

/-- The texture stage when the loader fails. -/
theorem Application.InitializeTexture_failed {F : Type} [DecidableEq F] (ops : FloatOps F)
    (env : InitEnv F) (this : Application F) (loaded : FileUtils.LoadResult F)
    (hl : FileUtils.LoadObjModel ops env.parse [] [] = some loaded) (hok : loaded.ok = false) :
    ∃ r, Application.InitializeTexture ops env this = some r ∧ r.1 = false ∧
      r.2.1.m_LoadedMesh = this.m_LoadedMesh := by
  have hm : ∀ t : Option Texture, _ := fun t =>
    Application.InitializeModel_failed ops env { this with m_DiffuseTexture := t } loaded hl hok
  cases htex : env.texturePath.isEmpty with
  | true =>
    simp only [Application.InitializeTexture, htex, ↓reduceIte]
    exact ⟨_, rfl, rfl, rfl⟩
  | false =>
    cases hload : (Texture.Load env.decoded env.textureName Texture.construct).1 with
    | true =>
      obtain ⟨e, he, _⟩ :=
        hm (some (Texture.Load env.decoded env.textureName Texture.construct).2.1)
      simp only [Application.InitializeTexture, htex, hload, he, Bool.false_eq_true,
        Bool.not_true, ↓reduceIte, Option.map_some']
      exact ⟨_, rfl, rfl, rfl⟩
    | false =>
      obtain ⟨e, he, _⟩ := hm none
      simp only [Application.InitializeTexture, htex, hload, he, Bool.false_eq_true,
        Bool.not_false, ↓reduceIte, Option.map_some']
      exact ⟨_, rfl, rfl, rfl⟩

/-- The shader stage when the program is valid and the loader succeeds. -/
theorem Application.InitializeShader_ok {F : Type} [DecidableEq F] (ops : FloatOps F)
    (env : InitEnv F) (this : Application F) (loaded : FileUtils.LoadResult F)
    (hvert : env.vertPath.isEmpty = false) (hfrag : env.fragPath.isEmpty = false)
    (hprog : (Shader.construct env.shaderDevice env.vertexCode env.fragmentCode).1.m_ProgramID
      ≠ 0)
    (htex : env.texturePath.isEmpty = false) (hpath : env.modelPath.isEmpty = false)
    (hl : FileUtils.LoadObjModel ops env.parse [] [] = some loaded) (hok : loaded.ok = true) :
    ∃ r, Application.InitializeShader ops env this = some r ∧ r.1 = true ∧
      ((Texture.Load env.decoded env.textureName Texture.construct).1 = false →
        r.2.1.m_DiffuseTexture = none) ∧
      r.2.1.m_LoadedMesh
        = some (Mesh.construct env.meshNames loaded.outVertices loaded.outIndices).1 ∧
      ((Application.LoadAudio env.audio this).1 = false → playsSound r.2.2 = false) := by
  have hm : ∀ s : Shader, _ := fun s =>
    Application.InitializeTexture_ok ops env { this with m_LitTexturedShader := some s } loaded
      htex hpath hl hok
  have hf : ∀ s : Shader, _ := fun s =>
    Application.LoadAudio_fst env.audio { this with m_LitTexturedShader := some s } this rfl
  obtain ⟨r, hr, h1, h2, h3, h4⟩ :=
    hm (Shader.construct env.shaderDevice env.vertexCode env.fragmentCode).1
  simp only [Application.InitializeShader, hvert, hfrag, hprog, hr, Bool.false_eq_true,
    or_self, ↓reduceIte, Option.map_some']
  refine ⟨_, rfl, h1, h2, h3, ?_⟩
  intro h
  have h5 : playsSound [Effect.cout "INFO::APP::Lit Textured Shader loaded."] = false := rfl
  simp only [playsSound_append, h4 ((hf _).trans h), playsSound_destroyOwned_shader,
    playsSound_shader_construct, h5, Bool.or_false]

/-- The shader stage when the program id is 0. -/
theorem Application.InitializeShader_invalid {F : Type} [DecidableEq F] (ops : FloatOps F)
    (env : InitEnv F) (this : Application F)
    (hprog : (Shader.construct env.shaderDevice env.vertexCode env.fragmentCode).1.m_ProgramID
      = 0) :
    ∃ r, Application.InitializeShader ops env this = some r ∧ r.1 = false ∧
      r.2.1.m_LoadedMesh = this.m_LoadedMesh := by
  by_cases hpaths : env.vertPath.isEmpty = true ∨ env.fragPath.isEmpty = true
  · simp only [Application.InitializeShader, hpaths, ↓reduceIte]
    exact ⟨_, rfl, rfl, rfl⟩
  · simp only [Application.InitializeShader, hpaths, hprog, ↓reduceIte]
    exact ⟨_, rfl, rfl, rfl⟩

/-- The shader stage when the loader fails. -/
theorem Application.InitializeShader_failed {F : Type} [DecidableEq F] (ops : FloatOps F)
    (env : InitEnv F) (this : Application F) (loaded : FileUtils.LoadResult F)
    (hl : FileUtils.LoadObjModel ops env.parse [] [] = some loaded) (hok : loaded.ok = false) :
    ∃ r, Application.InitializeShader ops env this = some r ∧ r.1 = false ∧
      r.2.1.m_LoadedMesh = this.m_LoadedMesh := by
  have hm : ∀ s : Shader, _ := fun s =>
    Application.InitializeTexture_failed ops env { this with m_LitTexturedShader := some s }
      loaded hl hok
  obtain ⟨r, hr, h1, h2⟩ :=
    hm (Shader.construct env.shaderDevice env.vertexCode env.fragmentCode).1
  by_cases hpaths : env.vertPath.isEmpty = true ∨ env.fragPath.isEmpty = true
  · simp only [Application.InitializeShader, hpaths, ↓reduceIte]
    exact ⟨_, rfl, rfl, rfl⟩
  · by_cases hprog :
      (Shader.construct env.shaderDevice env.vertexCode env.fragmentCode).1.m_ProgramID = 0
    · simp only [Application.InitializeShader, hpaths, hprog, ↓reduceIte]
      exact ⟨_, rfl, rfl, rfl⟩
    · simp only [Application.InitializeShader, hpaths, hprog, hr, ↓reduceIte, Option.map_some']
      exact ⟨_, rfl, h1, h2⟩

theorem Renderer.Initialize_succeeds (device : RendererDevice) (this : Renderer) (window context : Nat)
    (hc : device.context = some context) (hg : device.gladLoads = true) :
    (Renderer.Initialize device this (some window)).1 = true ∧
    (Renderer.Initialize device this (some window)).2.1.m_Context = some context := by
  simp [Renderer.Initialize, hc, hg]

/-- The whole start-up when every mandatory stage succeeds. -/
theorem Application.Initialize_ok {F : Type} [DecidableEq F] (ops : FloatOps F)
    (cam : CameraOps F) (env : InitEnv F) (this : Application F) (window context : Nat)
    (loaded : FileUtils.LoadResult F)
    (hsdl : env.sdlInit = 0) (hw : env.window = some window)
    (hc : env.rendererDevice.context = some context) (hg : env.rendererDevice.gladLoads = true)
    (hvert : env.vertPath.isEmpty = false) (hfrag : env.fragPath.isEmpty = false)
    (hprog : (Shader.construct env.shaderDevice env.vertexCode env.fragmentCode).1.m_ProgramID
      ≠ 0)
    (htex : env.texturePath.isEmpty = false) (hpath : env.modelPath.isEmpty = false)
    (hl : FileUtils.LoadObjModel ops env.parse [] [] = some loaded) (hok : loaded.ok = true) :
    ∃ r, Application.Initialize ops cam env this = some r ∧ r.1 = true ∧
      ((Texture.Load env.decoded env.textureName Texture.construct).1 = false →
        r.2.1.m_DiffuseTexture = none) ∧
      r.2.1.m_LoadedMesh
        = some (Mesh.construct env.meshNames loaded.outVertices loaded.outIndices).1 ∧
      ((Application.LoadAudio env.audio this).1 = false → playsSound r.2.2 = false) := by
  have hr := Renderer.Initialize_succeeds env.rendererDevice Renderer.construct window context hc hg
  have hm : ∀ (w : Option Nat) (rr : Option Renderer) (x y : F), _ := fun w rr x y =>
    Application.InitializeShader_ok ops env
      { this with m_Window := w, m_Renderer := rr, m_FirstMouse := true, m_LastMouseX := x,
                  m_LastMouseY := y, uiContext := true, uiBackend := true }
      loaded hvert hfrag hprog htex hpath hl hok
  have hf : ∀ (w : Option Nat) (rr : Option Renderer) (x y : F), _ := fun w rr x y =>
    Application.LoadAudio_fst env.audio
      { this with m_Window := w, m_Renderer := rr, m_FirstMouse := true, m_LastMouseX := x,
                  m_LastMouseY := y, uiContext := true, uiBackend := true }
      this rfl
  obtain ⟨r, hr1, h1, h2, h3, h4⟩ := hm (some window)
    (some (Renderer.Initialize env.rendererDevice Renderer.construct (some window)).2.1)
    (cam.ofInt env.mouseX) (cam.ofInt env.mouseY)
  simp only [Application.Initialize, hsdl, hw, hr.1, hr.2, ne_eq, not_true_eq_false,
    Bool.not_true, Bool.false_eq_true, ↓reduceIte, reduceCtorEq, hr1, Option.map_some']
  refine ⟨_, rfl, h1, h2, h3, ?_⟩
  intro h
  simp only [playsSound_append, h4 ((hf _ _ _ _).trans h), playsSound_destroyOwned_renderer,
    playsSound_renderer_initialize, Bool.or_false]
  split_ifs <;> rfl

/-- The whole start-up fails, and leaves the mesh reference as it was, as soon
as the stages from the shader on do. -/
theorem Application.Initialize_failed {F : Type} [DecidableEq F] (ops : FloatOps F)
    (cam : CameraOps F) (env : InitEnv F) (this : Application F)
    (hstage : ∀ a : Application F, ∃ r, Application.InitializeShader ops env a = some r ∧
      r.1 = false ∧ r.2.1.m_LoadedMesh = a.m_LoadedMesh) :
    ∃ r, Application.Initialize ops cam env this = some r ∧ r.1 = false ∧
      r.2.1.m_LoadedMesh = this.m_LoadedMesh := by
  have hm : ∀ (w : Option Nat) (rr : Option Renderer) (x y : F), _ := fun w rr x y =>
    hstage
      { this with m_Window := w, m_Renderer := rr, m_FirstMouse := true, m_LastMouseX := x,
                  m_LastMouseY := y, uiContext := true, uiBackend := true }
  by_cases hsdl : env.sdlInit = 0
  · cases hw : env.window with
    | none =>
      simp only [Application.Initialize, hsdl, hw, ne_eq, not_true_eq_false, ↓reduceIte]
      exact ⟨_, rfl, rfl, rfl⟩
    | some window =>
      obtain ⟨r, hr1, h1, h2⟩ := hm (some window)
        (some (Renderer.Initialize env.rendererDevice Renderer.construct (some window)).2.1)
        (cam.ofInt env.mouseX) (cam.ofInt env.mouseY)
      cases hinit : (Renderer.Initialize env.rendererDevice Renderer.construct
          (some window)).1 with
      | false =>
        simp only [Application.Initialize, hsdl, hw, hinit, ne_eq, not_true_eq_false,
          Bool.not_false, ↓reduceIte]
        exact ⟨_, rfl, rfl, rfl⟩
      | true =>
        by_cases hctx : (Renderer.Initialize env.rendererDevice Renderer.construct
            (some window)).2.1.m_Context = none
        · simp only [Application.Initialize, hsdl, hw, hinit, hctx, ne_eq, not_true_eq_false,
            Bool.not_true, Bool.false_eq_true, ↓reduceIte]
          exact ⟨_, rfl, rfl, rfl⟩
        · simp only [Application.Initialize, hsdl, hw, hinit, hctx, ne_eq, not_true_eq_false,
            Bool.not_true, Bool.false_eq_true, ↓reduceIte, hr1, Option.map_some']
          exact ⟨_, rfl, h1, h2⟩
  · simp only [Application.Initialize, hsdl, ne_eq, not_false_eq_true, ↓reduceIte]
    exact ⟨_, rfl, rfl, rfl⟩

/-! ## Start-up: properties -/

/-- C19: `Application::Initialize` returns `false` whenever the program id of the
shader it builds is 0 and whenever `LoadObjModel` returns `false`; and when SDL,
the window, the renderer, the four resource paths, the shader and the model
succeed, it returns `true` whatever the texture decoder and the mixer answer:
if `Texture::Load` fails the texture reference is `none` afterwards, and if
`LoadAudio` fails no effect of the call starts a sound. -/
theorem Application.Initialize_fatal_stages {F : Type} [DecidableEq F] (ops : FloatOps F)
    (cam : CameraOps F) (env : InitEnv F) (this : Application F) (window context : Nat) :
    ((Shader.construct env.shaderDevice env.vertexCode env.fragmentCode).1.m_ProgramID = 0 →
      ∃ r, Application.Initialize ops cam env this = some r ∧ r.1 = false) ∧
    ((FileUtils.LoadObjModel ops env.parse [] []).map (fun loaded => loaded.ok) = some false →
      ∃ r, Application.Initialize ops cam env this = some r ∧ r.1 = false) ∧
    (env.sdlInit = 0 → env.window = some window →
      env.rendererDevice.context = some context → env.rendererDevice.gladLoads = true →
      env.vertPath.isEmpty = false → env.fragPath.isEmpty = false →
      env.texturePath.isEmpty = false → env.modelPath.isEmpty = false →
      (Shader.construct env.shaderDevice env.vertexCode env.fragmentCode).1.m_ProgramID ≠ 0 →
      (FileUtils.LoadObjModel ops env.parse [] []).map (fun loaded => loaded.ok) = some true →
      ∃ r, Application.Initialize ops cam env this = some r ∧ r.1 = true ∧
        ((Texture.Load env.decoded env.textureName Texture.construct).1 = false →
          r.2.1.m_DiffuseTexture = none) ∧
        ((Application.LoadAudio env.audio this).1 = false → playsSound r.2.2 = false)) := by
  refine ⟨?_, ?_, ?_⟩
  · intro hprog
    obtain ⟨r, hr, h1, _⟩ := Application.Initialize_failed ops cam env this fun a =>
      Application.InitializeShader_invalid ops env a hprog
    exact ⟨r, hr, h1⟩
  · intro hl
    obtain ⟨loaded, hl, hok⟩ := Option.map_eq_some'.mp hl
    obtain ⟨r, hr, h1, _⟩ := Application.Initialize_failed ops cam env this fun a =>
      Application.InitializeShader_failed ops env a loaded hl hok
    exact ⟨r, hr, h1⟩
  · intro hsdl hw hc hg hvert hfrag htex hpath hprog hl
    obtain ⟨loaded, hl, hok⟩ := Option.map_eq_some'.mp hl
    obtain ⟨r, hr, h1, h2, _, h4⟩ := Application.Initialize_ok ops cam env this window context
      loaded hsdl hw hc hg hvert hfrag hprog htex hpath hl hok
    exact ⟨r, hr, h1, h2, h4⟩

/-- C19 at `unlinkedShaderEnv` (the program does not link), at
`rejectedModelEnv` (the parser rejects the model) and at `degradedEnv` (the
texture decoder and the mixer both fail, everything else succeeds). -/
theorem Application.Initialize_fatal_stages_sample :
    ((Shader.construct unlinkedShaderEnv.shaderDevice unlinkedShaderEnv.vertexCode
        unlinkedShaderEnv.fragmentCode).1.m_ProgramID = 0 ∧
      ∃ r, Application.Initialize FileUtils.exactOps wholeCamera unlinkedShaderEnv
        (Application.construct wholeCamera) = some r ∧ r.1 = false) ∧
    ((FileUtils.LoadObjModel FileUtils.exactOps rejectedModelEnv.parse [] []).map
        (fun loaded => loaded.ok) = some false ∧
      ∃ r, Application.Initialize FileUtils.exactOps wholeCamera rejectedModelEnv
        (Application.construct wholeCamera) = some r ∧ r.1 = false) ∧
    ((Texture.Load degradedEnv.decoded degradedEnv.textureName Texture.construct).1 = false ∧
      (Application.LoadAudio degradedEnv.audio (Application.construct wholeCamera)).1 = false ∧
      ∃ r, Application.Initialize FileUtils.exactOps wholeCamera degradedEnv
        (Application.construct wholeCamera) = some r ∧ r.1 = true ∧
        r.2.1.m_DiffuseTexture = none ∧ playsSound r.2.2 = false) :=
  ⟨⟨by decide, (Application.Initialize_fatal_stages FileUtils.exactOps wholeCamera
      unlinkedShaderEnv (Application.construct wholeCamera) 7 9).1 (by decide)⟩,
   ⟨by decide, (Application.Initialize_fatal_stages FileUtils.exactOps wholeCamera
      rejectedModelEnv (Application.construct wholeCamera) 7 9).2.1 (by decide)⟩,
   ⟨by decide, by decide,
    let ⟨r, hr, h1, h2, h3⟩ := (Application.Initialize_fatal_stages FileUtils.exactOps
      wholeCamera degradedEnv (Application.construct wholeCamera) 7 9).2.2 (by decide)
      (by decide) (by decide) (by decide) (by decide) (by decide) (by decide) (by decide)
      (by decide) (by decide)
    ⟨r, hr, h1, h2 (by decide), h3 (by decide)⟩⟩⟩

/-- C20 fails on the code.  With a model file that parses and has no faces
(`emptyModelEnv`), `LoadObjModel` returns `true` with empty sequences, the `Mesh`
built from them is invalid (all handles and the index count zero), and
`Application::Initialize` returns `true` all the same: the only check after the
construction is `!m_LoadedMesh`, on the pointer. -/
theorem Application.Initialize_accepts_invalid_mesh :
    (FileUtils.LoadObjModel FileUtils.exactOps emptyModelEnv.parse [] []).map
        (fun r => (r.ok, r.outVertices, r.outIndices)) = some (true, [], []) ∧
    (Application.Initialize FileUtils.exactOps wholeCamera emptyModelEnv
        (Application.construct wholeCamera)).map (fun r => r.1) = some true ∧
    (Application.Initialize FileUtils.exactOps wholeCamera emptyModelEnv
        (Application.construct wholeCamera)).map (fun r => r.2.1.m_LoadedMesh)
      = some (some { m_VAO := 0, m_VBO := 0, m_EBO := 0, m_IndexCount := 0 }) := by
  decide

/-- C18 fails on the code.  At `rendererFailEnv` (the window is created, then
`SDL_GL_CreateContext` fails) `Application::Initialize` returns `false` after
creating one window, window 7; the effects of that call followed by those of
the two `Shutdown` calls of `main` and of the destructor hand window 7 to
`SDL_DestroyWindow` twice, once in `Initialize` and once in the first
`Shutdown`, which still finds the pointer in `m_Window`. -/
theorem Application.Initialize_window_destroyed_twice :
    (Application.Initialize FileUtils.exactOps wholeCamera rendererFailEnv
        (Application.construct wholeCamera)).map (fun r => r.1) = some false ∧
    (Application.Initialize FileUtils.exactOps wholeCamera rendererFailEnv
        (Application.construct wholeCamera)).map (fun r => r.2.1.m_Window) = some (some 7) ∧
    (Application.Initialize FileUtils.exactOps wholeCamera rendererFailEnv
        (Application.construct wholeCamera)).map (fun r => windowsCreated r.2.2) = some [7] ∧
    (Application.Initialize FileUtils.exactOps wholeCamera rendererFailEnv
        (Application.construct wholeCamera)).map (fun r => windowsDestroyed r.2.2)
      = some [7] ∧
    (Application.Initialize FileUtils.exactOps wholeCamera rendererFailEnv
        (Application.construct wholeCamera)).map
        (fun r => windowsDestroyed (r.2.2 ++ Application.teardownTwice r.2.1))
      = some [7, 7] := by
  decide

/-! ## Teardown: properties -/

theorem Application.CloseAudio_releases {F : Type} (this : Application F) :
    (releases (Application.CloseAudio this).2).Sublist
      [ReleaseKind.soundChunk, ReleaseKind.mixer] := by
  unfold Application.CloseAudio
  cases hl : this.m_SoundLoaded <;> cases ht : this.m_TestSound <;>
    cases hm : this.m_MixerInitialized <;> simp [hm, releases, releaseKind]

theorem releases_destroyOwned_mesh (o : Option Mesh) :
    (releases (destroyOwned Mesh.destruct o)).Sublist
      [ReleaseKind.buffer, ReleaseKind.buffer, ReleaseKind.vertexArray] := by
  cases o with
  | none => simp [destroyOwned, releases]
  | some m =>
    simp only [destroyOwned, Mesh.destruct]
    split_ifs <;> simp [releases, releaseKind]

theorem releases_destroyOwned_texture (o : Option Texture) :
    (releases (destroyOwned Texture.destruct o)).Sublist [ReleaseKind.texture] := by
  cases o with
  | none => simp [destroyOwned, releases]
  | some t =>
    simp only [destroyOwned, Texture.destruct]
    split_ifs <;> simp [releases, releaseKind]

theorem releases_destroyOwned_shader (o : Option Shader) :
    (releases (destroyOwned Shader.destruct o)).Sublist [ReleaseKind.program] := by
  cases o with
  | none => simp [destroyOwned, releases]
  | some s =>
    simp only [destroyOwned, Shader.destruct]
    split_ifs <;> simp [releases, releaseKind]

theorem Renderer.releases_Shutdown_destruct (renderer : Renderer) :
    (releases ((Renderer.Shutdown renderer).2
      ++ Renderer.destruct (Renderer.Shutdown renderer).1)).Sublist
      [ReleaseKind.graphicsContext] := by
  unfold Renderer.destruct Renderer.Shutdown
  cases hc : renderer.m_Context <;> simp [hc, releases, releaseKind]

/-- The releases of one `Shutdown` call, in the order of teardown and each at
most once. -/
theorem Application.Shutdown_releases {F : Type} (this : Application F) :
    (releases (Application.Shutdown this).2).Sublist teardownOrder := by
  have hui : ∀ (app : Application F) (ui : List Effect),
      (releases ui).Sublist [ReleaseKind.uiRendererBackend, ReleaseKind.uiPlatformBackend,
        ReleaseKind.uiContext] →
      (releases
        ([Effect.cout "INFO::APP::Shutting down..."] ++ ui
          ++ [Effect.sys (SysCall.SDL_SetRelativeMouseMode false)]
          ++ (Application.CloseAudio app).2
          ++ destroyOwned Mesh.destruct (Application.CloseAudio app).1.m_LoadedMesh
          ++ destroyOwned Texture.destruct (Application.CloseAudio app).1.m_DiffuseTexture
          ++ destroyOwned Shader.destruct (Application.CloseAudio app).1.m_LitTexturedShader
          ++ (match (Application.CloseAudio app).1.m_Renderer with
              | some renderer =>
                (Renderer.Shutdown renderer).2
                  ++ Renderer.destruct (Renderer.Shutdown renderer).1
              | none => [])
          ++ (match (Application.CloseAudio app).1.m_Window with
              | some window =>
                [Effect.sys (SysCall.SDL_DestroyWindow window),
                 Effect.cout "INFO::APP::Window destroyed."]
              | none => [])
          ++ [Effect.sys SysCall.SDL_Quit, Effect.cout "INFO::APP::SDL quit called."])).Sublist
        teardownOrder := by
    intro app ui ha
    have hr : (releases (match (Application.CloseAudio app).1.m_Renderer with
        | some renderer =>
          (Renderer.Shutdown renderer).2 ++ Renderer.destruct (Renderer.Shutdown renderer).1
        | none => [])).Sublist [ReleaseKind.graphicsContext] := by
      cases (Application.CloseAudio app).1.m_Renderer with
      | none => simp [releases]
      | some renderer => exact Renderer.releases_Shutdown_destruct renderer
    have hw : (releases (match (Application.CloseAudio app).1.m_Window with
        | some window =>
          [Effect.sys (SysCall.SDL_DestroyWindow window),
           Effect.cout "INFO::APP::Window destroyed."]
        | none => [])).Sublist [ReleaseKind.window] := by
      cases (Application.CloseAudio app).1.m_Window <;> simp [releases, releaseKind]
    have h0 : releases ([Effect.cout "INFO::APP::Shutting down..."] : List Effect) = [] := rfl
    have h1 : releases [Effect.sys (SysCall.SDL_SetRelativeMouseMode false)] = [] := rfl
    have h2 : releases [Effect.sys SysCall.SDL_Quit, Effect.cout "INFO::APP::SDL quit called."]
        = [ReleaseKind.sdl] := rfl
    simp only [releases_append, h0, h1, h2, List.nil_append, List.append_nil]
    exact ((((((ha.append (Application.CloseAudio_releases app)).append
      (releases_destroyOwned_mesh _)).append (releases_destroyOwned_texture _)).append
      (releases_destroyOwned_shader _)).append hr).append hw).append
      (List.Sublist.refl [ReleaseKind.sdl])
  unfold Application.Shutdown
  by_cases hguard : (!this.m_IsRunning) = true ∧ this.m_Window = none ∧ this.m_Renderer = none
  · rw [if_pos hguard]
    simp [releases]
  · rw [if_neg hguard]
    cases hc : this.uiContext <;> cases hb : this.uiBackend <;>
      simp only [Bool.false_eq_true, ↓reduceIte] <;>
      exact hui _ _ (by simp [releases, releaseKind])

/-- A second `Shutdown` right after the first changes nothing and has no
effect. -/
theorem Application.Shutdown_again {F : Type} (this : Application F) :
    Application.Shutdown (Application.Shutdown this).1 = ((Application.Shutdown this).1, []) := by
  have hdone : (Application.Shutdown this).1.m_IsRunning = false ∧
      (Application.Shutdown this).1.m_Window = none ∧
      (Application.Shutdown this).1.m_Renderer = none := by
    unfold Application.Shutdown
    by_cases hguard : (!this.m_IsRunning) = true ∧ this.m_Window = none ∧ this.m_Renderer = none
    · rw [if_pos hguard]
      exact ⟨by simpa using hguard.1, hguard.2.1, hguard.2.2⟩
    · rw [if_neg hguard]
      exact ⟨rfl, rfl, rfl⟩
  generalize Application.Shutdown this = r at hdone ⊢
  unfold Application.Shutdown
  rw [if_pos (by simp [hdone.1, hdone.2.1, hdone.2.2])]

/-- C17: whatever the state of the application, and so after a successful
`Initialize`, the releases of a `Shutdown` call come in the order UI renderer
backend, UI platform backend, UI context, sound chunk, mixer, the two buffers
and the vertex array of the mesh, texture, program, graphics context, window,
SDL, each at most once; and a second `Shutdown` right after has no effect at
all and leaves the object as it is, so that the two calls together release
each resource at most once. -/
theorem Application.Shutdown_twice {F : Type} (this : Application F) :
    (releases (Application.Shutdown this).2).Sublist teardownOrder ∧
    Application.Shutdown (Application.Shutdown this).1 = ((Application.Shutdown this).1, []) ∧
    Application.teardownTwice this = (Application.Shutdown this).2 ∧
    ∀ kind, (releases (Application.teardownTwice this)).count kind
      ≤ teardownOrder.count kind := by
  have h1 := Application.Shutdown_releases this
  have h2 := Application.Shutdown_again this
  have h3 : Application.teardownTwice this = (Application.Shutdown this).2 := by
    simp only [Application.teardownTwice, h2, List.append_nil]
  exact ⟨h1, h2, h3, fun kind => by rw [h3]; exact h1.count_le kind⟩

/-- C17 after the successful start-up at `sampleEnv`, which leaves the
application `sampleStarted`: the two `Shutdown` calls together make each
release of the teardown order exactly once, all of them in the first call. -/
theorem Application.Shutdown_twice_sample :
    (Application.Initialize FileUtils.exactOps wholeCamera sampleEnv
        (Application.construct wholeCamera)).map (fun r => r.1) = some true ∧
    (Application.Initialize FileUtils.exactOps wholeCamera sampleEnv
        (Application.construct wholeCamera)).map (fun r => r.2.1) = some sampleStarted ∧
    releases (Application.teardownTwice sampleStarted) = teardownOrder ∧
    Application.Shutdown (Application.Shutdown sampleStarted).1
      = ((Application.Shutdown sampleStarted).1, []) :=
  ⟨by decide, rfl, by decide, (Application.Shutdown_twice sampleStarted).2.1⟩

/-! ## Lifetimes of meshes and textures: properties -/

/-- C24 (amended): destroying a `Mesh` releases each of its non-zero handles
exactly once (the two buffers being different names) and releases nothing
under the name 0, so that it makes as many device calls as handles are
non-zero; the body of the destructor leaves the stored handles as they
were. -/
theorem Mesh.destructor_releases (this : Mesh) :
    (Mesh.destructor this).1 = this ∧
    (this.m_VBO ≠ 0 → this.m_VBO ≠ this.m_EBO →
      bufferReleases this.m_VBO (gpuCalls (Mesh.destructor this).2) = 1) ∧
    (this.m_EBO ≠ 0 → this.m_VBO ≠ this.m_EBO →
      bufferReleases this.m_EBO (gpuCalls (Mesh.destructor this).2) = 1) ∧
    (this.m_VAO ≠ 0 → vertexArrayReleases this.m_VAO (gpuCalls (Mesh.destructor this).2) = 1) ∧
    bufferReleases 0 (gpuCalls (Mesh.destructor this).2) = 0 ∧
    vertexArrayReleases 0 (gpuCalls (Mesh.destructor this).2) = 0 ∧
    (gpuCalls (Mesh.destructor this).2).length
      = (if this.m_VBO ≠ 0 then 1 else 0) + (if this.m_EBO ≠ 0 then 1 else 0)
        + (if this.m_VAO ≠ 0 then 1 else 0) := by
  simp only [Mesh.destructor, Mesh.destruct]
  refine ⟨trivial, ?_, ?_, ?_, ?_, ?_, ?_⟩
  · intro h1 h2
    by_cases he : this.m_EBO = 0 <;> by_cases ha : this.m_VAO = 0 <;>
      simp [h1, he, ha, gpuCalls, bufferReleases, Ne.symm h2]
  · intro h1 h2
    by_cases hv : this.m_VBO = 0 <;> by_cases ha : this.m_VAO = 0 <;>
      simp [h1, hv, ha, gpuCalls, bufferReleases, h2]
  · intro h1
    by_cases hv : this.m_VBO = 0 <;> by_cases he : this.m_EBO = 0 <;>
      simp [h1, hv, he, gpuCalls, vertexArrayReleases]
  · by_cases hv : this.m_VBO = 0 <;> by_cases he : this.m_EBO = 0 <;>
      by_cases ha : this.m_VAO = 0 <;>
      simp [hv, he, ha, gpuCalls, bufferReleases]
  · by_cases hv : this.m_VBO = 0 <;> by_cases he : this.m_EBO = 0 <;>
      by_cases ha : this.m_VAO = 0 <;>
      simp [hv, he, ha, gpuCalls, vertexArrayReleases]
  · by_cases hv : this.m_VBO = 0 <;> by_cases he : this.m_EBO = 0 <;>
      by_cases ha : this.m_VAO = 0 <;>
      simp [hv, he, ha, gpuCalls]

/-- C24 (amended) on the mesh `sampleMesh`, with the handles 1, 2 and 3. -/
theorem Mesh.destructor_releases_sample :
    bufferReleases 2 (gpuCalls (Mesh.destructor sampleMesh).2) = 1 ∧
    bufferReleases 3 (gpuCalls (Mesh.destructor sampleMesh).2) = 1 ∧
    vertexArrayReleases 1 (gpuCalls (Mesh.destructor sampleMesh).2) = 1 :=
  ⟨(Mesh.destructor_releases sampleMesh).2.1 (by decide) (by decide),
   (Mesh.destructor_releases sampleMesh).2.2.1 (by decide) (by decide),
   (Mesh.destructor_releases sampleMesh).2.2.2.1 (by decide)⟩

/-- C24, as stated, fails: the destructor of `sampleMesh` releases its three
handles and leaves them stored as they were, 1, 2 and 3, not zero. -/
theorem Mesh.destructor_keeps_handles :
    (gpuCalls (Mesh.destructor sampleMesh).2).length = 3 ∧
    (Mesh.destructor sampleMesh).1.m_VAO = 1 ∧
    (Mesh.destructor sampleMesh).1.m_VBO = 2 ∧
    (Mesh.destructor sampleMesh).1.m_EBO = 3 := by
  decide

/-- C25 fails on the code.  `Texture::Bind` never asks the device for its
number of texture units: it compares `unit` with the enumerant
`GL_MAX_COMBINED_TEXTURE_IMAGE_UNITS` itself, 35661.  On a valid texture the
units 100 and 35660, above the maximum of every device, are activated and
bound without a warning, and the warning is written from unit 35661 on; on an
invalid texture nothing happens. -/
theorem Texture.Bind_warns_at_enumerant :
    diagnostics (sampleTexture.Bind 31) = [] ∧
    diagnostics (sampleTexture.Bind 100) = [] ∧
    (gpuCalls (sampleTexture.Bind 100)).length = 2 ∧
    diagnostics (sampleTexture.Bind 35660) = [] ∧
    diagnostics (sampleTexture.Bind 35661)
      = ["WARN::TEXTURE::Texture unit might be invalid."] ∧
    (gpuCalls (sampleTexture.Bind 35661)).length = 2 ∧
    (gpuCalls (Texture.construct.Bind 100)).length = 0 := by
  decide

/-- C29 fails on the code.  A `Texture` loaded successfully twice, the device
writing the names 1 and 2, and then destroyed: both textures were generated,
only the second is deleted; `Load` overwrote the name 1 without releasing
it. -/
theorem Texture.Load_twice_leaks :
    (Texture.loads [(sampleDecoded, 1), (sampleDecoded, 2)] Texture.construct).1.m_TextureID
      = 2 ∧
    texturesGenerated (gpuCalls (Texture.lifetime [(sampleDecoded, 1), (sampleDecoded, 2)]))
      = [1, 2] ∧
    texturesDeleted (gpuCalls (Texture.lifetime [(sampleDecoded, 1), (sampleDecoded, 2)]))
      = [2] ∧
    texturesGenerated (gpuCalls (Texture.lifetime [(sampleDecoded, 1)])) = [1] ∧
    texturesDeleted (gpuCalls (Texture.lifetime [(sampleDecoded, 1)])) = [1] := by
  decide

/-! ## The loader: bounds of the array accesses -/

/-- C26 (amended): when the parse succeeded and every face-vertex has its
subscripts in range, each subscript expression fitting an `int`
(`ParsedOk`), every array read of `LoadObjModel` is inside its array: the call
returns.  The lookup of line 94 finds the key, just inserted or already
present, and adds nothing to the map: the map afterwards is the one after line
93, and the index pushed is the value found.  When a face-vertex has a
position subscript that is negative or does not address three floats, a
position read is outside the array. -/
theorem FileUtils.LoadObjModel_in_bounds {F : Type} [DecidableEq F] (ops : FloatOps F)
    (parse : ParseResult F) (outVertices : List (Vertex F)) (outIndices : List Nat) :
    (FileUtils.ParsedOk parse →
      ∃ r, FileUtils.LoadObjModel ops parse outVertices outIndices = some r) ∧
    (∀ (st : FileUtils.LoadState F) (vertex : Vertex F),
      (∃ x, (FileUtils.insertVertex st vertex).uniqueVertices.find vertex = some x ∧
        (FileUtils.insertVertex st vertex).outIndices = st.outIndices ++ [x]) ∧
      (FileUtils.insertVertex st vertex).uniqueVertices
        = if st.uniqueVertices.count vertex = 0 then
            st.uniqueVertices.assign vertex (FileUtils.toUint32 st.outVertices.length)
          else st.uniqueVertices) ∧
    (parse.ret = true →
      (∃ index ∈ FileUtils.faceVertices parse.shapes,
        ¬(0 ≤ index.vertex_index ∧
          3 * index.vertex_index + 2 < parse.attrib.vertices.length)) →
      FileUtils.LoadObjModel ops parse outVertices outIndices = none) := by
  refine ⟨?_, FileUtils.find_insertVertex, ?_⟩
  · intro h
    obtain ⟨recs, -, hr⟩ := FileUtils.LoadObjModel_eq ops parse outVertices outIndices h
    exact ⟨_, hr⟩
  · rintro hret ⟨index, hmem, hout⟩
    exact FileUtils.LoadObjModel_eq_none ops parse outVertices outIndices hret index hmem
      (FileUtils.assembleVertex_eq_none ops parse.attrib index hout)

/-- C26 (amended) on the model `sampleParse`, which is in range, and on
`negativeParse`, whose face-vertex has the position subscript -1. -/
theorem FileUtils.LoadObjModel_in_bounds_sample :
    (FileUtils.ParsedOk FileUtils.sampleParse ∧
      ∃ r, FileUtils.LoadObjModel FileUtils.exactOps FileUtils.sampleParse [] [] = some r) ∧
    (FileUtils.negativeParse.ret = true ∧
      FileUtils.LoadObjModel FileUtils.exactOps FileUtils.negativeParse [] [] = none) :=
  ⟨⟨by decide, (FileUtils.LoadObjModel_in_bounds FileUtils.exactOps FileUtils.sampleParse
      [] []).1 (by decide)⟩,
   ⟨rfl, (FileUtils.LoadObjModel_in_bounds FileUtils.exactOps FileUtils.negativeParse
      [] []).2.2 rfl ⟨⟨-1, -1, -1⟩, by decide, by decide⟩⟩⟩

/-- C26, as stated, fails: the only face-vertex of `overflowParse` satisfies
the precondition as C26 words it (position 715827883 addresses three
of the `2^31 + 4` position floats), the parse succeeded, and the first position
read computes `3 * 715827883` in `int`, which does not fit: the read is not
inside the array and the call does not return. -/
theorem FileUtils.LoadObjModel_int_overflow :
    FileUtils.overflowParse.ret = true ∧
    (∀ index ∈ FileUtils.faceVertices FileUtils.overflowParse.shapes,
      FileUtils.wellFormedIndex FileUtils.overflowParse.attrib index) ∧
    FileUtils.LoadObjModel FileUtils.exactOps FileUtils.overflowParse [] [] = none :=
  ⟨rfl, FileUtils.longParse_wellFormed 2147483652 715827883 (by decide) (by decide),
   FileUtils.longParse_overflow 2147483652 715827883 (by decide)⟩

/-! ## The frame loop: effects of the transitions -/

theorem playbackCalls_append (a b : List Effect) :
    playbackCalls (a ++ b) = playbackCalls a ++ playbackCalls b := by
  simp [playbackCalls, List.filterMap_append]

theorem captureCalls_append (a b : List Effect) :
    captureCalls (a ++ b) = captureCalls a ++ captureCalls b := by
  simp [captureCalls, List.filterMap_append]

theorem Application.PlaySound_calls {F : Type} (channel : Int) (this : Application F) :
    captureCalls (Application.PlaySound channel this).2 = [] ∧
    (∀ c, PlaybackCall.resume c ∉ playbackCalls (Application.PlaySound channel this).2) ∧
    (Application.PlaySound channel this).1.m_FirstMouse = this.m_FirstMouse := by
  unfold Application.PlaySound
  split
  · refine ⟨?_, ?_, rfl⟩
    · split_ifs <;> simp [captureCalls, captureCall]
    · intro c
      split_ifs <;> simp [playbackCalls, playbackCall]
  · split_ifs <;> simp [captureCalls, captureCall, playbackCalls, playbackCall]

theorem Application.RestartAudio_calls {F : Type} (channel : Int) (this : Application F) :
    captureCalls (Application.RestartAudio channel this).2 = [] ∧
    (∀ c, PlaybackCall.resume c ∉ playbackCalls (Application.RestartAudio channel this).2) ∧
    (Application.RestartAudio channel this).1.m_FirstMouse = this.m_FirstMouse := by
  unfold Application.RestartAudio
  split
  · simp only []
    split_ifs
    · have h := Application.PlaySound_calls channel { this with m_MusicChannel := -1 }
      refine ⟨?_, ?_, h.2.2⟩
      · rw [captureCalls_append, captureCalls_append, h.1]
        rfl
      · intro c
        rw [playbackCalls_append, playbackCalls_append, List.mem_append, List.mem_append]
        rintro ((hc | hc) | hc)
        · simp [playbackCalls, playbackCall] at hc
        · simp [playbackCalls, playbackCall] at hc
        · exact h.2.1 c hc
    · have h := Application.PlaySound_calls channel this
      refine ⟨?_, ?_, h.2.2⟩
      · rw [captureCalls_append, captureCalls_append, h.1]
        rfl
      · intro c
        rw [playbackCalls_append, playbackCalls_append, List.mem_append, List.mem_append]
        rintro ((hc | hc) | hc)
        · simp [playbackCalls, playbackCall] at hc
        · simp [playbackCalls, playbackCall] at hc
        · exact h.2.1 c hc
  · simp [captureCalls, captureCall, playbackCalls, playbackCall]

theorem Application.musicButton_calls {F : Type} (ui : UiInput) (this : Application F) :
    captureCalls (Application.musicButton ui this) = [] ∧
    (this.m_MusicChannel = -1 ∨ ui.music = false →
      playbackCalls (Application.musicButton ui this) = []) := by
  unfold Application.musicButton
  by_cases hm : this.m_MixerInitialized = true ∧ this.m_SoundLoaded = true
  · by_cases hc : this.m_MusicChannel = -1
    · simp [hm, hc, captureCalls, playbackCalls]
    · cases hp : ui.musicPaused <;> cases hq : ui.musicPlaying <;> cases hb : ui.music <;>
        simp [hm, hc, captureCalls, captureCall, playbackCalls, playbackCall]
  · simp [hm, captureCalls, playbackCalls]

theorem Application.RenderUI_resume_effects {F : Type} (ui : UiInput) (this : Application F)
    (hs : this.m_CurrentState = GameState.Paused) (hres : ui.resume = true)
    (hhelp : ui.help = false) :
    (Application.RenderUI ui this).2
      = [Effect.sys (SysCall.ImGui_Window "Pause Menu"),
         Effect.sys (SysCall.ImGui_Button "Resume"),
         Effect.sys (SysCall.SDL_SetRelativeMouseMode true)]
        ++ (if this.m_MusicChannel ≠ -1 then
              [Effect.sys (SysCall.Mix_Resume this.m_MusicChannel)] else [])
        ++ [Effect.sys (SysCall.ImGui_Button "Help")]
        ++ Application.musicButton ui
            { this with m_CurrentState := GameState.Playing, m_FirstMouse := true }
        ++ [Effect.sys (SysCall.ImGui_Button "Restart Song")]
        ++ (if ui.restartSong then
              (Application.RestartAudio ui.restartChannel
                { this with m_CurrentState := GameState.Playing, m_FirstMouse := true }).2
            else [])
        ++ [Effect.sys (SysCall.ImGui_Button "Quit"), Effect.sys SysCall.ImGui_End] := by
  unfold Application.RenderUI
  simp only [hs, hres, hhelp, if_true, Bool.false_eq_true, if_false]
  cases hr : ui.restartSong <;> cases hq : ui.quit <;>
    simp only [if_true, Bool.false_eq_true, if_false, List.append_assoc, List.cons_append,
      List.nil_append, List.append_nil]

theorem Application.RenderUI_resume {F : Type} (ui : UiInput) (this : Application F)
    (hs : this.m_CurrentState = GameState.Paused) (hres : ui.resume = true)
    (hhelp : ui.help = false) :
    (Application.RenderUI ui this).1.m_FirstMouse = true ∧
    captureCalls (Application.RenderUI ui this).2 = [true] ∧
    (PlaybackCall.resume this.m_MusicChannel ∈ playbackCalls (Application.RenderUI ui this).2
      ↔ this.m_MusicChannel ≠ -1) := by
  have hmusic := Application.musicButton_calls ui
    { this with m_CurrentState := GameState.Playing, m_FirstMouse := true }
  have hrestart := Application.RestartAudio_calls ui.restartChannel
    { this with m_CurrentState := GameState.Playing, m_FirstMouse := true }
  refine ⟨?_, ?_, ?_⟩
  · unfold Application.RenderUI
    simp only [hs, hres, hhelp, if_true, Bool.false_eq_true, if_false]
    cases hr : ui.restartSong <;> cases hq : ui.quit <;>
      simp only [if_true, Bool.false_eq_true, if_false] <;>
      first | rfl | exact hrestart.2.2
  · rw [Application.RenderUI_resume_effects ui this hs hres hhelp]
    have h1 : captureCalls (if this.m_MusicChannel ≠ -1 then
        [Effect.sys (SysCall.Mix_Resume this.m_MusicChannel)] else []) = [] := by
      split_ifs <;> rfl
    have h2 : captureCalls (if ui.restartSong then
        (Application.RestartAudio ui.restartChannel
          { this with m_CurrentState := GameState.Playing, m_FirstMouse := true }).2
        else []) = [] := by
      split_ifs
      · exact hrestart.1
      · rfl
    simp only [captureCalls_append, h1, h2, hmusic.1]
    rfl
  · rw [Application.RenderUI_resume_effects ui this hs hres hhelp]
    simp only [playbackCalls_append, List.mem_append]
    constructor
    · intro hmem hc
      have hm := hmusic.2 (Or.inl hc)
      rcases hmem with (((((h | h) | h) | h) | h) | h) | h
      · simp [playbackCalls, playbackCall] at h
      · simp [hc, playbackCalls] at h
      · simp [playbackCalls, playbackCall] at h
      · rw [hm] at h
        simp at h
      · simp [playbackCalls, playbackCall] at h
      · split_ifs at h
        · exact hrestart.2.1 _ h
        · simp [playbackCalls] at h
      · simp [playbackCalls, playbackCall] at h
    · intro hc
      refine Or.inl (Or.inl (Or.inl (Or.inl (Or.inl (Or.inr ?_)))))
      simp [hc, playbackCalls, playbackCall]

/-- C22: what the transitions do to the mouse capture and the sound.  The
pause transition (Escape while `Playing`) releases the capture and pauses the
tracked channel exactly when it is not -1.  Each resume transition (Escape
while `Paused`, or the Resume button without the Help button) sets the capture,
sets `m_FirstMouse`, and resumes the tracked channel exactly when it is not -1.
The help transition (the Help button alone) and the back transitions (the Back
button, or Escape while `ShowingHelp`) make no playback call and no capture
call and leave the tracked channel as it is. -/
theorem Application.transition_effects {F : Type} [LinearOrder F] (cam : CameraOps F)
    (this : Application F) (polled : PolledEvent) (ui : UiInput) :
    (polled.event = SDL_Event.keydown true → this.m_CurrentState = GameState.Playing →
      (Application.ProcessEvent cam this polled).1.m_CurrentState = GameState.Paused ∧
      captureCalls (Application.ProcessEvent cam this polled).2 = [false] ∧
      playbackCalls (Application.ProcessEvent cam this polled).2
        = (if this.m_MusicChannel ≠ -1 then [PlaybackCall.pause this.m_MusicChannel] else []) ∧
      (Application.ProcessEvent cam this polled).1.m_MusicChannel = this.m_MusicChannel) ∧
    (polled.event = SDL_Event.keydown true → this.m_CurrentState = GameState.Paused →
      (Application.ProcessEvent cam this polled).1.m_CurrentState = GameState.Playing ∧
      (Application.ProcessEvent cam this polled).1.m_FirstMouse = true ∧
      captureCalls (Application.ProcessEvent cam this polled).2 = [true] ∧
      playbackCalls (Application.ProcessEvent cam this polled).2
        = (if this.m_MusicChannel ≠ -1 then [PlaybackCall.resume this.m_MusicChannel]
           else []) ∧
      (Application.ProcessEvent cam this polled).1.m_MusicChannel = this.m_MusicChannel) ∧
    (this.m_CurrentState = GameState.Paused → ui.resume = true → ui.help = false →
      (Application.RenderUI ui this).1.m_CurrentState = GameState.Playing ∧
      (Application.RenderUI ui this).1.m_FirstMouse = true ∧
      captureCalls (Application.RenderUI ui this).2 = [true] ∧
      (PlaybackCall.resume this.m_MusicChannel
          ∈ playbackCalls (Application.RenderUI ui this).2
        ↔ this.m_MusicChannel ≠ -1)) ∧
    (this.m_CurrentState = GameState.Paused → ui.help = true → ui.resume = false →
      ui.music = false → ui.restartSong = false →
      (Application.RenderUI ui this).1.m_CurrentState = GameState.ShowingHelp ∧
      captureCalls (Application.RenderUI ui this).2 = [] ∧
      playbackCalls (Application.RenderUI ui this).2 = [] ∧
      (Application.RenderUI ui this).1.m_MusicChannel = this.m_MusicChannel) ∧
    (this.m_CurrentState = GameState.ShowingHelp → ui.back = true →
      (Application.RenderUI ui this).1.m_CurrentState = GameState.Paused ∧
      captureCalls (Application.RenderUI ui this).2 = [] ∧
      playbackCalls (Application.RenderUI ui this).2 = [] ∧
      (Application.RenderUI ui this).1.m_MusicChannel = this.m_MusicChannel) ∧
    (polled.event = SDL_Event.keydown true → this.m_CurrentState = GameState.ShowingHelp →
      (Application.ProcessEvent cam this polled).1.m_CurrentState = GameState.Paused ∧
      captureCalls (Application.ProcessEvent cam this polled).2 = [] ∧
      playbackCalls (Application.ProcessEvent cam this polled).2 = [] ∧
      (Application.ProcessEvent cam this polled).1.m_MusicChannel = this.m_MusicChannel) := by
  refine ⟨?_, ?_, ?_, ?_, ?_, ?_⟩
  · intro he hs
    simp only [Application.ProcessEvent, he, hs]
    and_intros <;> first | trivial | rfl | (split_ifs <;> rfl)
  · intro he hs
    simp only [Application.ProcessEvent, he, hs]
    and_intros <;> first | trivial | rfl | (split_ifs <;> rfl)
  · intro hs hres hhelp
    have h := Application.RenderUI_resume ui this hs hres hhelp
    refine ⟨?_, h.1, h.2.1, h.2.2⟩
    rw [Application.RenderUI_state, hs]
    simp [hres, hhelp]
  · intro hs hhelp hres hmusic hrestart
    have hm := Application.musicButton_calls ui
      { this with m_CurrentState := GameState.ShowingHelp }
    refine ⟨?_, ?_, ?_, ?_⟩
    · rw [Application.RenderUI_state, hs]
      simp [hhelp]
    · unfold Application.RenderUI
      simp only [hs, hres, hhelp, hrestart, if_true, Bool.false_eq_true, if_false]
      simp only [captureCalls_append, hm.1]
      rfl
    · unfold Application.RenderUI
      simp only [hs, hres, hhelp, hrestart, if_true, Bool.false_eq_true, if_false]
      simp only [playbackCalls_append, hm.2 (Or.inr hmusic)]
      rfl
    · unfold Application.RenderUI
      simp only [hs, hres, hhelp, hrestart, if_true, Bool.false_eq_true, if_false]
      split_ifs <;> rfl
  · intro hs hback
    simp only [Application.RenderUI, hs, hback, if_true]
    and_intros <;> trivial
  · intro he hs
    simp only [Application.ProcessEvent, he, hs]
    and_intros <;> trivial

/-! ## The frame loop: one iteration -/

theorem framesRendered_append (a b : List Effect) :
    framesRendered (a ++ b) = framesRendered a + framesRendered b := by
  simp [framesRendered, List.countP_append]

theorem sysCalls_append (a b : List Effect) : sysCalls (a ++ b) = sysCalls a ++ sysCalls b := by
  induction a with
  | nil => rfl
  | cons e rest ih => cases e <;> simp [sysCalls, ih]

/-- Effects without a library call begin no frame, touch neither the mouse
capture nor the playback. -/
theorem quiet_of_sysCalls {effects : List Effect} (h : sysCalls effects = []) :
    framesRendered effects = 0 ∧ captureCalls effects = [] ∧ playbackCalls effects = [] := by
  induction effects with
  | nil => exact ⟨rfl, rfl, rfl⟩
  | cons e rest ih =>
    cases e with
    | sys call => simp [sysCalls] at h
    | gl call =>
      have := ih (by simpa [sysCalls] using h)
      simpa [framesRendered, captureCalls, playbackCalls, startsFrame, captureCall,
        playbackCall] using this
    | cout line =>
      have := ih (by simpa [sysCalls] using h)
      simpa [framesRendered, captureCalls, playbackCalls, startsFrame, captureCall,
        playbackCall] using this
    | cerr line =>
      have := ih (by simpa [sysCalls] using h)
      simpa [framesRendered, captureCalls, playbackCalls, startsFrame, captureCall,
        playbackCall] using this

theorem Shader.sysCalls_Use (this : Shader) : sysCalls this.Use = [] := by
  unfold Shader.Use; split_ifs <;> rfl

theorem Shader.sysCalls_SetInt (location : Nat → String → Int) (this : Shader) (name : String)
    (value : Int) : sysCalls (this.SetInt location name value) = [] := by
  unfold Shader.SetInt; split_ifs <;> rfl

theorem Shader.sysCalls_SetMat4 {F : Type} (location : Nat → String → Int) (this : Shader)
    (name : String) (mat : List F) : sysCalls (this.SetMat4 location name mat) = [] := by
  unfold Shader.SetMat4; split_ifs <;> rfl

theorem Shader.sysCalls_SetVec3 {F : Type} (location : Nat → String → Int) (this : Shader)
    (name : String) (value : F × F × F) : sysCalls (this.SetVec3 location name value) = [] := by
  unfold Shader.SetVec3; split_ifs <;> rfl

theorem Texture.sysCalls_BindUnit (this : Texture) (unit : Nat) : sysCalls (this.Bind unit) = [] := by
  unfold Texture.Bind; split_ifs <;> rfl

theorem Mesh.sysCalls_Bind (this : Mesh) : sysCalls this.Bind = [] := by
  unfold Mesh.Bind; split_ifs <;> rfl

theorem Mesh.sysCalls_Draw (this : Mesh) : sysCalls this.Draw = [] := by
  unfold Mesh.Draw; split_ifs <;> rfl

theorem Application.sysCalls_renderScene {F : Type} (env : RenderEnv F) (this : Application F) :
    sysCalls (Application.renderScene env this) = [] := by
  unfold Application.renderScene
  split
  · simp only [sysCalls_append, Shader.sysCalls_Use, Shader.sysCalls_SetMat4,
      Shader.sysCalls_SetVec3, Mesh.sysCalls_Bind, Mesh.sysCalls_Draw, List.append_nil,
      List.nil_append]
    cases this.m_DiffuseTexture with
    | none => rfl
    | some texture =>
      simp only [sysCalls_append, Texture.sysCalls_BindUnit, Shader.sysCalls_SetInt,
        List.append_nil]
      rfl
  · split_ifs <;> rfl

theorem Application.ProcessEvent_quiet {F : Type} [LinearOrder F] (cam : CameraOps F)
    (this : Application F) (polled : PolledEvent) :
    framesRendered (Application.ProcessEvent cam this polled).2 = 0 ∧
    (Application.ProcessEvent cam this polled).1.m_Renderer = this.m_Renderer ∧
    (Application.ProcessEvent cam this polled).1.m_Window = this.m_Window ∧
    (this.m_CurrentState ≠ GameState.Playing →
      (Application.ProcessEvent cam this polled).1.pose = this.pose) := by
  unfold Application.ProcessEvent
  cases he : polled.event with
  | quit => exact ⟨rfl, rfl, rfl, fun _ => rfl⟩
  | keydown escape =>
    cases escape with
    | true =>
      cases hs : this.m_CurrentState with
      | Playing =>
        refine ⟨?_, rfl, rfl, fun h => absurd rfl h⟩
        simp only []
        split_ifs <;> rfl
      | Paused =>
        refine ⟨?_, rfl, rfl, fun _ => rfl⟩
        simp only []
        split_ifs <;> rfl
      | ShowingHelp => exact ⟨rfl, rfl, rfl, fun _ => rfl⟩
    | false => exact ⟨rfl, rfl, rfl, fun _ => rfl⟩
  | mousemotion xrel yrel =>
    simp only []
    by_cases hplay : this.m_CurrentState = GameState.Playing ∧ polled.wantCaptureMouse = false
    · rw [if_pos hplay]
      refine ⟨?_, ?_, ?_, fun h => absurd hplay.1 h⟩
      · split_ifs <;> rfl
      · split_ifs <;> rfl
      · split_ifs <;> rfl
    · rw [if_neg hplay]
      exact ⟨rfl, rfl, rfl, fun _ => rfl⟩
  | other => exact ⟨rfl, rfl, rfl, fun _ => rfl⟩

theorem Application.ProcessEvents_quiet {F : Type} [LinearOrder F] (cam : CameraOps F)
    (events : List PolledEvent) (this : Application F) :
    framesRendered (Application.ProcessEvents cam events this).2 = 0 ∧
    (Application.ProcessEvents cam events this).1.m_Renderer = this.m_Renderer ∧
    (Application.ProcessEvents cam events this).1.m_Window = this.m_Window ∧
    ((∀ s ∈ Application.statesDuring cam events this, s ≠ GameState.Playing) →
      (Application.ProcessEvents cam events this).1.pose = this.pose ∧
      (Application.ProcessEvents cam events this).1.m_CurrentState ≠ GameState.Playing) := by
  unfold Application.ProcessEvents
  simp only []
  have h0 : framesRendered [Effect.sys SysCall.SDL_PumpEvents,
      Effect.sys SysCall.SDL_GetKeyboardState, Effect.sys SysCall.ImGui_GetIO] = 0 := rfl
  revert h0
  generalize [Effect.sys SysCall.SDL_PumpEvents, Effect.sys SysCall.SDL_GetKeyboardState,
    Effect.sys SysCall.ImGui_GetIO] = e0
  induction events generalizing this e0 with
  | nil =>
    intro h0
    refine ⟨?_, rfl, rfl, fun h => ⟨rfl, h _ (by simp [Application.statesDuring])⟩⟩
    simp only [List.foldl_nil, framesRendered_append, h0]
    rfl
  | cons polled rest ih =>
    intro h0
    have hp := Application.ProcessEvent_quiet cam this polled
    simp only [List.foldl_cons]
    obtain ⟨h1, h2, h3, h4⟩ := ih (Application.ProcessEvent cam this polled).1
      (e0 ++ (Application.ProcessEvent cam this polled).2)
      (by rw [framesRendered_append, h0, hp.1])
    refine ⟨h1, h2.trans hp.2.1, h3.trans hp.2.2.1, ?_⟩
    intro hall
    have hthis : this.m_CurrentState ≠ GameState.Playing :=
      hall _ (by simp [Application.statesDuring])
    obtain ⟨h5, h6⟩ := h4 fun s hs => hall s (by simp [Application.statesDuring, hs])
    exact ⟨h5.trans (hp.2.2.2 hthis), h6⟩

theorem Application.Update_quiet {F : Type} (cam : CameraOps F) (keyboard : KeyboardState)
    (this : Application F) (deltaTime : F) :
    framesRendered (Application.Update cam keyboard this deltaTime).2 = 0 ∧
    (Application.Update cam keyboard this deltaTime).1.m_Renderer = this.m_Renderer ∧
    (Application.Update cam keyboard this deltaTime).1.m_Window = this.m_Window ∧
    captureCalls (Application.Update cam keyboard this deltaTime).2 = [] := by
  unfold Application.Update
  split_ifs <;> exact ⟨rfl, rfl, rfl, rfl⟩

theorem Application.PlaySound_quiet {F : Type} (channel : Int) (this : Application F) :
    framesRendered (Application.PlaySound channel this).2 = 0 ∧
    (Application.PlaySound channel this).1.m_Renderer = this.m_Renderer ∧
    (Application.PlaySound channel this).1.m_Window = this.m_Window ∧
    (Application.PlaySound channel this).1.pose = this.pose := by
  unfold Application.PlaySound
  split
  · refine ⟨?_, rfl, rfl, rfl⟩
    split_ifs <;> rfl
  · split_ifs <;> exact ⟨rfl, rfl, rfl, rfl⟩

theorem Application.RestartAudio_quiet {F : Type} (channel : Int) (this : Application F) :
    framesRendered (Application.RestartAudio channel this).2 = 0 ∧
    (Application.RestartAudio channel this).1.m_Renderer = this.m_Renderer ∧
    (Application.RestartAudio channel this).1.m_Window = this.m_Window ∧
    (Application.RestartAudio channel this).1.pose = this.pose := by
  unfold Application.RestartAudio
  split
  · simp only []
    split_ifs
    · have h := Application.PlaySound_quiet channel { this with m_MusicChannel := -1 }
      refine ⟨?_, h.2.1, h.2.2.1, h.2.2.2⟩
      rw [framesRendered_append, framesRendered_append, h.1]
      rfl
    · have h := Application.PlaySound_quiet channel this
      refine ⟨?_, h.2.1, h.2.2.1, h.2.2.2⟩
      rw [framesRendered_append, framesRendered_append, h.1]
      rfl
  · exact ⟨rfl, rfl, rfl, rfl⟩

theorem Application.musicButton_quiet {F : Type} (ui : UiInput) (this : Application F) :
    framesRendered (Application.musicButton ui this) = 0 := by
  unfold Application.musicButton
  by_cases hm : this.m_MixerInitialized = true ∧ this.m_SoundLoaded = true
  · by_cases hc : this.m_MusicChannel = -1
    · simp [hm, hc, framesRendered]
    · cases hp : ui.musicPaused <;> cases hq : ui.musicPlaying <;> cases hb : ui.music <;>
        simp [hm, hc, framesRendered, startsFrame]
  · simp [hm, framesRendered]

theorem Application.PlaySound_only_channel {F : Type} (channel : Int) (this : Application F) :
    (Application.PlaySound channel this).1
      = { this with m_MusicChannel := (Application.PlaySound channel this).1.m_MusicChannel } := by
  unfold Application.PlaySound
  split
  · rfl
  · split_ifs <;> rfl

theorem Application.RestartAudio_only_channel {F : Type} (channel : Int)
    (this : Application F) :
    (Application.RestartAudio channel this).1
      = { this with
          m_MusicChannel := (Application.RestartAudio channel this).1.m_MusicChannel } := by
  unfold Application.RestartAudio
  split
  · simp only []
    split_ifs
    · rw [Application.PlaySound_only_channel]
    · rw [Application.PlaySound_only_channel]
  · rfl

theorem Application.RestartAudio_fields {F : Type} (channel : Int) (this : Application F) :
    (Application.RestartAudio channel this).1.m_Renderer = this.m_Renderer ∧
    (Application.RestartAudio channel this).1.m_Window = this.m_Window ∧
    (Application.RestartAudio channel this).1.m_CameraPos = this.m_CameraPos ∧
    (Application.RestartAudio channel this).1.m_CameraYaw = this.m_CameraYaw ∧
    (Application.RestartAudio channel this).1.m_CameraPitch = this.m_CameraPitch ∧
    (Application.RestartAudio channel this).1.m_CameraFront = this.m_CameraFront ∧
    (Application.RestartAudio channel this).1.m_RotationAngle = this.m_RotationAngle := by
  rw [Application.RestartAudio_only_channel channel this]
  exact ⟨rfl, rfl, rfl, rfl, rfl, rfl, rfl⟩

theorem Application.RenderUI_frames {F : Type} (ui : UiInput) (this : Application F) :
    framesRendered (Application.RenderUI ui this).2 = 0 := by
  have hp : framesRendered (if this.m_MusicChannel ≠ -1 then
      [Effect.sys (SysCall.Mix_Resume this.m_MusicChannel)] else []) = 0 := by
    split_ifs <;> rfl
  unfold Application.RenderUI
  cases hs : this.m_CurrentState with
  | Playing => rfl
  | ShowingHelp => rfl
  | Paused =>
    simp only []
    cases hq : ui.quit <;> cases hr : ui.restartSong <;> cases hh : ui.help <;>
      cases hres : ui.resume <;>
      simp only [if_true, Bool.false_eq_true, if_false, framesRendered_append,
        Application.musicButton_quiet, (Application.RestartAudio_quiet _ _).1, hp] <;>
      rfl

theorem Application.RenderUI_renderer {F : Type} (ui : UiInput) (this : Application F) :
    (Application.RenderUI ui this).1.m_Renderer = this.m_Renderer := by
  unfold Application.RenderUI
  cases hs : this.m_CurrentState with
  | Playing => rfl
  | ShowingHelp =>
    simp only []
    split_ifs <;> rfl
  | Paused =>
    simp only []
    cases hq : ui.quit <;> cases hr : ui.restartSong <;> cases hh : ui.help <;>
      cases hres : ui.resume <;>
      simp [(Application.RestartAudio_fields _ _).1]

theorem Application.RenderUI_window {F : Type} (ui : UiInput) (this : Application F) :
    (Application.RenderUI ui this).1.m_Window = this.m_Window := by
  unfold Application.RenderUI
  cases hs : this.m_CurrentState with
  | Playing => rfl
  | ShowingHelp =>
    simp only []
    split_ifs <;> rfl
  | Paused =>
    simp only []
    cases hq : ui.quit <;> cases hr : ui.restartSong <;> cases hh : ui.help <;>
      cases hres : ui.resume <;>
      simp [(Application.RestartAudio_fields _ _).2.1]

theorem Application.RenderUI_pose {F : Type} (ui : UiInput) (this : Application F) :
    (Application.RenderUI ui this).1.pose = this.pose := by
  unfold Application.RenderUI
  cases hs : this.m_CurrentState with
  | Playing => rfl
  | ShowingHelp =>
    simp only []
    split_ifs <;> rfl
  | Paused =>
    simp only []
    cases hq : ui.quit <;> cases hr : ui.restartSong <;> cases hh : ui.help <;>
      cases hres : ui.resume <;>
      simp [Application.pose, (Application.RestartAudio_fields _ _).2.2.1,
        (Application.RestartAudio_fields _ _).2.2.2.1,
        (Application.RestartAudio_fields _ _).2.2.2.2.1,
        (Application.RestartAudio_fields _ _).2.2.2.2.2.1,
        (Application.RestartAudio_fields _ _).2.2.2.2.2.2]

theorem Application.RenderUI_quiet {F : Type} (ui : UiInput) (this : Application F) :
    framesRendered (Application.RenderUI ui this).2 = 0 ∧
    (Application.RenderUI ui this).1.m_Renderer = this.m_Renderer ∧
    (Application.RenderUI ui this).1.m_Window = this.m_Window ∧
    (Application.RenderUI ui this).1.pose = this.pose :=
  ⟨Application.RenderUI_frames ui this, Application.RenderUI_renderer ui this,
    Application.RenderUI_window ui this, Application.RenderUI_pose ui this⟩

theorem Application.Render_quiet {F : Type} (env : RenderEnv F) (ui : UiInput)
    (this : Application F) :
    (this.m_Renderer ≠ none → ∃ r, Application.Render env ui this = some r) ∧
    ∀ r, Application.Render env ui this = some r →
      framesRendered r.2 = 1 ∧ r.1.m_Renderer ≠ none ∧ r.1.pose = this.pose ∧
      r.1.m_IsRunning = (Application.RenderUI ui this).1.m_IsRunning := by
  have hui := Application.RenderUI_quiet ui this
  have hscene := quiet_of_sysCalls (Application.sysCalls_renderScene env this)
  unfold Application.Render
  cases hr : this.m_Renderer with
  | none => exact ⟨fun h => absurd rfl h, fun r h => by simp at h⟩
  | some renderer =>
    have hr1 : (Application.RenderUI ui this).1.m_Renderer = some renderer := by
      rw [hui.2.1, hr]
    simp only [hr1]
    refine ⟨fun _ => ⟨_, rfl⟩, ?_⟩
    intro r h
    simp only [Option.some.injEq] at h
    subst h
    refine ⟨?_, by simp, hui.2.2.2, rfl⟩
    have hpresent : framesRendered
        (renderer.Present (Application.RenderUI ui this).1.m_Window).2 = 0 := by
      unfold Renderer.Present
      split <;> rfl
    simp only [framesRendered_append, hui.1, hscene.1, hpresent]
    rfl

theorem Application.deltaTime_le {F : Type} [LinearOrder F] (cam : CameraOps F)
    (tickCountNow : Nat) (this : Application F) :
    Application.deltaTime cam tickCountNow this
      = min (cam.ofMillis ((tickCountNow % 18446744073709551616 + 18446744073709551616
          - this.m_TickCountLast % 18446744073709551616) % 18446744073709551616))
        cam.maxStep ∧
    Application.deltaTime cam tickCountNow this ≤ cam.maxStep := by
  unfold Application.deltaTime
  simp only []
  split_ifs with h
  · exact ⟨(min_eq_right (le_of_lt h)).symm, le_refl _⟩
  · exact ⟨(min_eq_left (not_lt.mp h)).symm, not_lt.mp h⟩

theorem Application.frame_some {F : Type} [LinearOrder F] (cam : CameraOps F)
    (env : RenderEnv F) (input : FrameInput) (this : Application F) :
    (this.m_Renderer ≠ none → ∃ r, Application.frame cam env input this = some r) ∧
    ∀ r, Application.frame cam env input this = some r →
      framesRendered r.2 = 1 ∧ r.1.m_Renderer ≠ none ∧
      ((∀ s ∈ Application.statesDuring cam input.events
          { this with m_TickCountLast := input.ticks }, s ≠ GameState.Playing) →
        r.1.pose = this.pose) := by
  have hpe := Application.ProcessEvents_quiet cam input.events
    { this with m_TickCountLast := input.ticks }
  have hup := Application.Update_quiet cam input.keyboard
    (Application.ProcessEvents cam input.events { this with m_TickCountLast := input.ticks }).1
    (Application.deltaTime cam input.ticks this)
  unfold Application.frame
  simp only []
  constructor
  · intro hren
    have hren2 : (if (Application.ProcessEvents cam input.events
          { this with m_TickCountLast := input.ticks }).1.m_CurrentState = GameState.Playing then
        Application.Update cam input.keyboard
          (Application.ProcessEvents cam input.events
            { this with m_TickCountLast := input.ticks }).1
          (Application.deltaTime cam input.ticks this)
        else ((Application.ProcessEvents cam input.events
          { this with m_TickCountLast := input.ticks }).1, [])).1.m_Renderer ≠ none := by
      split_ifs
      · rw [hup.2.1, hpe.2.1]
        exact hren
      · rw [hpe.2.1]
        exact hren
    obtain ⟨r3, hr3⟩ := (Application.Render_quiet env input.ui _).1 hren2
    exact ⟨_, by rw [hr3]; rfl⟩
  · intro r hr
    simp only [Option.map_eq_some'] at hr
    obtain ⟨r3, hr3, rfl⟩ := hr
    obtain ⟨h1, h2, h3, -⟩ := (Application.Render_quiet env input.ui _).2 r3 hr3
    refine ⟨?_, h2, ?_⟩
    · simp only [framesRendered_append, h1, hpe.1]
      split_ifs
      · rw [hup.1]
        rfl
      · rfl
    · intro hall
      obtain ⟨h4, h5⟩ := hpe.2.2.2 hall
      rw [h3, if_neg h5]
      exact h4

/-- C23: one iteration of the frame loop.  With a renderer the iteration
returns, and `Render` is begun exactly once in it, whatever the state.  When
the state is `Paused` or `ShowingHelp` before each of its events and after the
last, the iteration leaves camera position, yaw, pitch, front vector and
rotation angle as they were.  `Update` runs only when the state after the
events is `Playing`: otherwise the iteration is `Render` on the object the
events left, and in `Playing` it is `Render` on what `Update` made of it, with
the time step of the iteration.  A mouse-motion event while the state is not
`Playing` changes nothing.  The time step is the smaller of the elapsed time
and `0.1f`, so it never exceeds `0.1f`. -/
theorem Application.frame_iteration {F : Type} [LinearOrder F] (cam : CameraOps F)
    (env : RenderEnv F) (input : FrameInput) (this : Application F) :
    (this.m_Renderer ≠ none → ∃ r, Application.frame cam env input this = some r) ∧
    (∀ r, Application.frame cam env input this = some r →
      framesRendered r.2 = 1 ∧
      ((∀ s ∈ Application.statesDuring cam input.events
          { this with m_TickCountLast := input.ticks }, s ≠ GameState.Playing) →
        r.1.pose = this.pose)) ∧
    ((Application.ProcessEvents cam input.events
        { this with m_TickCountLast := input.ticks }).1.m_CurrentState ≠ GameState.Playing →
      Application.frame cam env input this
        = (Application.Render env input.ui
            (Application.ProcessEvents cam input.events
              { this with m_TickCountLast := input.ticks }).1).map fun r =>
            (r.1, [Effect.sys SysCall.SDL_GetTicks64]
              ++ (Application.ProcessEvents cam input.events
                    { this with m_TickCountLast := input.ticks }).2 ++ [] ++ r.2)) ∧
    ((Application.ProcessEvents cam input.events
        { this with m_TickCountLast := input.ticks }).1.m_CurrentState = GameState.Playing →
      Application.frame cam env input this
        = (Application.Render env input.ui
            (Application.Update cam input.keyboard
              (Application.ProcessEvents cam input.events
                { this with m_TickCountLast := input.ticks }).1
              (Application.deltaTime cam input.ticks this)).1).map fun r =>
            (r.1, [Effect.sys SysCall.SDL_GetTicks64]
              ++ (Application.ProcessEvents cam input.events
                    { this with m_TickCountLast := input.ticks }).2
              ++ (Application.Update cam input.keyboard
                    (Application.ProcessEvents cam input.events
                      { this with m_TickCountLast := input.ticks }).1
                    (Application.deltaTime cam input.ticks this)).2 ++ r.2)) ∧
    (∀ (polled : PolledEvent) (xrel yrel : Int),
      polled.event = SDL_Event.mousemotion xrel yrel →
      this.m_CurrentState ≠ GameState.Playing →
      (Application.ProcessEvent cam this polled).1.pose = this.pose ∧
      (Application.ProcessEvent cam this polled).1.m_FirstMouse = this.m_FirstMouse) ∧
    Application.deltaTime cam input.ticks this
      = min (cam.ofMillis ((input.ticks % 18446744073709551616 + 18446744073709551616
          - this.m_TickCountLast % 18446744073709551616) % 18446744073709551616))
        cam.maxStep ∧
    Application.deltaTime cam input.ticks this ≤ cam.maxStep := by
  have hframe := Application.frame_some cam env input this
  refine ⟨hframe.1, fun r hr => ⟨(hframe.2 r hr).1, (hframe.2 r hr).2.2⟩, ?_, ?_, ?_,
    (Application.deltaTime_le cam input.ticks this).1,
    (Application.deltaTime_le cam input.ticks this).2⟩
  · intro hs
    simp only [Application.frame, if_neg hs]
  · intro hs
    simp only [Application.frame, if_pos hs]
  · intro polled xrel yrel he hs
    have hcond : ¬(this.m_CurrentState = GameState.Playing ∧ polled.wantCaptureMouse = false) :=
      fun h => hs h.1
    simp only [Application.ProcessEvent, he, if_neg hcond]
    exact ⟨trivial, trivial⟩

/-- C23 on the iteration `quitFrame` after the start-up at `sampleEnv`. -/
theorem Application.frame_iteration_sample :
    (Application.frame wholeCamera sampleRenderEnv quitFrame sampleStarted).map
        (fun r => framesRendered r.2) = some 1 ∧
    Application.deltaTime wholeCamera 1016 sampleStarted ≤ wholeCamera.maxStep :=
  ⟨by decide, (Application.frame_iteration wholeCamera sampleRenderEnv quitFrame
    sampleStarted).2.2.2.2.2.2⟩

/-! ## The frame loop: the mouse capture -/

theorem captureAfter_append (before : Bool) (a b : List Effect) :
    captureAfter before (a ++ b) = captureAfter (captureAfter before a) b := by
  simp [captureAfter, captureCalls_append, List.foldl_append]

theorem captureAfter_of_nil (before : Bool) (effects : List Effect)
    (h : captureCalls effects = []) : captureAfter before effects = before := by
  simp [captureAfter, h]

theorem Application.ProcessEvent_capture {F : Type} [LinearOrder F] (cam : CameraOps F)
    (this : Application F) (polled : PolledEvent) (captured : Bool)
    (h : this.captureMatches captured) :
    (Application.ProcessEvent cam this polled).1.captureMatches
      (captureAfter captured (Application.ProcessEvent cam this polled).2) := by
  unfold Application.captureMatches at h ⊢
  unfold Application.ProcessEvent
  cases he : polled.event with
  | quit => simpa [captureAfter, captureCalls, captureCall] using h
  | keydown escape =>
    cases escape with
    | true =>
      cases hs : this.m_CurrentState with
      | Playing =>
        simp only []
        split_ifs <;> simp [captureAfter, captureCalls, captureCall]
      | Paused =>
        simp only []
        split_ifs <;> simp [captureAfter, captureCalls, captureCall]
      | ShowingHelp =>
        rw [hs] at h
        simpa [captureAfter, captureCalls, captureCall] using h
    | false => simpa [captureAfter, captureCalls, captureCall] using h
  | mousemotion xrel yrel =>
    simp only []
    by_cases hplay : this.m_CurrentState = GameState.Playing ∧ polled.wantCaptureMouse = false
    · rw [if_pos hplay]
      split_ifs <;>
        simpa [captureAfter, captureCalls, captureCall, Application.HandleMouseInput] using h
    · rw [if_neg hplay]
      simpa [captureAfter, captureCalls, captureCall] using h
  | other => simpa [captureAfter, captureCalls, captureCall] using h

theorem Application.ProcessEvents_capture {F : Type} [LinearOrder F] (cam : CameraOps F)
    (events : List PolledEvent) (this : Application F) (captured : Bool)
    (h : this.captureMatches captured) :
    (Application.ProcessEvents cam events this).1.captureMatches
      (captureAfter captured (Application.ProcessEvents cam events this).2) := by
  unfold Application.ProcessEvents
  simp only []
  have h0 : captureAfter captured [Effect.sys SysCall.SDL_PumpEvents,
      Effect.sys SysCall.SDL_GetKeyboardState, Effect.sys SysCall.ImGui_GetIO] = captured := rfl
  rw [← h0] at h
  revert h
  generalize [Effect.sys SysCall.SDL_PumpEvents, Effect.sys SysCall.SDL_GetKeyboardState,
    Effect.sys SysCall.ImGui_GetIO] = e0
  induction events generalizing this e0 with
  | nil =>
    intro h
    simp only [List.foldl_nil, captureAfter_append]
    exact h
  | cons polled rest ih =>
    intro h
    simp only [List.foldl_cons]
    apply ih
    rw [captureAfter_append]
    exact Application.ProcessEvent_capture cam this polled _ h

theorem Application.RenderUI_captureCalls {F : Type} (ui : UiInput) (this : Application F) :
    captureCalls (Application.RenderUI ui this).2
      = if this.m_CurrentState = GameState.Paused ∧ ui.resume = true then [true] else [] := by
  have hp : captureCalls (if this.m_MusicChannel ≠ -1 then
      [Effect.sys (SysCall.Mix_Resume this.m_MusicChannel)] else []) = [] := by
    split_ifs <;> rfl
  unfold Application.RenderUI
  cases hs : this.m_CurrentState with
  | Playing => simp [captureCalls]
  | ShowingHelp => simp [captureCalls, captureCall]
  | Paused =>
    simp only []
    cases hq : ui.quit <;> cases hr : ui.restartSong <;> cases hh : ui.help <;>
      cases hres : ui.resume <;>
      simp only [if_true, Bool.false_eq_true, if_false, captureCalls_append,
        (Application.musicButton_calls _ _).1, (Application.RestartAudio_calls _ _).1, hp,
        and_self, and_false, and_true] <;>
      rfl

theorem Application.RenderUI_capture {F : Type} (ui : UiInput) (this : Application F)
    (captured : Bool) (h : this.captureMatches captured) (hui : ui.oneChoice) :
    (Application.RenderUI ui this).1.captureMatches
      (captureAfter captured (Application.RenderUI ui this).2) := by
  unfold Application.captureMatches at h ⊢
  unfold UiInput.oneChoice at hui
  rw [Application.RenderUI_state]
  simp only [captureAfter, Application.RenderUI_captureCalls]
  cases hs : this.m_CurrentState with
  | Playing => simpa [hs] using h
  | ShowingHelp =>
    rw [hs] at h
    cases hb : ui.back <;> simpa using h
  | Paused =>
    rw [hs] at h
    cases hres : ui.resume <;> cases hh : ui.help <;> simp_all

theorem Application.Render_captureCalls {F : Type} (env : RenderEnv F) (ui : UiInput)
    (this : Application F) (r : Application F × List Effect)
    (h : Application.Render env ui this = some r) :
    captureCalls r.2 = captureCalls (Application.RenderUI ui this).2 ∧
    r.1.m_CurrentState = (Application.RenderUI ui this).1.m_CurrentState := by
  have hscene := quiet_of_sysCalls (Application.sysCalls_renderScene env this)
  unfold Application.Render at h
  cases hr : this.m_Renderer with
  | none => simp [hr] at h
  | some renderer =>
    simp only [hr] at h
    cases hr1 : (Application.RenderUI ui this).1.m_Renderer with
    | none => simp [hr1] at h
    | some renderer1 =>
      simp only [hr1, Option.some.injEq] at h
      subst h
      refine ⟨?_, rfl⟩
      have hpresent : captureCalls
          (renderer1.Present (Application.RenderUI ui this).1.m_Window).2 = [] := by
        unfold Renderer.Present
        split <;> rfl
      have h1 : captureCalls [Effect.sys SysCall.ImGui_ImplOpenGL3_NewFrame,
          Effect.sys SysCall.ImGui_ImplSDL2_NewFrame, Effect.sys SysCall.ImGui_NewFrame]
          = [] := rfl
      have h2 : captureCalls renderer.Clear = [] := rfl
      have h3 : captureCalls [Effect.sys SysCall.ImGui_Render,
          Effect.sys SysCall.ImGui_ImplOpenGL3_RenderDrawData] = [] := rfl
      simp only [captureCalls_append, hscene.2.1, hpresent, h1, h2, h3, List.append_nil,
        List.nil_append]

theorem Application.frame_capture {F : Type} [LinearOrder F] (cam : CameraOps F)
    (env : RenderEnv F) (input : FrameInput) (this : Application F) (captured : Bool)
    (h : this.captureMatches captured) (hui : input.ui.oneChoice)
    (r : Application F × List Effect) (hr : Application.frame cam env input this = some r) :
    r.1.captureMatches (captureAfter captured r.2) := by
  have hpe := Application.ProcessEvents_capture cam input.events
    { this with m_TickCountLast := input.ticks } captured h
  unfold Application.frame at hr
  simp only [Option.map_eq_some'] at hr
  obtain ⟨r3, hr3, rfl⟩ := hr
  obtain ⟨hc, hstate⟩ := Application.Render_captureCalls env input.ui _ r3 hr3
  have hupdate : ∀ (app : Application F) (c : Bool), app.captureMatches c →
      (if app.m_CurrentState = GameState.Playing then
          Application.Update cam input.keyboard app (Application.deltaTime cam input.ticks this)
        else (app, [])).1.captureMatches
        (captureAfter c (if app.m_CurrentState = GameState.Playing then
          Application.Update cam input.keyboard app (Application.deltaTime cam input.ticks this)
        else (app, [])).2) := by
    intro app c happ
    split_ifs
    · rw [captureAfter_of_nil _ _ (Application.Update_quiet cam input.keyboard app _).2.2.2]
      unfold Application.captureMatches at happ ⊢
      rw [(Application.Update_flags cam input.keyboard app _).2]
      exact happ
    · exact happ
  have h2 := hupdate _ _ hpe
  have h3 := Application.RenderUI_capture input.ui _ _ h2 hui
  unfold Application.captureMatches at h3 ⊢
  rw [hstate]
  have hafter : captureAfter captured
      ([Effect.sys SysCall.SDL_GetTicks64]
        ++ (Application.ProcessEvents cam input.events
              { this with m_TickCountLast := input.ticks }).2
        ++ (if (Application.ProcessEvents cam input.events
              { this with m_TickCountLast := input.ticks }).1.m_CurrentState
                = GameState.Playing then
              Application.Update cam input.keyboard
                (Application.ProcessEvents cam input.events
                  { this with m_TickCountLast := input.ticks }).1
                (Application.deltaTime cam input.ticks this)
            else ((Application.ProcessEvents cam input.events
                  { this with m_TickCountLast := input.ticks }).1, [])).2
        ++ r3.2)
      = captureAfter (captureAfter (captureAfter captured
          (Application.ProcessEvents cam input.events
              { this with m_TickCountLast := input.ticks }).2)
          (if (Application.ProcessEvents cam input.events
              { this with m_TickCountLast := input.ticks }).1.m_CurrentState
                = GameState.Playing then
              Application.Update cam input.keyboard
                (Application.ProcessEvents cam input.events
                  { this with m_TickCountLast := input.ticks }).1
                (Application.deltaTime cam input.ticks this)
            else ((Application.ProcessEvents cam input.events
                  { this with m_TickCountLast := input.ticks }).1, [])).2)
          (Application.RenderUI input.ui
            (if (Application.ProcessEvents cam input.events
              { this with m_TickCountLast := input.ticks }).1.m_CurrentState
                = GameState.Playing then
              Application.Update cam input.keyboard
                (Application.ProcessEvents cam input.events
                  { this with m_TickCountLast := input.ticks }).1
                (Application.deltaTime cam input.ticks this)
            else ((Application.ProcessEvents cam input.events
                  { this with m_TickCountLast := input.ticks }).1, [])).1).2 := by
    simp only [captureAfter_append]
    have : captureAfter captured [Effect.sys SysCall.SDL_GetTicks64] = captured := rfl
    rw [this]
    simp only [captureAfter, hc]
  rw [hafter]
  exact h3

theorem Application.runLoop_capture {F : Type} [LinearOrder F] (cam : CameraOps F)
    (env : RenderEnv F) (inputs : List FrameInput) (this : Application F) (captured : Bool)
    (h : this.captureMatches captured) (hui : ∀ input ∈ inputs, input.ui.oneChoice)
    (r : Application F × List Effect) (hr : Application.runLoop cam env inputs this = some r) :
    r.1.captureMatches (captureAfter captured r.2) := by
  induction inputs generalizing this captured r with
  | nil =>
    simp only [Application.runLoop] at hr
    split_ifs at hr
    simp only [Option.some.injEq] at hr
    subst hr
    exact h
  | cons input rest ih =>
    simp only [Application.runLoop] at hr
    split_ifs at hr with hrun
    · cases hf : Application.frame cam env input this with
      | none => simp [hf] at hr
      | some r1 =>
        simp only [hf, Option.map_eq_some'] at hr
        obtain ⟨r2, hr2, rfl⟩ := hr
        have h1 := Application.frame_capture cam env input this captured h
          (hui input (by simp)) r1 hf
        have h2 := ih r1.1 _ h1 (fun i hi => hui i (by simp [hi])) r2 hr2
        simp only [captureAfter_append]
        exact h2
    · simp only [Option.some.injEq] at hr
      subst hr
      exact h

/-! ## Start-up: the mouse capture -/

theorem Application.LoadAudio_capture {F : Type} (env : AudioEnv) (this : Application F) :
    captureCalls (Application.LoadAudio env this).2.2 = [] ∧
    (Application.LoadAudio env this).2.1.m_CurrentState = this.m_CurrentState := by
  unfold Application.LoadAudio
  cases this.m_MixerInitialized <;> cases env.wav <;>
    simp [captureCalls, captureCall] <;> split_ifs <;> simp [captureCall]

theorem Application.InitializeAudio_capture {F : Type} (env : InitEnv F)
    (this : Application F) :
    captureCalls (Application.InitializeAudio env this).2.2 = [] ∧
    (Application.InitializeAudio env this).2.1.m_CurrentState = this.m_CurrentState := by
  have hl := Application.LoadAudio_capture env.audio this
  have hp := Application.PlaySound_calls env.audio.playChannel
    (Application.LoadAudio env.audio this).2.1
  have hf := Application.PlaySound_flags env.audio.playChannel
    (Application.LoadAudio env.audio this).2.1
  unfold Application.InitializeAudio
  cases hload : (Application.LoadAudio env.audio this).1 with
  | true =>
    simp only [hload, Bool.not_true, Bool.false_eq_true, if_false, captureCalls_append, hl.1,
      hp.1]
    exact ⟨rfl, hf.2.trans hl.2⟩
  | false =>
    simp only [hload, Bool.not_false, if_true, captureCalls_append, hl.1]
    exact ⟨rfl, hl.2⟩

theorem FileUtils.sysCalls_log {F : Type} [DecidableEq F] (ops : FloatOps F)
    (parse : ParseResult F) (outVertices : List (Vertex F)) (outIndices : List Nat)
    (loaded : FileUtils.LoadResult F)
    (h : FileUtils.LoadObjModel ops parse outVertices outIndices = some loaded) :
    sysCalls loaded.log = [] := by
  unfold FileUtils.LoadObjModel at h
  have hp : sysCalls (FileUtils.parseLog parse) = [] := by
    unfold FileUtils.parseLog
    split_ifs <;> rfl
  split_ifs at h
  · cases h
    simp only [sysCalls_append, hp]
    rfl
  · cases hloop : FileUtils.loadLoop ops parse.attrib (FileUtils.initialState F) parse.shapes with
    | none => simp [hloop] at h
    | some st =>
      simp [hloop] at h
      subst h
      simp only [sysCalls_append, hp]
      rfl

theorem Mesh.sysCalls_construct {F : Type} (names : MeshNames) (vertices : List (Vertex F))
    (indices : List Nat) : sysCalls (Mesh.construct names vertices indices).2 = [] := by
  unfold Mesh.construct
  split_ifs <;> rfl

theorem sysCalls_destroyOwned_mesh (o : Option Mesh) :
    sysCalls (destroyOwned Mesh.destruct o) = [] := by
  cases o with
  | none => rfl
  | some m =>
    simp only [destroyOwned, Mesh.destruct]
    split_ifs <;> rfl

theorem Texture.sysCalls_destruct (t : Texture) : sysCalls (Texture.destruct t) = [] := by
  unfold Texture.destruct
  split_ifs <;> rfl

theorem sysCalls_destroyOwned_texture (o : Option Texture) :
    sysCalls (destroyOwned Texture.destruct o) = [] := by
  cases o with
  | none => rfl
  | some t => exact Texture.sysCalls_destruct t

theorem sysCalls_destroyOwned_shader (o : Option Shader) :
    sysCalls (destroyOwned Shader.destruct o) = [] := by
  cases o with
  | none => rfl
  | some s =>
    simp only [destroyOwned, Shader.destruct]
    split_ifs <;> rfl

theorem Shader.sysCalls_build (device : ShaderDevice) (vertexCode fragmentCode : String) :
    sysCalls (Shader.construct device vertexCode fragmentCode).2 = [] := by
  unfold Shader.construct CompileShader LinkProgram
  cases device.vertexCompiles <;> cases device.fragmentCompiles <;> cases device.links <;>
    simp [sysCalls] <;> split_ifs <;> simp [sysCalls]

theorem Texture.captureCalls_Load (decoded : Decoded) (name : Nat) (this : Texture) :
    captureCalls (Texture.Load decoded name this).2.2 = [] := by
  unfold Texture.Load
  cases decoded.data with
  | none => rfl
  | some data =>
    simp only []
    split_ifs <;> rfl

theorem captureCalls_destroyOwned_renderer (o : Option Renderer) :
    captureCalls (destroyOwned Renderer.destruct o) = [] := by
  cases o with
  | none => rfl
  | some r =>
    simp only [destroyOwned, Renderer.destruct, Renderer.Shutdown]
    cases r.m_Context <;> rfl

theorem Renderer.captureCalls_Initialize (device : RendererDevice) (this : Renderer)
    (window : Option Nat) :
    captureCalls (Renderer.Initialize device this window).2.2 = [] := by
  unfold Renderer.Initialize
  cases window with
  | none => rfl
  | some w =>
    cases device.context with
    | none => rfl
    | some context =>
      simp only []
      split_ifs <;> rfl

theorem Application.InitializeModel_capture {F : Type} [DecidableEq F] (ops : FloatOps F)
    (env : InitEnv F) (this : Application F) (r : Bool × Application F × List Effect)
    (h : Application.InitializeModel ops env this = some r) :
    captureCalls r.2.2 = [] ∧ r.2.1.m_CurrentState = this.m_CurrentState := by
  have ha : ∀ mesh : Mesh, _ := fun mesh =>
    Application.InitializeAudio_capture env { this with m_LoadedMesh := some mesh }
  unfold Application.InitializeModel at h
  split_ifs at h with hpath
  · cases h
    exact ⟨rfl, rfl⟩
  · cases hl : FileUtils.LoadObjModel ops env.parse [] [] with
    | none => simp [hl] at h
    | some loaded =>
      have hlog := (quiet_of_sysCalls (FileUtils.sysCalls_log ops _ _ _ _ hl)).2.1
      simp only [hl] at h
      split_ifs at h with hok
      · cases h
        specialize ha (Mesh.construct env.meshNames loaded.outVertices loaded.outIndices).1
        refine ⟨?_, ha.2⟩
        simp only [captureCalls_append, hlog, ha.1,
          (quiet_of_sysCalls (Mesh.sysCalls_construct _ _ _)).2.1,
          (quiet_of_sysCalls (sysCalls_destroyOwned_mesh _)).2.1]
        rfl
      · cases h
        exact ⟨hlog, rfl⟩

theorem Application.InitializeTexture_capture {F : Type} [DecidableEq F] (ops : FloatOps F)
    (env : InitEnv F) (this : Application F) (r : Bool × Application F × List Effect)
    (h : Application.InitializeTexture ops env this = some r) :
    captureCalls r.2.2 = [] ∧ r.2.1.m_CurrentState = this.m_CurrentState := by
  have hm : ∀ (t : Option Texture) (r1 : Bool × Application F × List Effect), _ :=
    fun t r1 => Application.InitializeModel_capture ops env { this with m_DiffuseTexture := t } r1
  unfold Application.InitializeTexture at h
  split_ifs at h with hpath
  · cases h
    exact ⟨rfl, rfl⟩
  · cases hload : (Texture.Load env.decoded env.textureName Texture.construct).1 with
    | true =>
      simp only [hload, Bool.not_true, Bool.false_eq_true, if_false, Option.map_eq_some'] at h
      obtain ⟨r1, hr1, rfl⟩ := h
      obtain ⟨h1, h2⟩ := hm _ r1 hr1
      refine ⟨?_, h2⟩
      simp only [captureCalls_append, h1, Texture.captureCalls_Load,
        (quiet_of_sysCalls (sysCalls_destroyOwned_texture _)).2.1]
      rfl
    | false =>
      simp only [hload, Bool.not_false, if_true, Option.map_eq_some'] at h
      obtain ⟨r1, hr1, rfl⟩ := h
      obtain ⟨h1, h2⟩ := hm _ r1 hr1
      refine ⟨?_, h2⟩
      simp only [captureCalls_append, h1, Texture.captureCalls_Load,
        (quiet_of_sysCalls (sysCalls_destroyOwned_texture _)).2.1,
        (quiet_of_sysCalls (Texture.sysCalls_destruct _)).2.1]
      rfl

theorem Application.InitializeShader_capture {F : Type} [DecidableEq F] (ops : FloatOps F)
    (env : InitEnv F) (this : Application F) (r : Bool × Application F × List Effect)
    (h : Application.InitializeShader ops env this = some r) :
    captureCalls r.2.2 = [] ∧ r.2.1.m_CurrentState = this.m_CurrentState := by
  have hm : ∀ (s : Shader) (r1 : Bool × Application F × List Effect), _ :=
    fun s r1 =>
      Application.InitializeTexture_capture ops env { this with m_LitTexturedShader := some s } r1
  have hcons := (quiet_of_sysCalls
    (Shader.sysCalls_build env.shaderDevice env.vertexCode env.fragmentCode)).2.1
  by_cases hpaths : env.vertPath.isEmpty = true ∨ env.fragPath.isEmpty = true
  · simp only [Application.InitializeShader, hpaths, ↓reduceIte, Option.some.injEq] at h
    subst h
    refine ⟨?_, rfl⟩
    simp only [captureCalls_append]
    have h1 : captureCalls (if env.vertPath.isEmpty = true then
        [Effect.cerr "  - Vertex shader path failed."] else []) = [] := by
      split_ifs <;> rfl
    have h2 : captureCalls (if env.fragPath.isEmpty = true then
        [Effect.cerr "  - Fragment shader path failed."] else []) = [] := by
      split_ifs <;> rfl
    rw [h1, h2]
    rfl
  · by_cases hprog :
      (Shader.construct env.shaderDevice env.vertexCode env.fragmentCode).1.m_ProgramID = 0
    · simp only [Application.InitializeShader, hpaths, hprog, ↓reduceIte,
        Option.some.injEq] at h
      subst h
      refine ⟨?_, rfl⟩
      simp only [captureCalls_append, hcons,
        (quiet_of_sysCalls (sysCalls_destroyOwned_shader _)).2.1]
      rfl
    · simp only [Application.InitializeShader, hpaths, hprog, ↓reduceIte,
        Option.map_eq_some'] at h
      obtain ⟨r1, hr1, rfl⟩ := h
      obtain ⟨h1, h2⟩ := hm _ r1 hr1
      refine ⟨?_, h2⟩
      simp only [captureCalls_append, hcons, h1,
        (quiet_of_sysCalls (sysCalls_destroyOwned_shader _)).2.1]
      rfl

theorem Application.Initialize_capture {F : Type} [DecidableEq F] (ops : FloatOps F)
    (cam : CameraOps F) (env : InitEnv F) (this : Application F)
    (r : Bool × Application F × List Effect)
    (h : Application.Initialize ops cam env this = some r) (hok : r.1 = true) :
    captureCalls r.2.2 = (if this.m_CurrentState = GameState.Playing then [true] else []) ∧
    r.2.1.m_CurrentState = this.m_CurrentState := by
  have hm : ∀ (w : Option Nat) (rr : Option Renderer) (x y : F)
      (r1 : Bool × Application F × List Effect), _ := fun w rr x y r1 =>
    Application.InitializeShader_capture ops env
      { this with m_Window := w, m_Renderer := rr, m_FirstMouse := true, m_LastMouseX := x,
                  m_LastMouseY := y, uiContext := true, uiBackend := true } r1
  by_cases hsdl : env.sdlInit = 0
  · cases hw : env.window with
    | none =>
      simp only [Application.Initialize, hsdl, hw, ne_eq, not_true_eq_false, ↓reduceIte,
        Option.some.injEq] at h
      subst h
      simp at hok
    | some window =>
      cases hinit : (Renderer.Initialize env.rendererDevice Renderer.construct
          (some window)).1 with
      | false =>
        simp only [Application.Initialize, hsdl, hw, hinit, ne_eq, not_true_eq_false,
          Bool.not_false, ↓reduceIte, Option.some.injEq] at h
        subst h
        simp at hok
      | true =>
        by_cases hctx : (Renderer.Initialize env.rendererDevice Renderer.construct
            (some window)).2.1.m_Context = none
        · simp only [Application.Initialize, hsdl, hw, hinit, hctx, ne_eq, not_true_eq_false,
            Bool.not_true, Bool.false_eq_true, ↓reduceIte, Option.some.injEq] at h
          subst h
          simp at hok
        · simp only [Application.Initialize, hsdl, hw, hinit, hctx, ne_eq, not_true_eq_false,
            Bool.not_true, Bool.false_eq_true, ↓reduceIte, Option.map_eq_some'] at h
          obtain ⟨r1, hr1, rfl⟩ := h
          obtain ⟨h1, h2⟩ := hm _ _ _ _ r1 hr1
          refine ⟨?_, h2⟩
          simp only [captureCalls_append, h1, captureCalls_destroyOwned_renderer,
            Renderer.captureCalls_Initialize]
          split_ifs <;> rfl
  · simp only [Application.Initialize, hsdl, ne_eq, not_false_eq_true, ↓reduceIte,
      Option.some.injEq] at h
    subst h
    simp at hok

/-- C27 (amended): the mouse is captured exactly when the state is `Playing`,
in every state reached from the initial one by events and button signals among
which Resume and Help never come in the same frame.  After a successful
`Initialize` of a fresh application the state is `Playing` and the mouse is
captured.  From an object on which capture and state agree, they agree again
after every event, after every `RenderUI` whose buttons are not Resume and Help
together, and when the frame loop exits after any iterations with such
buttons. -/
theorem Application.capture_invariant {F : Type} [LinearOrder F] (ops : FloatOps F)
    (cam : CameraOps F) (initEnv : InitEnv F) (env : RenderEnv F) (inputs : List FrameInput)
    (this : Application F) (captured : Bool) (h : this.captureMatches captured)
    (hui : ∀ input ∈ inputs, input.ui.oneChoice) :
    (∀ (before : Bool) (r : Bool × Application F × List Effect),
      Application.Initialize ops cam initEnv (Application.construct cam) = some r →
      r.1 = true → r.2.1.captureMatches (captureAfter before r.2.2)) ∧
    (∀ polled : PolledEvent,
      (Application.ProcessEvent cam this polled).1.captureMatches
        (captureAfter captured (Application.ProcessEvent cam this polled).2)) ∧
    (∀ ui : UiInput, ui.oneChoice →
      (Application.RenderUI ui this).1.captureMatches
        (captureAfter captured (Application.RenderUI ui this).2)) ∧
    (∀ r, Application.runLoop cam env inputs this = some r →
      r.1.captureMatches (captureAfter captured r.2)) := by
  refine ⟨?_, fun polled => Application.ProcessEvent_capture cam this polled captured h,
    fun ui hone => Application.RenderUI_capture ui this captured h hone,
    fun r hr => Application.runLoop_capture cam env inputs this captured h hui r hr⟩
  intro before r hr hok
  obtain ⟨h1, h2⟩ := Application.Initialize_capture ops cam initEnv _ r hr hok
  unfold Application.captureMatches
  rw [h2]
  have hplaying : (Application.construct cam).m_CurrentState = GameState.Playing := rfl
  simp only [captureAfter, h1, hplaying, if_true, List.foldl_cons, List.foldl_nil]

/-- C27 (amended) on the application started at `sampleEnv`, with the mouse
captured, over an iteration that polls Escape, an idle one and one that polls
the window-close event: the loop exits in `Paused` with the mouse free. -/
theorem Application.capture_invariant_sample :
    sampleStarted.captureMatches true ∧
    (∀ input ∈ [escapeFrame, idleFrame, quitFrame], input.ui.oneChoice) ∧
    (Application.runLoop wholeCamera sampleRenderEnv [escapeFrame, idleFrame, quitFrame]
        sampleStarted).map (fun r => (r.1.m_CurrentState, captureAfter true r.2))
      = some (GameState.Paused, false) ∧
    ∀ r, Application.runLoop wholeCamera sampleRenderEnv [escapeFrame, idleFrame, quitFrame]
        sampleStarted = some r →
      r.1.captureMatches (captureAfter true r.2) :=
  ⟨by decide, by decide, by decide,
   (Application.capture_invariant FileUtils.exactOps wholeCamera sampleEnv sampleRenderEnv
      [escapeFrame, idleFrame, quitFrame] sampleStarted true (by decide) (by decide)).2.2.2⟩

/-- C27, as stated, fails when the Resume button and the Help button both
report a press in one frame.  The application started at `sampleEnv` is in
`Playing` with the mouse captured; an iteration polls Escape (now `Paused`,
mouse free); in the next both buttons are pressed: Resume captures the mouse,
Help then enters `ShowingHelp`.  The loop exits in `ShowingHelp` with the mouse
captured. -/
theorem Application.capture_lost_sync :
    (Application.Initialize FileUtils.exactOps wholeCamera sampleEnv
        (Application.construct wholeCamera)).map
        (fun r => (r.1, r.2.1.m_CurrentState, captureAfter false r.2.2))
      = some (true, GameState.Playing, true) ∧
    (Application.Initialize FileUtils.exactOps wholeCamera sampleEnv
        (Application.construct wholeCamera)).map (fun r => r.2.1) = some sampleStarted ∧
    (Application.runLoop wholeCamera sampleRenderEnv [escapeFrame, quitFrame]
        sampleStarted).map (fun r => (r.1.m_CurrentState, captureAfter true r.2))
      = some (GameState.Paused, false) ∧
    (Application.runLoop wholeCamera sampleRenderEnv [escapeFrame, resumeHelpFrame, quitFrame]
        sampleStarted).map (fun r => (r.1.m_CurrentState, captureAfter true r.2))
      = some (GameState.ShowingHelp, true) :=
  ⟨by decide, rfl, by decide, by decide⟩

/-! ## `main`: the exit code -/

theorem Application.LoadAudio_renderer {F : Type} (env : AudioEnv) (this : Application F) :
    (Application.LoadAudio env this).2.1.m_Renderer = this.m_Renderer := by
  unfold Application.LoadAudio
  cases this.m_MixerInitialized <;> cases env.wav <;> simp <;> split_ifs <;> simp

theorem Application.InitializeAudio_renderer {F : Type} (env : InitEnv F)
    (this : Application F) :
    (Application.InitializeAudio env this).2.1.m_Renderer = this.m_Renderer := by
  have hl := Application.LoadAudio_renderer env.audio this
  have hp := (Application.PlaySound_quiet env.audio.playChannel
    (Application.LoadAudio env.audio this).2.1).2.1
  unfold Application.InitializeAudio
  cases hload : (Application.LoadAudio env.audio this).1 with
  | true =>
    simp only [hload, Bool.not_true, Bool.false_eq_true, if_false]
    exact hp.trans hl
  | false =>
    simp only [hload, Bool.not_false, if_true]
    exact hl

theorem Application.InitializeModel_renderer {F : Type} [DecidableEq F] (ops : FloatOps F)
    (env : InitEnv F) (this : Application F) (r : Bool × Application F × List Effect)
    (h : Application.InitializeModel ops env this = some r) :
    r.2.1.m_Renderer = this.m_Renderer := by
  have ha : ∀ mesh : Mesh, _ := fun mesh =>
    Application.InitializeAudio_renderer env { this with m_LoadedMesh := some mesh }
  unfold Application.InitializeModel at h
  split_ifs at h with hpath
  · cases h
    rfl
  · cases hl : FileUtils.LoadObjModel ops env.parse [] [] with
    | none => simp [hl] at h
    | some loaded =>
      simp only [hl] at h
      split_ifs at h with hok
      · cases h
        exact ha _
      · cases h
        rfl

theorem Application.InitializeTexture_renderer {F : Type} [DecidableEq F] (ops : FloatOps F)
    (env : InitEnv F) (this : Application F) (r : Bool × Application F × List Effect)
    (h : Application.InitializeTexture ops env this = some r) :
    r.2.1.m_Renderer = this.m_Renderer := by
  have hm : ∀ (t : Option Texture) (r1 : Bool × Application F × List Effect), _ :=
    fun t r1 =>
      Application.InitializeModel_renderer ops env { this with m_DiffuseTexture := t } r1
  unfold Application.InitializeTexture at h
  split_ifs at h with hpath
  · cases h
    rfl
  · cases hload : (Texture.Load env.decoded env.textureName Texture.construct).1 with
    | true =>
      simp only [hload, Bool.not_true, Bool.false_eq_true, if_false, Option.map_eq_some'] at h
      obtain ⟨r1, hr1, rfl⟩ := h
      have h2 := hm _ r1 hr1
      exact h2
    | false =>
      simp only [hload, Bool.not_false, if_true, Option.map_eq_some'] at h
      obtain ⟨r1, hr1, rfl⟩ := h
      have h2 := hm _ r1 hr1
      exact h2

theorem Application.InitializeShader_renderer {F : Type} [DecidableEq F] (ops : FloatOps F)
    (env : InitEnv F) (this : Application F) (r : Bool × Application F × List Effect)
    (h : Application.InitializeShader ops env this = some r) :
    r.2.1.m_Renderer = this.m_Renderer := by
  have hm : ∀ (s : Shader) (r1 : Bool × Application F × List Effect), _ :=
    fun s r1 =>
      Application.InitializeTexture_renderer ops env { this with m_LitTexturedShader := some s }
        r1
  by_cases hpaths : env.vertPath.isEmpty = true ∨ env.fragPath.isEmpty = true
  · simp only [Application.InitializeShader, hpaths, ↓reduceIte, Option.some.injEq] at h
    subst h
    rfl
  · by_cases hprog :
      (Shader.construct env.shaderDevice env.vertexCode env.fragmentCode).1.m_ProgramID = 0
    · simp only [Application.InitializeShader, hpaths, hprog, ↓reduceIte,
        Option.some.injEq] at h
      subst h
      rfl
    · simp only [Application.InitializeShader, hpaths, hprog, ↓reduceIte,
        Option.map_eq_some'] at h
      obtain ⟨r1, hr1, rfl⟩ := h
      have h2 := hm _ r1 hr1
      exact h2

theorem Application.Initialize_renderer {F : Type} [DecidableEq F] (ops : FloatOps F)
    (cam : CameraOps F) (env : InitEnv F) (this : Application F)
    (r : Bool × Application F × List Effect)
    (h : Application.Initialize ops cam env this = some r) (hok : r.1 = true) :
    r.2.1.m_Renderer ≠ none := by
  have hm : ∀ (w : Option Nat) (rr : Option Renderer) (x y : F)
      (r1 : Bool × Application F × List Effect), _ := fun w rr x y r1 =>
    Application.InitializeShader_renderer ops env
      { this with m_Window := w, m_Renderer := rr, m_FirstMouse := true, m_LastMouseX := x,
                  m_LastMouseY := y, uiContext := true, uiBackend := true } r1
  by_cases hsdl : env.sdlInit = 0
  · cases hw : env.window with
    | none =>
      simp only [Application.Initialize, hsdl, hw, ne_eq, not_true_eq_false, ↓reduceIte,
        Option.some.injEq] at h
      subst h
      simp at hok
    | some window =>
      cases hinit : (Renderer.Initialize env.rendererDevice Renderer.construct
          (some window)).1 with
      | false =>
        simp only [Application.Initialize, hsdl, hw, hinit, ne_eq, not_true_eq_false,
          Bool.not_false, ↓reduceIte, Option.some.injEq] at h
        subst h
        simp at hok
      | true =>
        by_cases hctx : (Renderer.Initialize env.rendererDevice Renderer.construct
            (some window)).2.1.m_Context = none
        · simp only [Application.Initialize, hsdl, hw, hinit, hctx, ne_eq, not_true_eq_false,
            Bool.not_true, Bool.false_eq_true, ↓reduceIte, Option.some.injEq] at h
          subst h
          simp at hok
        · simp only [Application.Initialize, hsdl, hw, hinit, hctx, ne_eq, not_true_eq_false,
            Bool.not_true, Bool.false_eq_true, ↓reduceIte, Option.map_eq_some'] at h
          obtain ⟨r1, hr1, rfl⟩ := h
          rw [hm _ _ _ _ r1 hr1]
          simp
  · simp only [Application.Initialize, hsdl, ne_eq, not_false_eq_true, ↓reduceIte,
      Option.some.injEq] at h
    subst h
    simp at hok

/-- The frame loop exits when the last of its inputs polls the window-close
event, if it did not exit before. -/
theorem Application.runLoop_exits {F : Type} [LinearOrder F] (cam : CameraOps F)
    (env : RenderEnv F) (inputs : List FrameInput) (final : FrameInput) (this : Application F)
    (hren : this.m_Renderer ≠ none)
    (hquit : ∃ polled ∈ final.events, polled.event = SDL_Event.quit) :
    ∃ r, Application.runLoop cam env (inputs ++ [final]) this = some r := by
  induction inputs generalizing this with
  | nil =>
    simp only [List.nil_append, Application.runLoop]
    split_ifs with hrun
    · obtain ⟨r1, hr1⟩ := (Application.frame_some cam env final this).1 hren
      have hstop : r1.1.m_IsRunning = false := by
        rw [Application.frame_flags cam env final this r1 hr1]
        have hall : (final.events.all fun polled => decide (polled.event ≠ SDL_Event.quit))
            = false := by
          obtain ⟨polled, hmem, hq⟩ := hquit
          rw [List.all_eq_false]
          exact ⟨polled, hmem, by simp [hq]⟩
        rw [hall]
        simp
      simp only [hr1, hstop, Bool.false_eq_true, if_false]
      exact ⟨_, rfl⟩
    · exact ⟨_, rfl⟩
  | cons input rest ih =>
    show ∃ r, Application.runLoop cam env (input :: (rest ++ [final])) this = some r
    simp only [Application.runLoop]
    split_ifs with hrun
    · obtain ⟨r1, hr1⟩ := (Application.frame_some cam env input this).1 hren
      obtain ⟨r2, hr2⟩ := ih r1.1 ((Application.frame_some cam env input this).2 r1 hr1).2.1
      simp only [hr1, hr2]
      exact ⟨_, rfl⟩
    · exact ⟨_, rfl⟩

/-- C21: the exit code of `main`.  When an exception leaves the `try` block the
exit code is 1, after the handler has written its line and called `Shutdown`
on the object as the throw left it.  When `Initialize` returns `false` the exit
code is 1, after the line "FATAL: Application initialization failed!" and a call
of `Shutdown` on the object `Initialize` left.  When `Initialize` returns `true`
and the frame loop exits, the exit code is 0; and the loop does exit on every
sequence of inputs whose last one polls the window-close event. -/
theorem Engine.main_exit_code {F : Type} [DecidableEq F] [LinearOrder F] (ops : FloatOps F)
    (cam : CameraOps F) (env : InitEnv F) (renderEnv : RenderEnv F)
    (inputs : List FrameInput) :
    (∀ t : Thrown F, ∃ line after,
      Engine.main ops cam env renderEnv inputs (some t)
        = some (1, t.effects ++ [Effect.cerr line] ++ (Application.Shutdown t.app).2
            ++ after)) ∧
    (∀ r, Application.Initialize ops cam env (Application.construct cam) = some r →
      r.1 = false →
      ∃ after, Engine.main ops cam env renderEnv inputs none
        = some (1, r.2.2 ++ [Effect.cerr "FATAL: Application initialization failed!"]
            ++ (Application.Shutdown r.2.1).2 ++ after)) ∧
    (∀ r ran, Application.Initialize ops cam env (Application.construct cam) = some r →
      r.1 = true → Application.Run cam renderEnv inputs r.2.1 = some ran →
      ∃ effects, Engine.main ops cam env renderEnv inputs none = some (0, effects)) ∧
    (∀ r (final : FrameInput),
      Application.Initialize ops cam env (Application.construct cam) = some r →
      r.1 = true → (∃ polled ∈ final.events, polled.event = SDL_Event.quit) →
      ∃ effects,
        Engine.main ops cam env renderEnv (inputs ++ [final]) none = some (0, effects)) := by
  refine ⟨?_, ?_, ?_, ?_⟩
  · intro t
    exact ⟨_, _, rfl⟩
  · intro r hr hok
    simp only [Engine.main, hr, hok, Bool.false_eq_true, if_false]
    exact ⟨_, rfl⟩
  · intro r ran hr hok hrun
    simp only [Engine.main, hr, hok, if_true, hrun]
    exact ⟨_, rfl⟩
  · intro r final hr hok hquit
    obtain ⟨r1, hr1⟩ := Application.runLoop_exits cam renderEnv inputs final r.2.1
      (Application.Initialize_renderer ops cam env _ r hr hok) hquit
    simp only [Engine.main, hr, hok, if_true, Application.Run, hr1, Option.map_some']
    exact ⟨_, rfl⟩

/-- C21 at `sampleEnv`, where the start-up succeeds and the first iteration
polls the window-close event; at `rejectedModelEnv`, where `Initialize` returns
`false`; and for an exception thrown before anything was set up. -/
theorem Engine.main_exit_code_sample :
    (Engine.main FileUtils.exactOps wholeCamera sampleEnv sampleRenderEnv [quitFrame] none).map
        (fun r => r.1) = some 0 ∧
    (Engine.main FileUtils.exactOps wholeCamera rejectedModelEnv sampleRenderEnv [quitFrame]
        none).map (fun r => r.1) = some 1 ∧
    (Engine.main FileUtils.exactOps wholeCamera sampleEnv sampleRenderEnv [quitFrame]
        (some { isStdException := true, app := Application.construct wholeCamera,
                effects := [] })).map (fun r => r.1) = some 1 ∧
    ∃ effects, Engine.main FileUtils.exactOps wholeCamera sampleEnv sampleRenderEnv
        ([] ++ [quitFrame]) none = some (0, effects) :=
  ⟨by decide, by decide, by decide,
   (Engine.main_exit_code FileUtils.exactOps wholeCamera sampleEnv sampleRenderEnv []).2.2.2
     ((Application.Initialize FileUtils.exactOps wholeCamera sampleEnv
        (Application.construct wholeCamera)).getD (false, Application.construct wholeCamera, []))
     quitFrame rfl (by decide) ⟨_, List.mem_singleton.mpr rfl, rfl⟩⟩

/-! ## The camera vectors over the reals -/

theorem cos_degrees_pos (pitch : ℝ) (h1 : -89 ≤ pitch) (h2 : pitch ≤ 89) :
    0 < Real.cos (pitch * Real.pi / 180) := by
  apply Real.cos_pos_of_mem_Ioo
  constructor
  · nlinarith [Real.pi_pos]
  · nlinarith [Real.pi_pos]

theorem Application.frontOf_real (cam : CameraOps ℝ) (h : cam.OverReals) (yaw pitch : ℝ) :
    Application.frontOf cam yaw pitch
      = (Real.cos (yaw * Real.pi / 180) * Real.cos (pitch * Real.pi / 180),
         Real.sin (pitch * Real.pi / 180),
         Real.sin (yaw * Real.pi / 180) * Real.cos (pitch * Real.pi / 180)) := by
  obtain ⟨-, -, -, hmul, hrad, hcos, hsin, -⟩ := h
  simp only [Application.frontOf, hmul, hrad, hcos, hsin]

theorem normSq_front (a b : ℝ) :
    normSq (Real.cos a * Real.cos b, Real.sin b, Real.sin a * Real.cos b) = 1 := by
  simp only [normSq]
  nlinarith [Real.cos_sq_add_sin_sq a, Real.cos_sq_add_sin_sq b]

/-- The vectors derived from a unit front vector `(x, y, z)` with `x * x + z * z`
positive: the vector normalised into the right vector has the squared length
`x * x + z * z`, and the one normalised into the up vector the squared length
1. -/
theorem Application.derived_vectors (cam : CameraOps ℝ) (h : cam.OverReals)
    (this : Application ℝ) (x y z : ℝ) (hfront : this.m_CameraFront = (x, y, z))
    (hunit : x * x + y * y + z * z = 1) (hpos : 0 < x * x + z * z) :
    normSq this.m_CameraFront = 1 ∧
    cam.normalize this.m_CameraFront = this.m_CameraFront ∧
    normSq (cam.cross this.m_CameraFront (cam.ofInt 0, cam.ofInt 1, cam.ofInt 0))
      = x * x + z * z ∧
    normSq (Application.cameraUpRaw cam this) = 1 := by
  obtain ⟨hint, -, -, -, -, -, -, hnorm, hcross, -, -⟩ := h
  have hsq : Real.sqrt (z * z + x * x) * Real.sqrt (z * z + x * x) = z * z + x * x :=
    Real.mul_self_sqrt (by linarith)
  have hsqpos : 0 < Real.sqrt (z * z + x * x) := Real.sqrt_pos.mpr (by linarith)
  have hinv : (Real.sqrt (z * z + x * x))⁻¹ * (Real.sqrt (z * z + x * x))⁻¹ * (z * z + x * x)
      = 1 := by
    field_simp
    nlinarith [hsq]
  refine ⟨?_, ?_, ?_, ?_⟩
  · rw [hfront]
    simpa [normSq] using hunit
  · rw [hnorm, hfront]
    have h1 : normSq (x, y, z) = 1 := by simpa [normSq] using hunit
    simp [h1]
  · rw [hcross, hfront]
    simp only [normSq, hint]
    push_cast
    ring
  · simp only [Application.cameraUpRaw, Application.cameraRight, hcross, hnorm, hfront, hint,
      normSq]
    push_cast
    ring_nf
    ring_nf at hinv hunit
    generalize (Real.sqrt (z ^ 2 + x ^ 2))⁻¹ = k at hinv ⊢
    nlinarith [hinv, hunit]

/-- C28: over the reals, for every yaw and every pitch in `[-89, 89]` degrees
the vector `(cos yaw * cos pitch, sin pitch, sin yaw * cos pitch)` has length 1,
so that normalising it changes nothing and divides by 1; its cross product
with the world-up vector `(0, 1, 0)` has the squared length `cos pitch ^ 2`,
which is positive, so the front is not parallel to world-up and the
normalisation into the right vector does not divide by zero; and the vector
normalised into the up vector has length 1.  `HandleMouseInput` leaves the
pitch in `[-89, 89]` and the front vector of this form; the initial front
`(0, 0, -1)` has the same three properties. -/
theorem Application.front_not_vertical (cam : CameraOps ℝ) (h : cam.OverReals)
    (this : Application ℝ) (xoffset yoffset yaw pitch : ℝ) :
    (-89 ≤ pitch → pitch ≤ 89 →
      normSq (Application.frontOf cam yaw pitch) = 1 ∧
      cam.normalize (Application.frontOf cam yaw pitch) = Application.frontOf cam yaw pitch ∧
      0 < normSq (cam.cross (Application.frontOf cam yaw pitch)
        (cam.ofInt 0, cam.ofInt 1, cam.ofInt 0)) ∧
      cam.cross (Application.frontOf cam yaw pitch) (cam.ofInt 0, cam.ofInt 1, cam.ofInt 0)
        ≠ (0, 0, 0) ∧
      normSq (Application.cameraUpRaw cam
        { this with m_CameraFront := Application.frontOf cam yaw pitch }) = 1) ∧
    (-89 ≤ (Application.HandleMouseInput cam this xoffset yoffset).m_CameraPitch ∧
      (Application.HandleMouseInput cam this xoffset yoffset).m_CameraPitch ≤ 89 ∧
      (Application.HandleMouseInput cam this xoffset yoffset).m_CameraFront
        = Application.frontOf cam
            (Application.HandleMouseInput cam this xoffset yoffset).m_CameraYaw
            (Application.HandleMouseInput cam this xoffset yoffset).m_CameraPitch ∧
      0 < normSq (cam.cross
        (Application.HandleMouseInput cam this xoffset yoffset).m_CameraFront
        (cam.ofInt 0, cam.ofInt 1, cam.ofInt 0)) ∧
      normSq (Application.cameraUpRaw cam
        (Application.HandleMouseInput cam this xoffset yoffset)) = 1) ∧
    ((Application.construct cam).m_CameraFront = (0, 0, -1) ∧
      normSq (Application.construct cam).m_CameraFront = 1 ∧
      0 < normSq (cam.cross (Application.construct cam).m_CameraFront
        (cam.ofInt 0, cam.ofInt 1, cam.ofInt 0)) ∧
      normSq (Application.cameraUpRaw cam (Application.construct cam)) = 1) := by
  have hgen : ∀ (app : Application ℝ) (yaw pitch : ℝ), -89 ≤ pitch → pitch ≤ 89 →
      app.m_CameraFront = Application.frontOf cam yaw pitch →
      normSq app.m_CameraFront = 1 ∧ cam.normalize app.m_CameraFront = app.m_CameraFront ∧
      0 < normSq (cam.cross app.m_CameraFront (cam.ofInt 0, cam.ofInt 1, cam.ofInt 0)) ∧
      normSq (Application.cameraUpRaw cam app) = 1 := by
    intro app yaw pitch h1 h2 hfront
    have hc := cos_degrees_pos pitch h1 h2
    rw [Application.frontOf_real cam h] at hfront
    have hunit := normSq_front (yaw * Real.pi / 180) (pitch * Real.pi / 180)
    simp only [normSq] at hunit
    have hxz : Real.cos (yaw * Real.pi / 180) * Real.cos (pitch * Real.pi / 180)
          * (Real.cos (yaw * Real.pi / 180) * Real.cos (pitch * Real.pi / 180))
        + Real.sin (yaw * Real.pi / 180) * Real.cos (pitch * Real.pi / 180)
          * (Real.sin (yaw * Real.pi / 180) * Real.cos (pitch * Real.pi / 180))
        = Real.cos (pitch * Real.pi / 180) * Real.cos (pitch * Real.pi / 180) := by
      nlinarith [Real.cos_sq_add_sin_sq (yaw * Real.pi / 180)]
    have hpos : 0 < Real.cos (yaw * Real.pi / 180) * Real.cos (pitch * Real.pi / 180)
          * (Real.cos (yaw * Real.pi / 180) * Real.cos (pitch * Real.pi / 180))
        + Real.sin (yaw * Real.pi / 180) * Real.cos (pitch * Real.pi / 180)
          * (Real.sin (yaw * Real.pi / 180) * Real.cos (pitch * Real.pi / 180)) := by
      rw [hxz]
      exact mul_pos hc hc
    obtain ⟨g1, g2, g3, g4⟩ := Application.derived_vectors cam h app _ _ _ hfront hunit hpos
    exact ⟨g1, g2, by rw [g3]; exact hpos, g4⟩
  have hlim : cam.deg89 = 89 ∧ cam.negDeg89 = -89 := ⟨h.2.2.2.2.2.2.2.2.2.1, h.2.2.2.2.2.2.2.2.2.2⟩
  have hpitch := (Application.HandleMouseInput_pitch_cases cam
    (by rw [hlim.1, hlim.2]; norm_num) this xoffset yoffset).1
  rw [hlim.1, hlim.2] at hpitch
  refine ⟨?_, ?_, ?_⟩
  · intro h1 h2
    obtain ⟨g1, g2, g3, g4⟩ :=
      hgen { this with m_CameraFront := Application.frontOf cam yaw pitch } yaw pitch h1 h2 rfl
    refine ⟨g1, g2, g3, ?_, g4⟩
    intro hzero
    have hz : normSq (cam.cross (Application.frontOf cam yaw pitch)
        (cam.ofInt 0, cam.ofInt 1, cam.ofInt 0)) = 0 := by
      rw [hzero]
      simp [normSq]
    have g3' : 0 < normSq (cam.cross (Application.frontOf cam yaw pitch)
        (cam.ofInt 0, cam.ofInt 1, cam.ofInt 0)) := g3
    linarith
  · have hshape : (Application.HandleMouseInput cam this xoffset yoffset).m_CameraFront
        = cam.normalize (Application.frontOf cam
            (Application.HandleMouseInput cam this xoffset yoffset).m_CameraYaw
            (Application.HandleMouseInput cam this xoffset yoffset).m_CameraPitch) := rfl
    have hnormal : ∀ yaw pitch : ℝ, -89 ≤ pitch → pitch ≤ 89 →
        cam.normalize (Application.frontOf cam yaw pitch) = Application.frontOf cam yaw pitch :=
      fun yaw pitch h1 h2 =>
        (hgen { this with m_CameraFront := Application.frontOf cam yaw pitch } yaw pitch h1 h2
          rfl).2.1
    have g2 := hnormal (Application.HandleMouseInput cam this xoffset yoffset).m_CameraYaw
      (Application.HandleMouseInput cam this xoffset yoffset).m_CameraPitch hpitch.1 hpitch.2
    have hfront : (Application.HandleMouseInput cam this xoffset yoffset).m_CameraFront
        = Application.frontOf cam
            (Application.HandleMouseInput cam this xoffset yoffset).m_CameraYaw
            (Application.HandleMouseInput cam this xoffset yoffset).m_CameraPitch :=
      hshape.trans g2
    obtain ⟨-, -, g3, g4⟩ := hgen (Application.HandleMouseInput cam this xoffset yoffset)
      _ _ hpitch.1 hpitch.2 hfront
    exact ⟨hpitch.1, hpitch.2, hfront, g3, g4⟩
  · have hint := h.1
    have hfront : (Application.construct cam).m_CameraFront = (0, 0, -1) := by
      simp only [Application.construct, hint]
      push_cast
      rfl
    obtain ⟨g1, -, g3, g4⟩ := Application.derived_vectors cam h (Application.construct cam)
      0 0 (-1) hfront (by norm_num) (by norm_num)
    exact ⟨hfront, g1, by rw [g3]; norm_num, g4⟩

/-- C28 for the exact operations over the reals, at yaw 30 and pitch 45
degrees and after a mouse movement of `(10, 2000)`, which clamps the pitch. -/
theorem Application.front_not_vertical_sample :
    ∃ cam : CameraOps ℝ, cam.OverReals ∧
      normSq (Application.frontOf cam 30 45) = 1 ∧
      0 < normSq (cam.cross (Application.frontOf cam 30 45)
        (cam.ofInt 0, cam.ofInt 1, cam.ofInt 0)) ∧
      (Application.HandleMouseInput cam (Application.construct cam) 10 2000).m_CameraPitch
        ≤ 89 ∧
      normSq (Application.cameraUpRaw cam
        (Application.HandleMouseInput cam (Application.construct cam) 10 2000)) = 1 :=
  let cam : CameraOps ℝ :=
    { ofInt := fun n => (n : ℝ)
      ofMillis := fun n => (n : ℝ) / 1000
      neg := fun x => -x
      add := fun x y => x + y
      mul := fun x y => x * y
      fmod := fun x y => x - y * (⌊x / y⌋ : ℝ)
      radians := fun x => x * Real.pi / 180
      cos := Real.cos
      sin := Real.sin
      normalize := fun v =>
        (v.1 * (Real.sqrt (normSq v))⁻¹, v.2.1 * (Real.sqrt (normSq v))⁻¹,
         v.2.2 * (Real.sqrt (normSq v))⁻¹)
      cross := fun a b =>
        (a.2.1 * b.2.2 - a.2.2 * b.2.1, a.2.2 * b.1 - a.1 * b.2.2, a.1 * b.2.1 - a.2.1 * b.1)
      deg89 := 89
      negDeg89 := -89
      baseSpeed := 5 / 2
      sensitivity := 1 / 10
      rotationSpeed := 1 / 2
      twoPi := 2 * Real.pi
      maxStep := 1 / 10 }
  have h : cam.OverReals :=
    ⟨fun _ => rfl, fun _ => rfl, fun _ _ => rfl, fun _ _ => rfl, fun _ => rfl, fun _ => rfl,
      fun _ => rfl, fun _ => rfl, fun _ _ => rfl, rfl, rfl⟩
  ⟨cam, h,
    ((Application.front_not_vertical cam h (Application.construct cam) 10 2000 30 45).1
      (by norm_num) (by norm_num)).1,
    ((Application.front_not_vertical cam h (Application.construct cam) 10 2000 30 45).1
      (by norm_num) (by norm_num)).2.2.1,
    (Application.front_not_vertical cam h (Application.construct cam) 10 2000 30 45).2.1.2.1,
    (Application.front_not_vertical cam h (Application.construct cam) 10 2000 30 45).2.1.2.2.2.2⟩
